import Mathlib

/-!
# HDD file layer: wire codec and virtual file operations

A shallow embedding of `hdd_file_io.c`, and of the control flow of `hdd_client.c`.

* Machine integers are `Nat`/`Int`; unsigned 32-bit arithmetic is reduced `% 2 ^ 32` and the
  64-bit command word `% 2 ^ 64` wherever the C code computes in that width.
* C strings are lists of bytes (`List Nat`) without the terminating NUL, so `strcmp(a, b) == 0`
  is list equality and `strlen` is `List.length`.
* The global array `hdd_files` is a list; an access outside the list is undefined behaviour in C
  and makes the embedded function return `none`.
* `hdd_client_operation` performs socket I/O. The file layer is embedded over an arbitrary
  function `client` that gives, for a server state, a command word and the buffer passed, the
  response word, the buffer contents after the call and the next server state.
* The control flow of `hdd_client_operation` itself (connection, the four transfer loops and
  their checks) is embedded separately, over the list of values that the successive `write`
  and `read` calls return.
* The constants of `hdd_driver.h`, `hdd_file_io.h` and `hdd_network.h` are not part of the
  sources at hand; they are the fields of `HddConsts`.
-/

namespace HDD

/-- A byte buffer. -/
abbrev Buf := List Nat

/-- The C struct `HDD_FILE` (the field `open` is called `is_open`, `open` being reserved). -/
structure HDD_FILE where
  id : Nat
  is_open : Nat
  position : Nat
  size : Nat
  name : List Nat
deriving DecidableEq, Repr

/-- The C struct `HDD_CMD`. -/
structure HDD_CMD where
  block : Nat
  r : Nat
  flags : Nat
  block_size : Nat
  op : Nat
deriving DecidableEq, Repr

/-- What a `void *buf` argument of `hdd_client_operation` points to: nothing (`NULL`), a byte
buffer, or the global array `hdd_files` itself. -/
inductive HddBuf where
  | null
  | bytes (b : Buf)
  | files (t : List HDD_FILE)
deriving DecidableEq, Repr

/-- Constants defined in headers that are not among the sources. -/
structure HddConsts where
  MAX_HDD_FILEDESCR : Nat
  MAX_FILENAME_LENGTH : Nat
  HDD_MAX_BLOCK_SIZE : Nat
  sizeof_HDD_FILE : Nat
  HDD_NULL_FLAG : Nat
  HDD_INIT : Nat
  HDD_FORMAT : Nat
  HDD_SAVE_AND_CLOSE : Nat
  HDD_META_BLOCK : Nat
  HDD_BLOCK_CREATE : Nat
  HDD_BLOCK_READ : Nat
  HDD_BLOCK_OVERWRITE : Nat
  HDD_BLOCK_DELETE : Nat
  HDD_DEVICE : Nat
deriving DecidableEq, Repr

/-- The behaviour of `hdd_client_operation(cmd, buf)` as seen by the file layer: from the state
of the connection and server, the command word and the buffer, to the response word, the buffer
after the call and the next state. -/
abbrev Client (σ : Type) := σ → Nat → HddBuf → Nat × HddBuf × σ

/-- The globals of `hdd_file_io.c` (`hdd_init`, `hdd_files`), the state behind
`hdd_client_operation`, and a log of the calls made to it (command word and buffer passed),
oldest first. -/
structure HddState (σ : Type) where
  hdd_init : Nat
  hdd_files : List HDD_FILE
  server : σ
  sent : List (Nat × HddBuf)

/-- C `cmd_generator`: `uint32_t block, uint8_t r, uint8_t flags, uint32_t block_size,
uint8_t op`, result a 64-bit word. The arguments are converted to the parameter types: `block`
is reduced to 32 bits (for `r`, `flags`, `op` and `block_size` the masks below make the
conversion invisible). -/
def cmd_generator (block r flags block_size op : Nat) : Nat :=
  let block := block % 2 ^ 32
  let block_size_comp := 0
  let op := op &&& 3
  let r := r &&& 1
  let flags := flags &&& 7
  let block_size_comp := ((2 ^ 32 - 1) - block_size_comp) >>> 6
  let block_size := block_size &&& block_size_comp
  let command := (op <<< 62) % 2 ^ 64
  let command := command ||| ((block_size <<< 36) % 2 ^ 64)
  let command := command ||| (command ||| ((flags <<< 33) % 2 ^ 64))
  let command := command ||| (command ||| ((r <<< 32) % 2 ^ 64))
  let command := command ||| (command ||| block)
  command

/-- C `cmd_reader`, on a 64-bit word. -/
def cmd_reader (cmd : Nat) : HDD_CMD :=
  let block_size_comp := 0
  let block_comp := 0
  let op := (cmd >>> 62) % 2 ^ 8
  let block_size_comp := ((2 ^ 32 - 1) - block_size_comp) >>> 6
  let block_size := ((cmd >>> 36) % 2 ^ 32) &&& block_size_comp
  let flags := ((cmd >>> 33) % 2 ^ 8) &&& 7
  let r := ((cmd >>> 32) % 2 ^ 8) &&& 1
  let block_comp := (2 ^ 32 - 1) - block_comp
  let block := (cmd % 2 ^ 32) &&& block_comp
  { block := block, r := r, flags := flags, block_size := block_size, op := op }

/-- One call of `hdd_client_operation`, recorded in the log. -/
def client_call {σ : Type} (client : Client σ) (w : HddState σ) (cmd : Nat) (buf : HddBuf) :
    Nat × HddBuf × HddState σ :=
  let res := client w.server cmd buf
  (res.1, res.2.1, { w with server := res.2.2, sent := w.sent ++ [(cmd, buf)] })

/-- The bytes of a buffer after a call that was given a byte buffer. -/
def HddBuf.toBytes (b : HddBuf) (dflt : Buf) : Buf :=
  match b with
  | .bytes x => x
  | _ => dflt

/-- The file table after a call that was given `hdd_files`. -/
def HddBuf.toFiles (b : HddBuf) (dflt : List HDD_FILE) : List HDD_FILE :=
  match b with
  | .files t => t
  | _ => dflt

/-- C `malloc(n)`: the contents are indeterminate in C, here zero bytes. -/
def malloc (n : Nat) : Buf := List.replicate n 0

/-- C `memcpy(&dst[doff], &src[soff], n)`: the result is `dst` with the `n` bytes at `doff`
replaced; bytes read outside `src` or `dst` read as 0. -/
def memcpy (dst : Buf) (doff : Nat) (src : Buf) (soff n : Nat) : Buf :=
  (List.range (max dst.length (doff + n))).map fun i =>
    if doff ≤ i ∧ i < doff + n then src.getD (soff + (i - doff)) 0 else dst.getD i 0

/-- Conversion of an `int32_t` to `uint32_t`. -/
def toU32 (x : Int) : Nat := (x % 2 ^ 32).toNat

/-- Conversion of a `uint32_t` to `int` (two's complement). -/
def toI32 (x : Nat) : Int :=
  if x % 2 ^ 32 < 2 ^ 31 then (x % 2 ^ 32 : Nat) else (x % 2 ^ 32 : Nat) - 2 ^ 32

/-- The record written by `hdd_file_initialization` into every slot. -/
def HDD_FILE.empty : HDD_FILE := { id := 0, is_open := 0, position := 0, size := 0, name := [] }

/-- C `hdd_file_initialization`: every one of the `MAX_HDD_FILEDESCR` slots is reset. -/
def hdd_file_initialization (K : HddConsts) : List HDD_FILE :=
  List.replicate K.MAX_HDD_FILEDESCR HDD_FILE.empty

/-- The string "Meta Block" as bytes. -/
def metaBlockName : List Nat := [77, 101, 116, 97, 32, 66, 108, 111, 99, 107]

/-- The block `if (hdd_init == 0) { ... }` that opens `hdd_format`, `hdd_mount`, `hdd_read` and
`hdd_write`: `false` when the initialize request came back with the result bit set. -/
def hdd_lazy_init {σ : Type} (K : HddConsts) (client : Client σ) (w : HddState σ) :
    Bool × HddState σ :=
  if w.hdd_init = 0 then
    let init_cmd := cmd_generator 0 0 K.HDD_INIT 0 K.HDD_DEVICE
    let res := client_call client w init_cmd .null
    if (cmd_reader res.1).r = 1 then (false, res.2.2)
    else (true, { res.2.2 with hdd_init := 1 })
  else (true, w)

/-- C `hdd_format`; the result is a `uint16_t`, so `-1` is 65535. -/
def hdd_format {σ : Type} (K : HddConsts) (client : Client σ) (w : HddState σ) :
    Option (Int × HddState σ) :=
  let i := hdd_lazy_init K client w
  if i.1 = false then some (65535, i.2)
  else
    let w := i.2
    let format := cmd_generator 0 0 K.HDD_FORMAT 0 K.HDD_DEVICE
    let res := client_call client w format .null
    let w := res.2.2
    if (cmd_reader res.1).r = 1 then some (65535, w)
    else
      let w := { w with hdd_files := hdd_file_initialization K }
      let create_meta := cmd_generator 0 0 K.HDD_META_BLOCK
        ((K.MAX_HDD_FILEDESCR * K.sizeof_HDD_FILE) % 2 ^ 32) K.HDD_BLOCK_CREATE
      let res := client_call client w create_meta (.files w.hdd_files)
      let create_result := cmd_reader res.1
      let w := { res.2.2 with hdd_files := res.2.1.toFiles w.hdd_files }
      if create_result.r = 1 then some (65535, w)
      else
        match w.hdd_files with
        | [] => none
        | f :: rest =>
          let f := { f with id := create_result.block, name := metaBlockName,
                            size := create_result.block_size, is_open := 1 }
          some (0, { w with hdd_files := f :: rest })

/-- The loop `while (file_handle < MAX_HDD_FILEDESCR && strcmp(hdd_files[file_handle].name,
path) != 0) file_handle++` of `hdd_open`, with `file_handle = MAX - k`; the value of
`file_handle` after the loop. -/
def hdd_open_search (files : List HDD_FILE) (path : List Nat) (MAX : Nat) : Nat → Option Nat
  | 0 => some MAX
  | k + 1 =>
    match files[MAX - (k + 1)]? with
    | none => none
    | some f => if f.name = path then some (MAX - (k + 1)) else hdd_open_search files path MAX k

/-- The loop `while (strcmp(hdd_files[search].name, "") != 0) search++` of `hdd_open`, with
`search = MAX - k`. The loop has no bound: at `search = MAX` it reads past the array. -/
def hdd_open_free (files : List HDD_FILE) (MAX : Nat) : Nat → Option Nat
  | 0 => none
  | k + 1 =>
    match files[MAX - (k + 1)]? with
    | none => none
    | some f => if f.name = [] then some (MAX - (k + 1)) else hdd_open_free files MAX k

/-- C `hdd_open`; `path = none` is `NULL`. `strcpy` of a path of `MAX_FILENAME_LENGTH` bytes
writes its NUL past `name[MAX_FILENAME_LENGTH]`. -/
def hdd_open {σ : Type} (K : HddConsts) (w : HddState σ) (path : Option (List Nat)) :
    Option (Int × HddState σ) :=
  if w.hdd_init = 0 then some (-1, w)
  else
    match path with
    | none => some (-1, w)
    | some p =>
      if p.length > K.MAX_FILENAME_LENGTH then some (-1, w)
      else
        match hdd_open_search w.hdd_files p K.MAX_HDD_FILEDESCR K.MAX_HDD_FILEDESCR with
        | none => none
        | some file_handle =>
          if file_handle = K.MAX_HDD_FILEDESCR then
            match hdd_open_free w.hdd_files K.MAX_HDD_FILEDESCR K.MAX_HDD_FILEDESCR with
            | none => none
            | some search =>
              if search = K.MAX_HDD_FILEDESCR then some (-1, w)
              else
                match w.hdd_files[search]? with
                | none => none
                | some f =>
                  if p.length + 1 > K.MAX_FILENAME_LENGTH then none
                  else
                    let f := { f with name := p, is_open := 1 }
                    some ((search : Int), { w with hdd_files := w.hdd_files.set search f })
          else
            match w.hdd_files[file_handle]? with
            | none => none
            | some f =>
              if f.is_open = 0 then
                let f := { f with is_open := 1, position := 0 }
                some ((file_handle : Int), { w with hdd_files := w.hdd_files.set file_handle f })
              else some ((file_handle : Int), w)

/-- C `hdd_close`. -/
def hdd_close {σ : Type} (K : HddConsts) (w : HddState σ) (fh : Int) :
    Option (Int × HddState σ) :=
  if w.hdd_init = 0 then some (-1, w)
  else if fh < 0 ∨ fh > K.MAX_HDD_FILEDESCR then some (-1, w)
  else
    match w.hdd_files[fh.toNat]? with
    | none => none
    | some f =>
      if f.is_open = 0 then some (-1, w)
      else
        let f := { f with is_open := 0, position := 0 }
        some (0, { w with hdd_files := w.hdd_files.set fh.toNat f })

/-- C `hdd_read`; `data = none` is `NULL`, and the second component of the result is the
caller's buffer after the call. -/
def hdd_read {σ : Type} (K : HddConsts) (client : Client σ) (w : HddState σ) (fh : Int)
    (data : Option Buf) (count : Int) : Option (Int × Option Buf × HddState σ) :=
  let i := hdd_lazy_init K client w
  if i.1 = false then some (-1, data, i.2)
  else
    let w := i.2
    if fh < 0 ∨ fh > K.MAX_HDD_FILEDESCR then some (-1, data, w)
    else
      match data with
      | none => some (-1, data, w)
      | some d =>
        if count < 0 ∨ count > K.HDD_MAX_BLOCK_SIZE then some (-1, data, w)
        else
          match w.hdd_files[fh.toNat]? with
          | none => none
          | some f =>
            if f.is_open = 0 then some (-1, data, w)
            else
              let read_block := cmd_generator f.id 0 0 f.size K.HDD_BLOCK_READ
              let read_buff := malloc f.size
              let res := client_call client w read_block (.bytes read_buff)
              let read_buff := res.2.1.toBytes read_buff
              let w := res.2.2
              if (cmd_reader res.1).r = 1 then some (-1, data, w)
              else if (f.size + 2 ^ 32 - f.position) % 2 ^ 32 > toU32 count then
                let data := memcpy d 0 read_buff f.position (toU32 count)
                let f := { f with position := (f.position + toU32 count) % 2 ^ 32 }
                some (count, some data, { w with hdd_files := w.hdd_files.set fh.toNat f })
              else
                let n := (f.size + 2 ^ 32 - f.position) % 2 ^ 32
                let data := memcpy d 0 read_buff f.position n
                let bytes_read := toI32 n
                let f := { f with position := f.size }
                some (bytes_read, some data, { w with hdd_files := w.hdd_files.set fh.toNat f })

/-- C `hdd_write`; `data = none` is `NULL`. -/
def hdd_write {σ : Type} (K : HddConsts) (client : Client σ) (w : HddState σ) (fh : Int)
    (data : Option Buf) (count : Int) : Option (Int × HddState σ) :=
  let i := hdd_lazy_init K client w
  if i.1 = false then some (-1, i.2)
  else
    let w := i.2
    if fh < 0 ∨ fh > K.MAX_HDD_FILEDESCR then some (-1, w)
    else
      match data with
      | none => some (-1, w)
      | some d =>
        if count < 0 then some (-1, w)
        else
          match w.hdd_files[fh.toNat]? with
          | none => none
          | some f =>
            if (toU32 count + f.position) % 2 ^ 32 > K.HDD_MAX_BLOCK_SIZE then some (-1, w)
            else if f.is_open = 0 then some (-1, w)
            else if f.id = 0 then
              let create := cmd_generator 0 0 K.HDD_NULL_FLAG (toU32 count) K.HDD_BLOCK_CREATE
              let res := client_call client w create (.bytes d)
              let check_create := cmd_reader res.1
              let w := res.2.2
              if check_create.r = 1 then some (-1, w)
              else
                let f := { f with id := check_create.block, position := toU32 count,
                                  size := toU32 count }
                some (count, { w with hdd_files := w.hdd_files.set fh.toNat f })
            else
              let read_block := cmd_generator f.id 0 0 f.size K.HDD_BLOCK_READ
              let read_buff := malloc f.size
              let res := client_call client w read_block (.bytes read_buff)
              let read_buff := res.2.1.toBytes read_buff
              let w := res.2.2
              if (cmd_reader res.1).r = 1 then some (-1, w)
              else if (f.position + toU32 count) % 2 ^ 32 < f.size then
                let read_buff := memcpy read_buff f.position d 0 (toU32 count)
                let write_block := cmd_generator f.id 0 0 f.size K.HDD_BLOCK_OVERWRITE
                let res := client_call client w write_block (.bytes read_buff)
                let w := res.2.2
                if (cmd_reader res.1).r = 1 then some (-1, w)
                else
                  let f := { f with position := (f.position + toU32 count) % 2 ^ 32 }
                  some (count, { w with hdd_files := w.hdd_files.set fh.toNat f })
              else
                let extend_write_buff := malloc ((f.position + toU32 count) % 2 ^ 32)
                let extend_write_buff := memcpy extend_write_buff 0 read_buff 0 f.size
                let extend_write_buff :=
                  memcpy extend_write_buff f.position d 0 (toU32 count)
                let create_block := cmd_generator 0 0 0 ((f.position + toU32 count) % 2 ^ 32)
                  K.HDD_BLOCK_CREATE
                let res := client_call client w create_block (.bytes extend_write_buff)
                let create_result := cmd_reader res.1
                let w := res.2.2
                if create_result.r = 1 then some (-1, w)
                else
                  let old_block_delete := cmd_generator f.id 0 0 0 K.HDD_BLOCK_DELETE
                  let res := client_call client w old_block_delete .null
                  let w := res.2.2
                  if (cmd_reader res.1).r = 1 then some (-1, w)
                  else
                    let f := { f with size := (f.position + toU32 count) % 2 ^ 32,
                                      id := create_result.block,
                                      position := (f.position + toU32 count) % 2 ^ 32 }
                    some (count, { w with hdd_files := w.hdd_files.set fh.toNat f })

/-- C `hdd_seek`; `loc` is a `uint32_t`, so the test `loc < 0` never holds. -/
def hdd_seek {σ : Type} (K : HddConsts) (w : HddState σ) (fh : Int) (loc : Nat) :
    Option (Int × HddState σ) :=
  if w.hdd_init = 0 then some (-1, w)
  else if fh < 0 ∨ fh > K.MAX_HDD_FILEDESCR then some (-1, w)
  else
    match w.hdd_files[fh.toNat]? with
    | none => none
    | some f =>
      if f.is_open = 0 then some (-1, w)
      else if loc > f.size then some (-1, w)
      else
        let f := { f with position := loc }
        some (0, { w with hdd_files := w.hdd_files.set fh.toNat f })

/-- Sample values for the header constants, used to run the functions on concrete inputs. -/
def sampleConsts : HddConsts :=
  { MAX_HDD_FILEDESCR := 1024, MAX_FILENAME_LENGTH := 128, HDD_MAX_BLOCK_SIZE := 1048575,
    sizeof_HDD_FILE := 144, HDD_NULL_FLAG := 0, HDD_INIT := 1, HDD_FORMAT := 2,
    HDD_SAVE_AND_CLOSE := 3, HDD_META_BLOCK := 4, HDD_BLOCK_CREATE := 0, HDD_BLOCK_READ := 1,
    HDD_BLOCK_OVERWRITE := 2, HDD_BLOCK_DELETE := 3, HDD_DEVICE := 3 }

/-- A client that answers from a script: each call consumes the next scripted response word and
buffer contents (`none`: the buffer is left as it was passed); once the script is exhausted it
answers with the all-ones word. -/
def scriptClient : Client (List (Nat × Option HddBuf)) := fun s _ buf =>
  match s with
  | [] => (2 ^ 64 - 1, buf, [])
  | (resp, b) :: rest => (resp, b.getD buf, rest)

/-- A sample state: an initialized device whose slot 1 is an open file of 5 bytes stored in
block 5, cursor at 3; the scripted server answers one request with success and the bytes
10, 20, 30, 40, 50. -/
def readSample : HddState (List (Nat × Option HddBuf)) :=
  { hdd_init := 1,
    hdd_files := [{ id := 1, is_open := 1, position := 0, size := 0, name := metaBlockName },
                  { id := 5, is_open := 1, position := 3, size := 5, name := [97] }],
    server := [(cmd_generator 5 0 0 5 1, some (.bytes [10, 20, 30, 40, 50]))],
    sent := [] }

/-- A sample state: an initialized device whose slot 1 is a freshly opened file; the scripted
server answers the first request with success and block id 9, the second with success and the
bytes 1, 2, 3. -/
def freshSample : HddState (List (Nat × Option HddBuf)) :=
  { hdd_init := 1,
    hdd_files := [{ id := 1, is_open := 1, position := 0, size := 0, name := metaBlockName },
                  { id := 0, is_open := 1, position := 0, size := 0, name := [97] }],
    server := [(cmd_generator 9 0 0 3 0, none), (cmd_generator 9 0 0 3 1, some (.bytes [1, 2, 3]))],
    sent := [] }

/-- A sample state: an initialized device whose slot 1 is an open file of 5 bytes stored in
block 5, cursor at 1; the scripted server answers three requests with success, the first with
the bytes 10, 20, 30, 40, 50, the second with block id 6. -/
def writeSample : HddState (List (Nat × Option HddBuf)) :=
  { hdd_init := 1,
    hdd_files := [{ id := 1, is_open := 1, position := 0, size := 0, name := metaBlockName },
                  { id := 5, is_open := 1, position := 1, size := 5, name := [97] }],
    server := [(cmd_generator 5 0 0 5 1, some (.bytes [10, 20, 30, 40, 50])),
               (cmd_generator 6 0 0 5 0, none), (cmd_generator 5 0 0 0 3, none)],
    sent := [] }

/-- States reachable from a successful `hdd_format` by `hdd_open`, `hdd_close`, `hdd_read`,
`hdd_write` and `hdd_seek` calls with any arguments and any results. -/
inductive Reachable {σ : Type} (K : HddConsts) (client : Client σ) : HddState σ → Prop where
  | format (w0 w : HddState σ) :
      hdd_format K client w0 = some (0, w) → Reachable K client w
  | open_ (w w2 : HddState σ) (path : Option (List Nat)) (r : Int) :
      Reachable K client w → hdd_open K w path = some (r, w2) → Reachable K client w2
  | close (w w2 : HddState σ) (fh r : Int) :
      Reachable K client w → hdd_close K w fh = some (r, w2) → Reachable K client w2
  | read (w w2 : HddState σ) (fh : Int) (data data2 : Option Buf) (count r : Int) :
      Reachable K client w → hdd_read K client w fh data count = some (r, data2, w2) →
      Reachable K client w2
  | write (w w2 : HddState σ) (fh : Int) (data : Option Buf) (count r : Int) :
      Reachable K client w → hdd_write K client w fh data count = some (r, w2) →
      Reachable K client w2
  | seek (w w2 : HddState σ) (fh : Int) (loc : Nat) (r : Int) :
      Reachable K client w → hdd_seek K w fh loc = some (r, w2) → Reachable K client w2

/-- The state of a process that has not called anything yet: zeroed globals; the scripted
server will answer four requests with success, giving block id 1 to the third (the meta
block) and block id 2 to the fourth. -/
def bootSample : HddState (List (Nat × Option HddBuf)) :=
  { hdd_init := 0,
    hdd_files := hdd_file_initialization sampleConsts,
    server := [(cmd_generator 0 0 1 0 3, none), (cmd_generator 0 0 2 0 3, none),
               (cmd_generator 1 0 4 147456 0, none), (cmd_generator 2 0 0 1 0, none)],
    sent := [] }

/-- The buffer `extend_write_buff` that the growth branch of `hdd_write` sends. -/
def growth_payload (read_buff : Buf) (size position : Nat) (d : Buf) (count : Nat) : Buf :=
  memcpy (memcpy (malloc (position + count)) 0 read_buff 0 size) position d 0 count

/-- C `hdd_mount`; the result is a `uint16_t`, so `-1` is 65535. The table is reset before
`hdd_files[0].id` is read for the command, and the size test compares the `uint32_t` field with
the `size_t` product. -/
def hdd_mount {σ : Type} (K : HddConsts) (client : Client σ) (w : HddState σ) :
    Option (Int × HddState σ) :=
  let i := hdd_lazy_init K client w
  if i.1 = false then some (65535, i.2)
  else
    let w := { i.2 with hdd_files := hdd_file_initialization K }
    match w.hdd_files with
    | [] => none
    | f0 :: _ =>
      let read_meta := cmd_generator f0.id 0 K.HDD_META_BLOCK
        ((K.MAX_HDD_FILEDESCR * K.sizeof_HDD_FILE) % 2 ^ 32) K.HDD_BLOCK_READ
      let res := client_call client w read_meta (.files w.hdd_files)
      let read_result := cmd_reader res.1
      let w := { res.2.2 with hdd_files := res.2.1.toFiles w.hdd_files }
      if read_result.r = 1 then some (65535, w)
      else if read_result.block_size ≠ K.MAX_HDD_FILEDESCR * K.sizeof_HDD_FILE then
        some (65535, w)
      else
        match w.hdd_files with
        | [] => none
        | f :: rest =>
          let f := { f with id := read_result.block, name := metaBlockName,
                            size := read_result.block_size, is_open := 1 }
          some (0, { w with hdd_files := f :: rest })

/-- The client leaves a file table passed as buffer as it is. In `hdd_client.c`,
`hdd_client_operation` writes into `buf` only when the op field of the response word is
`HDD_BLOCK_READ`; of the calls of `hdd_format`, `hdd_open`, `hdd_close`, `hdd_read`, `hdd_write`
and `hdd_seek` only the meta-block create of `hdd_format` passes the table. -/
def KeepsTable {σ : Type} (client : Client σ) : Prop :=
  ∀ (s : σ) (cmd : Nat) (t : List HDD_FILE), ((client s cmd (.files t)).2.1).toFiles t = t

/-- No two distinct positions of a list of names hold the same non-empty name. -/
def UniqueNames (names : List (List Nat)) : Prop :=
  ∀ (a b : Nat) (x : List Nat), names[a]? = some x → names[b]? = some x → x ≠ [] → a = b

/-- States reachable from a successful `hdd_format` or `hdd_mount` by `hdd_open`, `hdd_close`,
`hdd_read`, `hdd_write` and `hdd_seek` calls with any arguments; when `close0` is `false`,
`hdd_close` is called on handles other than 0 only. -/
inductive ReachableM {σ : Type} (K : HddConsts) (client : Client σ) (close0 : Bool) :
    HddState σ → Prop where
  | format (w0 w : HddState σ) :
      hdd_format K client w0 = some (0, w) → ReachableM K client close0 w
  | mount (w0 w : HddState σ) :
      hdd_mount K client w0 = some (0, w) → ReachableM K client close0 w
  | open_ (w w2 : HddState σ) (path : Option (List Nat)) (r : Int) :
      ReachableM K client close0 w → hdd_open K w path = some (r, w2) →
      ReachableM K client close0 w2
  | close (w w2 : HddState σ) (fh r : Int) :
      ReachableM K client close0 w → (fh ≠ 0 ∨ close0 = true) →
      hdd_close K w fh = some (r, w2) → ReachableM K client close0 w2
  | read (w w2 : HddState σ) (fh : Int) (data data2 : Option Buf) (count r : Int) :
      ReachableM K client close0 w → hdd_read K client w fh data count = some (r, data2, w2) →
      ReachableM K client close0 w2
  | write (w w2 : HddState σ) (fh : Int) (data : Option Buf) (count r : Int) :
      ReachableM K client close0 w → hdd_write K client w fh data count = some (r, w2) →
      ReachableM K client close0 w2
  | seek (w w2 : HddState σ) (fh : Int) (loc : Nat) (r : Int) :
      ReachableM K client close0 w → hdd_seek K w fh loc = some (r, w2) →
      ReachableM K client close0 w2

/-- A sample state: an initialized device whose slot 1 is a closed file of 5 bytes stored in
block 5 with a stale cursor 3, slot 2 is free; nothing is scripted for the server. -/
def closedSample : HddState (List (Nat × Option HddBuf)) :=
  { hdd_init := 1,
    hdd_files := [{ id := 1, is_open := 1, position := 0, size := 0, name := metaBlockName },
                  { id := 5, is_open := 0, position := 3, size := 5, name := [97] },
                  HDD_FILE.empty],
    server := [],
    sent := [] }

/-- A sample state with a full table: slot 0 is the meta block and slots 1 to 1023 hold the
1023 distinct three-byte names `f`, `1 + i / 255`, `1 + i % 255`. -/
def fullSample : HddState (List (Nat × Option HddBuf)) :=
  { hdd_init := 1,
    hdd_files := { id := 1, is_open := 1, position := 0, size := 147456, name := metaBlockName }
      :: (List.range 1023).map fun i =>
          { id := 0, is_open := 1, position := 0, size := 0,
            name := [102, 1 + i / 255, 1 + i % 255] },
    server := [],
    sent := [] }

/-- A boot state (zeroed globals) whose scripted server answers the initialize and format
requests with success and the meta-block create of `hdd_format` with a success word of op
`HDD_BLOCK_READ` (1) and size 147456 followed by a payload: `hdd_client_operation` then writes
the payload over `hdd_files`, which leaves the table `t`. -/
def clobberSample (t : List HDD_FILE) : HddState (List (Nat × Option HddBuf)) :=
  { hdd_init := 0,
    hdd_files := hdd_file_initialization sampleConsts,
    server := [(cmd_generator 0 0 1 0 3, none), (cmd_generator 0 0 2 0 3, none),
               (cmd_generator 1 0 4 147456 1, some (.files t))],
    sent := [] }

/-- A client whose server answers every request with success and a new block id, with the op
field `HDD_BLOCK_CREATE` (0 in `sampleConsts`), and never sends a payload: the buffer is left
as it was passed. The state counts the requests. -/
def okClient : Client Nat := fun s _ buf => (cmd_generator (s + 1) 0 0 0 0, buf, s + 1)

/-- The state of a process that has not called anything yet, in front of `okClient`. -/
def okBoot : HddState Nat :=
  { hdd_init := 0, hdd_files := hdd_file_initialization sampleConsts, server := 0, sent := [] }

/-- A sample state as `hdd_format` leaves it when the server gave the meta block the id 7; the
scripted server will answer one request with success, block id 7, size 147456, op
`HDD_BLOCK_READ` and the stored table as payload. -/
def mountSample : HddState (List (Nat × Option HddBuf)) :=
  { hdd_init := 1,
    hdd_files := { id := 7, is_open := 1, position := 0, size := 147456, name := metaBlockName }
      :: List.replicate 1023 HDD_FILE.empty,
    server := [(cmd_generator 7 0 4 147456 1,
      some (.files ({ id := 7, is_open := 1, position := 0, size := 147456,
                      name := metaBlockName } :: List.replicate 1023 HDD_FILE.empty)))],
    sent := [] }

/-- The requests `hdd_write` can send for the record `f` and the count `count`: the read of the
current block, the create of the first write, the overwrite of the in-place write, the create
and the delete of the growth write. -/
def WriteRequest (K : HddConsts) (f : HDD_FILE) (count : Int) (cmd : Nat) : Prop :=
  cmd = cmd_generator f.id 0 0 f.size K.HDD_BLOCK_READ
    ∨ cmd = cmd_generator 0 0 K.HDD_NULL_FLAG (toU32 count) K.HDD_BLOCK_CREATE
    ∨ cmd = cmd_generator f.id 0 0 f.size K.HDD_BLOCK_OVERWRITE
    ∨ cmd = cmd_generator 0 0 0 ((f.position + toU32 count) % 2 ^ 32) K.HDD_BLOCK_CREATE
    ∨ cmd = cmd_generator f.id 0 0 0 K.HDD_BLOCK_DELETE

/-- A sample state: an initialized device whose slot 1 is an open, unwritten record with the
cursor at `2^32 - 1`; the scripted server answers one request with success and block id 9. -/
def wrapSample : HddState (List (Nat × Option HddBuf)) :=
  { hdd_init := 1,
    hdd_files := [{ id := 1, is_open := 1, position := 0, size := 0, name := metaBlockName },
                  { id := 0, is_open := 1, position := 4294967295, size := 4294967295,
                    name := [97] }],
    server := [(cmd_generator 9 0 0 1 0, none)],
    sent := [] }

/-- A sample state: an initialized device whose slot 1 is an open record of
`HDD_MAX_BLOCK_SIZE + 1` bytes stored in block 9, cursor at 0; the scripted server answers the
read and the overwrite of block 9 with success and no payload. -/
def oversizeSample : HddState (List (Nat × Option HddBuf)) :=
  { hdd_init := 1,
    hdd_files := [{ id := 1, is_open := 1, position := 0, size := 0, name := metaBlockName },
                  { id := 9, is_open := 1, position := 0, size := 1048576, name := [97] }],
    server := [(cmd_generator 9 0 0 1048576 1, none), (cmd_generator 9 0 0 1048576 2, none)],
    sent := [] }

/-- C `hdd_unmount`; the result is a `uint16_t`, so `-1` is 65535. -/
def hdd_unmount {σ : Type} (K : HddConsts) (client : Client σ) (w : HddState σ) :
    Option (Int × HddState σ) :=
  if w.hdd_init = 0 then some (65535, w)
  else
    match w.hdd_files with
    | [] => none
    | f0 :: _ =>
      let save_meta := cmd_generator f0.id 0 K.HDD_META_BLOCK
        ((K.MAX_HDD_FILEDESCR * K.sizeof_HDD_FILE) % 2 ^ 32) K.HDD_BLOCK_OVERWRITE
      let res := client_call client w save_meta (.files w.hdd_files)
      let save_result := cmd_reader res.1
      let w := { res.2.2 with hdd_files := res.2.1.toFiles w.hdd_files }
      if save_result.r = 1 then some (65535, w)
      else
        let update_meta := cmd_generator 0 0 K.HDD_SAVE_AND_CLOSE 0 K.HDD_DEVICE
        let res := client_call client w update_meta .null
        let update_result := cmd_reader res.1
        let w := res.2.2
        if update_result.r = 1 then some (65535, w)
        else some (0, { w with hdd_init := 0 })

/-- A client together with a record of the response words it has returned, oldest first. -/
def logClient {σ : Type} (client : Client σ) : Client (σ × List Nat) := fun s cmd buf =>
  let res := client s.1 cmd buf
  (res.1, res.2.1, (res.2.2, s.2 ++ [res.1]))

/-- The value `-1` returned by `hdd_client_operation` as a 64-bit response word. -/
def HDD_SENTINEL : Nat := 2 ^ 64 - 1

/-- Conversion of an integer value to `int` (32 bits, two's complement). -/
def toInt (x : Int) : Int := toI32 (toU32 x)

/-- The four loops of `hdd_client_operation`,
`while (n < len) n += rw(socket_fd, &p[n], len - n);` where `rw` is `write` or `read`.
`n` is an `int` and `len` is unsigned of `wd` bits (`sizeof(...)`, a `size_t`, or a
`uint32_t`), so the comparison is made on `n` converted to unsigned. The list holds the values
returned by the successive socket calls; the result is the final `n` with the values not
consumed, and `none` when the loop is still running after the last value. -/
def transfer_loop (wd len : Nat) : List Int → Int → Option (Int × List Int)
  | [], n => if (n % 2 ^ wd).toNat < len then none else some (n, [])
  | r :: rest, n =>
    if (n % 2 ^ wd).toNat < len then transfer_loop wd len rest (toInt (n + r))
    else some (n, r :: rest)

/-- Step 3 of `hdd_client_operation`: the response word is received, and a payload when its
op is `HDD_BLOCK_READ`. `resp` is the word `ntohll64(*res)` found in the response buffer after
the first loop. -/
def client_receive (K : HddConsts) (resp : Nat) (results : List Int) :
    Option (Nat × List Int) :=
  match transfer_loop 64 8 results 0 with
  | none => none
  | some (res_byte_read, results) =>
    if res_byte_read = -1 then some (HDD_SENTINEL, results)
    else
      let converted_res := resp
      let res_op := (converted_res >>> 62) % 2 ^ 8
      if res_op = K.HDD_BLOCK_READ then
        let res_size_comp := ((2 ^ 32 - 1) - 0) >>> 6
        let res_size := ((converted_res >>> 36) % 2 ^ 32) &&& res_size_comp
        match transfer_loop 32 res_size results 0 with
        | none => none
        | some (res_block_byte_read, results) =>
          if res_block_byte_read = -1 then some (HDD_SENTINEL, results)
          else some (converted_res, results)
      else some (converted_res, results)

/-- The control flow of C `hdd_client_operation` over the results of its system calls:
`connect_ok` says whether `inet_aton`, `socket` and `connect` all succeed, `results` are the
values returned by the successive `write` and `read` calls, and `resp` is the response word
received. The result is the value returned with the socket results not consumed, and `none`
when a loop is still running after the last of them. `HddBitCmd` and `HddBitResp` are 64-bit
words of 8 bytes and `size_t` has 64 bits. -/
def hdd_client_operation (K : HddConsts) (cmd : Nat) (connect_ok : Bool) (resp : Nat)
    (results : List Int) : Option (Nat × List Int) :=
  let op := (cmd >>> 62) % 2 ^ 8
  let flag := ((cmd >>> 33) % 2 ^ 8) &&& 7
  let buf_size_comp := ((2 ^ 32 - 1) - 0) >>> 6
  let buf_size := ((cmd >>> 36) % 2 ^ 32) &&& buf_size_comp
  if flag = K.HDD_INIT ∧ connect_ok = false then some (HDD_SENTINEL, results)
  else
    match transfer_loop 64 8 results 0 with
    | none => none
    | some (cmd_byte_sent, results) =>
      if cmd_byte_sent = -1 then some (HDD_SENTINEL, results)
      else if op = K.HDD_BLOCK_CREATE ∨ op = K.HDD_BLOCK_OVERWRITE then
        match transfer_loop 32 buf_size results 0 with
        | none => none
        | some (buf_byte_sent, results) =>
          if buf_byte_sent = -1 then some (HDD_SENTINEL, results)
          else client_receive K resp results
      else client_receive K resp results

/-- A sample state: an initialized device whose meta block has the id 7 and whose slot 1 is a
closed file of 5 bytes in block 5; the scripted server answers the overwrite of the meta block
and the save-and-close request with success. -/
def unmountSample : HddState (List (Nat × Option HddBuf)) :=
  { hdd_init := 1,
    hdd_files := [{ id := 7, is_open := 1, position := 0, size := 147456, name := metaBlockName },
                  { id := 5, is_open := 0, position := 0, size := 5, name := [97] }],
    server := [(cmd_generator 7 0 4 147456 2, none), (cmd_generator 0 0 3 0 3, none)],
    sent := [] }

/-- Every response word of the list has the result bit clear. -/
def AllOk (l : List Nat) : Prop := ∀ x ∈ l, (cmd_reader x).r ≠ 1

/-- A sample state: an initialized device whose slot 1 is an open file of 5 bytes in block 5,
in front of a scripted server that has no answer left, so that every call of the client
returns the failure sentinel; the responses are recorded by `logClient`. -/
def downSample : HddState (List (Nat × Option HddBuf) × List Nat) :=
  { hdd_init := 1,
    hdd_files := [{ id := 1, is_open := 1, position := 0, size := 0, name := metaBlockName },
                  { id := 5, is_open := 1, position := 3, size := 5, name := [97] }],
    server := ([], []),
    sent := [] }

/-! ## The wire codec -/

theorem or_eq_add_of_aligned (x y k : Nat) (hx : x % 2 ^ k = 0) (hy : y < 2 ^ k) :
    x ||| y = x + y := by
  have hx2 : x = 2 ^ k * (x / 2 ^ k) := by
    have := Nat.div_add_mod x (2 ^ k)
    omega
  rw [hx2, Nat.mul_add_lt_is_or hy]

theorem and_3 (x : Nat) : x &&& 3 = x % 4 := Nat.and_pow_two_sub_one_eq_mod x 2

theorem and_1 (x : Nat) : x &&& 1 = x % 2 := Nat.and_pow_two_sub_one_eq_mod x 1

theorem and_7 (x : Nat) : x &&& 7 = x % 8 := Nat.and_pow_two_sub_one_eq_mod x 3

theorem and_26 (x : Nat) : x &&& 67108863 = x % 67108864 :=
  Nat.and_pow_two_sub_one_eq_mod x 26

theorem and_32 (x : Nat) : x &&& 4294967295 = x % 4294967296 :=
  Nat.and_pow_two_sub_one_eq_mod x 32

theorem block_size_comp_eq : ((2 : Nat) ^ 32 - 1 - 0) >>> 6 = 67108863 := by decide

theorem block_size_comp_eq2 : (4294967295 : Nat) >>> 6 = 67108863 := by decide

theorem block_comp_eq : ((2 : Nat) ^ 32 - 1 - 0) = 4294967295 := by decide

/-- The command word as a sum of its five fields, for any arguments. -/
theorem cmd_generator_arith_mod (block r flags block_size op : Nat) :
    cmd_generator block r flags block_size op
      = (op % 4) * 2 ^ 62 + (block_size % 2 ^ 26) * 2 ^ 36 + (flags % 8) * 2 ^ 33
        + (r % 2) * 2 ^ 32 + block % 2 ^ 32 := by
  simp only [cmd_generator, block_size_comp_eq, block_comp_eq, block_size_comp_eq2]
  simp only [and_3, and_1, and_7, and_26, Nat.shiftLeft_eq]
  have a1 : op % 4 * 2 ^ 62 % 2 ^ 64 = op % 4 * 2 ^ 62 := by omega
  have a2 : block_size % 67108864 * 2 ^ 36 % 2 ^ 64 = block_size % 67108864 * 2 ^ 36 := by
    omega
  have a3 : flags % 8 * 2 ^ 33 % 2 ^ 64 = flags % 8 * 2 ^ 33 := by omega
  have a4 : r % 2 * 2 ^ 32 % 2 ^ 64 = r % 2 * 2 ^ 32 := by omega
  rw [a1, a2, a3, a4]
  simp only [← Nat.or_assoc, Nat.or_self]
  rw [or_eq_add_of_aligned (op % 4 * 2 ^ 62) _ 62 (by omega) (by omega),
    or_eq_add_of_aligned (op % 4 * 2 ^ 62 + _) _ 36 (by omega) (by omega),
    or_eq_add_of_aligned (op % 4 * 2 ^ 62 + _ + _) _ 33 (by omega) (by omega),
    or_eq_add_of_aligned (op % 4 * 2 ^ 62 + _ + _ + _) _ 32 (by omega) (by omega)]
  omega

/-- The command word as a sum of its five fields. -/
theorem cmd_generator_arith (block r flags block_size op : Nat) (hb : block < 2 ^ 32) :
    cmd_generator block r flags block_size op
      = (op % 4) * 2 ^ 62 + (block_size % 2 ^ 26) * 2 ^ 36 + (flags % 8) * 2 ^ 33
        + (r % 2) * 2 ^ 32 + block := by
  rw [cmd_generator_arith_mod, Nat.mod_eq_of_lt hb]

/-- The decoded record by division and remainder. -/
theorem cmd_reader_arith (cmd : Nat) :
    cmd_reader cmd = { block := cmd % 2 ^ 32, r := cmd / 2 ^ 32 % 2, flags := cmd / 2 ^ 33 % 8,
                       block_size := cmd / 2 ^ 36 % 2 ^ 26, op := cmd / 2 ^ 62 % 2 ^ 8 } := by
  simp only [cmd_reader, block_size_comp_eq, block_comp_eq, block_size_comp_eq2]
  simp only [and_1, and_7, and_26, and_32, Nat.shiftRight_eq_div_pow]
  congr 1 <;> omega

/-- The block size decoded from a command word is at most the block size it was generated
with. -/
theorem cmd_reader_block_size_le (block r flags block_size op : Nat) :
    (cmd_reader (cmd_generator block r flags block_size op)).block_size ≤ block_size := by
  rw [cmd_reader_arith, cmd_generator_arith_mod]
  simp only
  omega

/-- Decoding an encoded word gives back the masked fields. -/
theorem cmd_reader_cmd_generator (block r flags block_size op : Nat) (hb : block < 2 ^ 32) :
    cmd_reader (cmd_generator block r flags block_size op)
      = { block := block, r := r % 2, flags := flags % 8, block_size := block_size % 2 ^ 26,
          op := op % 4 } := by
  rw [cmd_reader_arith, cmd_generator_arith _ _ _ _ _ hb]
  congr 1 <;> omega

/-- C1. Codec round trip: for fields within their bit widths (`op < 4`, `result < 2`,
`flag < 8`, `block_size < 2^26`, `block_id < 2^32`), `cmd_reader (cmd_generator ...)` is exactly
the record of those fields. -/
theorem codec_round_trip (block_id result flag block_size op : Nat)
    (hop : op < 4) (hres : result < 2) (hflag : flag < 8) (hsize : block_size < 2 ^ 26)
    (hid : block_id < 2 ^ 32) :
    cmd_reader (cmd_generator block_id result flag block_size op)
      = { op := op, block_size := block_size, flags := flag, r := result, block := block_id } := by
  rw [cmd_reader_cmd_generator _ _ _ _ _ hid]
  congr 1 <;> omega

theorem codec_round_trip_witness :
    cmd_reader (cmd_generator 4294967295 1 5 67108863 2)
      = { op := 2, block_size := 67108863, flags := 5, r := 1, block := 4294967295 } :=
  codec_round_trip 4294967295 1 5 67108863 2 (by decide) (by decide) (by decide) (by decide)
    (by decide)

/-- C2. Bit layout of `cmd_generator`: for arguments of the C types (`block` a `uint32_t`), the
word is `((op & 3) << 62) | ((block_size & (2^26 - 1)) << 36) | ((flags & 7) << 33) |
((r & 1) << 32) | block`; it fits 64 bits, and its bits 63-62, 61-36, 35-33, 32 and 31-0 are
the masked op, block size, flags, result bit and the block id. -/
theorem cmd_generator_layout (block r flags block_size op : Nat) (hb : block < 2 ^ 32) :
    cmd_generator block r flags block_size op
        = ((op &&& 3) <<< 62) ||| ((block_size &&& (2 ^ 26 - 1)) <<< 36)
          ||| ((flags &&& 7) <<< 33) ||| ((r &&& 1) <<< 32) ||| block
      ∧ cmd_generator block r flags block_size op < 2 ^ 64
      ∧ cmd_generator block r flags block_size op / 2 ^ 62 = op &&& 3
      ∧ cmd_generator block r flags block_size op / 2 ^ 36 % 2 ^ 26 = block_size &&& (2 ^ 26 - 1)
      ∧ cmd_generator block r flags block_size op / 2 ^ 33 % 2 ^ 3 = flags &&& 7
      ∧ cmd_generator block r flags block_size op / 2 ^ 32 % 2 = r &&& 1
      ∧ cmd_generator block r flags block_size op % 2 ^ 32 = block := by
  have e : (2 : Nat) ^ 26 - 1 = 67108863 := by decide
  rw [cmd_generator_arith _ _ _ _ _ hb, e]
  simp only [and_3, and_1, and_7, and_26, Nat.shiftLeft_eq]
  rw [or_eq_add_of_aligned (op % 4 * 2 ^ 62) _ 62 (by omega) (by omega),
    or_eq_add_of_aligned (op % 4 * 2 ^ 62 + _) _ 36 (by omega) (by omega),
    or_eq_add_of_aligned (op % 4 * 2 ^ 62 + _ + _) _ 33 (by omega) (by omega),
    or_eq_add_of_aligned (op % 4 * 2 ^ 62 + _ + _ + _) _ 32 (by omega) (by omega)]
  refine ⟨by omega, by omega, by omega, by omega, by omega, by omega, by omega⟩

theorem cmd_generator_layout_witness :
    cmd_generator 7 255 255 4294967295 255
        = ((255 &&& 3) <<< 62) ||| ((4294967295 &&& (2 ^ 26 - 1)) <<< 36)
          ||| ((255 &&& 7) <<< 33) ||| ((255 &&& 1) <<< 32) ||| 7
      ∧ cmd_generator 7 255 255 4294967295 255 < 2 ^ 64
      ∧ cmd_generator 7 255 255 4294967295 255 / 2 ^ 62 = 255 &&& 3
      ∧ cmd_generator 7 255 255 4294967295 255 / 2 ^ 36 % 2 ^ 26 = 4294967295 &&& (2 ^ 26 - 1)
      ∧ cmd_generator 7 255 255 4294967295 255 / 2 ^ 33 % 2 ^ 3 = 255 &&& 7
      ∧ cmd_generator 7 255 255 4294967295 255 / 2 ^ 32 % 2 = 255 &&& 1
      ∧ cmd_generator 7 255 255 4294967295 255 % 2 ^ 32 = 7 :=
  cmd_generator_layout 7 255 255 4294967295 255 (by decide)

/-- C3. Out-of-range fields are masked and never spill: for every `op`, `r`, `flags`,
`block_size` (in particular 8-bit and 32-bit ones) and every 32-bit `block`, decoding the
encoded word gives `(op & 3, block_size & (2^26 - 1), flags & 7, r & 1, block)`; hence two
argument tuples that agree after masking decode to the same record, whatever their high bits. -/
theorem codec_masks_fields (block r flags block_size op : Nat) (hb : block < 2 ^ 32) :
    cmd_reader (cmd_generator block r flags block_size op)
        = { op := op &&& 3, block_size := block_size &&& (2 ^ 26 - 1), flags := flags &&& 7,
            r := r &&& 1, block := block }
      ∧ ∀ r2 flags2 block_size2 op2 : Nat,
          op2 &&& 3 = op &&& 3 → block_size2 &&& (2 ^ 26 - 1) = block_size &&& (2 ^ 26 - 1) →
          flags2 &&& 7 = flags &&& 7 → r2 &&& 1 = r &&& 1 →
          cmd_reader (cmd_generator block r2 flags2 block_size2 op2)
            = cmd_reader (cmd_generator block r flags block_size op) := by
  have e : (2 : Nat) ^ 26 - 1 = 67108863 := by decide
  simp only [e, and_3, and_1, and_7, and_26]
  refine ⟨cmd_reader_cmd_generator _ _ _ _ _ hb, ?_⟩
  intro r2 flags2 block_size2 op2 h1 h2 h3 h4
  rw [cmd_reader_cmd_generator _ _ _ _ _ hb, cmd_reader_cmd_generator _ _ _ _ _ hb]
  have h2b : block_size2 % 2 ^ 26 = block_size % 2 ^ 26 := by omega
  simp only [h1, h2b, h3, h4]

theorem codec_masks_fields_witness :
    cmd_reader (cmd_generator 9 255 255 4294967295 255)
        = { op := 255 &&& 3, block_size := 4294967295 &&& (2 ^ 26 - 1), flags := 255 &&& 7,
            r := 255 &&& 1, block := 9 }
      ∧ ∀ r2 flags2 block_size2 op2 : Nat,
          op2 &&& 3 = 255 &&& 3 →
          block_size2 &&& (2 ^ 26 - 1) = 4294967295 &&& (2 ^ 26 - 1) →
          flags2 &&& 7 = 255 &&& 7 → r2 &&& 1 = 255 &&& 1 →
          cmd_reader (cmd_generator 9 r2 flags2 block_size2 op2)
            = cmd_reader (cmd_generator 9 255 255 4294967295 255) :=
  codec_masks_fields 9 255 255 4294967295 255 (by decide)

/-! ## Auxiliary facts on buffers, conversions and lazy initialization -/

theorem memcpy_length (dst : Buf) (doff : Nat) (src : Buf) (soff n : Nat) :
    (memcpy dst doff src soff n).length = max dst.length (doff + n) := by
  simp [memcpy]

theorem memcpy_getD_inside (dst : Buf) (doff : Nat) (src : Buf) (soff n i : Nat)
    (h1 : doff ≤ i) (h2 : i < doff + n) :
    (memcpy dst doff src soff n).getD i 0 = src.getD (soff + (i - doff)) 0 := by
  have hi : i < max dst.length (doff + n) := lt_of_lt_of_le h2 (le_max_right _ _)
  simp [memcpy, List.getD_eq_getElem?_getD, List.getElem?_map, List.getElem?_range hi, h1, h2]

theorem memcpy_getD_outside (dst : Buf) (doff : Nat) (src : Buf) (soff n i : Nat)
    (h : ¬ (doff ≤ i ∧ i < doff + n)) :
    (memcpy dst doff src soff n).getD i 0 = dst.getD i 0 := by
  by_cases hi : i < max dst.length (doff + n)
  · simp [memcpy, List.getD_eq_getElem?_getD, List.getElem?_map, List.getElem?_range hi, h]
  · have hlen : dst.length ≤ i := le_trans (le_max_left _ _) (not_lt.mp hi)
    have hlen2 : (memcpy dst doff src soff n).length ≤ i := by
      rw [memcpy_length]; exact not_lt.mp hi
    rw [List.getD_eq_getElem?_getD, List.getD_eq_getElem?_getD,
      List.getElem?_eq_none hlen, List.getElem?_eq_none hlen2]

theorem toU32_natCast (n : Nat) (h : n < 2 ^ 32) : toU32 (n : Int) = n := by
  unfold toU32
  omega

theorem toI32_of_lt (n : Nat) (h : n < 2 ^ 31) : toI32 n = (n : Int) := by
  unfold toI32
  have h1 : n % 2 ^ 32 = n := Nat.mod_eq_of_lt (by omega)
  rw [h1, if_pos h]

theorem hdd_lazy_init_files {σ : Type} (K : HddConsts) (client : Client σ) (w : HddState σ) :
    (hdd_lazy_init K client w).2.hdd_files = w.hdd_files := by
  simp only [hdd_lazy_init, client_call]
  split
  · split <;> rfl
  · rfl

theorem hdd_lazy_init_of_init {σ : Type} (K : HddConsts) (client : Client σ) (w : HddState σ)
    (h : w.hdd_init ≠ 0) : hdd_lazy_init K client w = (true, w) := by
  simp only [hdd_lazy_init, h, if_false]

theorem hdd_lazy_init_sets_init {σ : Type} (K : HddConsts) (client : Client σ)
    (w w1 : HddState σ) (h : hdd_lazy_init K client w = (true, w1)) : w1.hdd_init ≠ 0 := by
  simp only [hdd_lazy_init, client_call] at h
  split at h
  · split at h
    · simp at h
    · simp only [Prod.mk.injEq, true_and] at h
      rw [← h]
      exact Nat.one_ne_zero
  · rename_i h0
    simp only [Prod.mk.injEq, true_and] at h
    rw [← h]
    exact h0

theorem list_eq_of_getD (a b : List Nat) (hlen : a.length = b.length)
    (h : ∀ i, i < a.length → a.getD i 0 = b.getD i 0) : a = b := by
  apply List.ext_getElem hlen
  intro i h1 h2
  have h3 := h i h1
  rw [List.getD_eq_getElem?_getD, List.getD_eq_getElem?_getD, List.getElem?_eq_getElem h1,
    List.getElem?_eq_getElem h2] at h3
  simpa using h3

/-! ## hdd_read -/

/-- C4. Short read: for an open record with `position <= size` and `0 <= count <=
HDD_MAX_BLOCK_SIZE`, when initialization (if needed) and the server read succeed, `hdd_read`
returns `n = min count (size - position)`, the caller buffer holds bytes
`[position, position + n)` of the fetched block in its first `n` bytes and is unchanged
elsewhere, and the record's position has advanced by exactly `n`. -/
theorem hdd_read_short_read {σ : Type} (K : HddConsts) (client : Client σ)
    (w w1 : HddState σ) (fh : Nat) (f : HDD_FILE) (d : Buf) (count : Nat) (resp : Nat)
    (fb : HddBuf) (s2 : σ)
    (hinit : hdd_lazy_init K client w = (true, w1))
    (hfh : fh < K.MAX_HDD_FILEDESCR) (hf : w.hdd_files[fh]? = some f) (hopen : f.is_open ≠ 0)
    (hsize : f.size < 2 ^ 32) (hpos : f.position ≤ f.size)
    (hcount : count ≤ K.HDD_MAX_BLOCK_SIZE) (hint : count < 2 ^ 31)
    (hcall : client w1.server (cmd_generator f.id 0 0 f.size K.HDD_BLOCK_READ)
      (.bytes (malloc f.size)) = (resp, fb, s2))
    (hok : (cmd_reader resp).r ≠ 1) :
    ∃ data2 w2,
      hdd_read K client w fh (some d) count
          = some (((min count (f.size - f.position) : Nat) : Int), some data2, w2)
        ∧ (∀ i, i < min count (f.size - f.position) →
            data2.getD i 0 = (fb.toBytes (malloc f.size)).getD (f.position + i) 0)
        ∧ (∀ i, min count (f.size - f.position) ≤ i → data2.getD i 0 = d.getD i 0)
        ∧ w2.hdd_files = w.hdd_files.set fh
            { f with position := f.position + min count (f.size - f.position) }
        ∧ w2.sent = w1.sent ++ [(cmd_generator f.id 0 0 f.size K.HDD_BLOCK_READ,
            .bytes (malloc f.size))] := by
  have hfiles : w1.hdd_files = w.hdd_files := by
    have h := hdd_lazy_init_files K client w
    rw [hinit] at h
    exact h
  have hf1 : w1.hdd_files[fh]? = some f := by rw [hfiles]; exact hf
  have hrange : ¬ ((fh : Int) < 0 ∨ (fh : Int) > (K.MAX_HDD_FILEDESCR : Int)) := by omega
  have hcnt : ¬ ((count : Int) < 0 ∨ (count : Int) > (K.HDD_MAX_BLOCK_SIZE : Int)) := by omega
  have hu : toU32 (count : Int) = count := toU32_natCast count (by omega)
  have hsub : (f.size + 2 ^ 32 - f.position) % 2 ^ 32 = f.size - f.position := by omega
  simp only [hdd_read, hinit, hrange, hcnt, if_false, Int.toNat_ofNat, hf1, hopen, client_call,
    hcall, hok, hu, hsub, Bool.true_eq_false]
  by_cases hlt : f.size - f.position > count
  · have hmin : min count (f.size - f.position) = count := by omega
    rw [if_pos hlt, hmin]
    refine ⟨_, _, rfl, ?_, ?_, ?_, rfl⟩
    · intro i hi
      rw [memcpy_getD_inside _ _ _ _ _ _ (Nat.zero_le _) (by omega)]
      simp
    · intro i hi
      exact memcpy_getD_outside _ _ _ _ _ _ (by omega)
    · have e : (f.position + count) % 2 ^ 32 = f.position + count := by omega
      simp only [e, hfiles]
  · have hmin : min count (f.size - f.position) = f.size - f.position := by omega
    rw [if_neg hlt, hmin, toI32_of_lt _ (by omega)]
    refine ⟨_, _, rfl, ?_, ?_, ?_, rfl⟩
    · intro i hi
      rw [memcpy_getD_inside _ _ _ _ _ _ (Nat.zero_le _) (by omega)]
      simp
    · intro i hi
      exact memcpy_getD_outside _ _ _ _ _ _ (by omega)
    · have e : f.position + (f.size - f.position) = f.size := by omega
      simp only [e, hfiles]

theorem hdd_read_short_read_witness :
    ∃ data2 w2,
      hdd_read sampleConsts scriptClient readSample (1 : Nat) (some [0, 0, 0, 0]) (4 : Nat)
          = some (((min 4 (5 - 3) : Nat) : Int), some data2, w2)
        ∧ (∀ i, i < min 4 (5 - 3) → data2.getD i 0 = [10, 20, 30, 40, 50].getD (3 + i) 0)
        ∧ (∀ i, min 4 (5 - 3) ≤ i → data2.getD i 0 = [0, 0, 0, 0].getD i 0)
        ∧ w2.hdd_files = readSample.hdd_files.set 1
            { id := 5, is_open := 1, position := 3 + min 4 (5 - 3), size := 5, name := [97] }
        ∧ w2.sent = readSample.sent ++ [(cmd_generator 5 0 0 5 sampleConsts.HDD_BLOCK_READ,
            .bytes (malloc 5))] :=
  hdd_read_short_read sampleConsts scriptClient readSample readSample 1
    { id := 5, is_open := 1, position := 3, size := 5, name := [97] } [0, 0, 0, 0] 4
    (cmd_generator 5 0 0 5 1) (.bytes [10, 20, 30, 40, 50]) [] rfl (by decide) rfl (by decide)
    (by decide) (by decide) (by decide) (by decide) rfl (by decide)

/-! ## hdd_write -/

/-- C8. First write to an unwritten record (`block_id == 0`) with a valid count
(`0 <= count`, `position + count <= HDD_MAX_BLOCK_SIZE`, the latter below `2^26`): after the
lazy initialization `hdd_write` sends exactly one request, a `BLOCK_CREATE` word with
`block_size = count` together with the caller's data; when the response has result bit 0 the
record gets the returned block id and `size = position = count`, and `count` is returned. -/
theorem hdd_write_unwritten {σ : Type} (K : HddConsts) (client : Client σ)
    (w w1 : HddState σ) (fh : Nat) (f : HDD_FILE) (d : Buf) (count : Nat) (resp : Nat)
    (fb : HddBuf) (s2 : σ)
    (hK : K.HDD_MAX_BLOCK_SIZE < 2 ^ 26)
    (hinit : hdd_lazy_init K client w = (true, w1))
    (hfh : fh < K.MAX_HDD_FILEDESCR) (hf : w.hdd_files[fh]? = some f) (hopen : f.is_open ≠ 0)
    (hid : f.id = 0) (hcount : f.position + count ≤ K.HDD_MAX_BLOCK_SIZE)
    (hcall : client w1.server (cmd_generator 0 0 K.HDD_NULL_FLAG count K.HDD_BLOCK_CREATE)
      (.bytes d) = (resp, fb, s2)) :
    ∃ rv w2,
      hdd_write K client w fh (some d) count = some (rv, w2)
        ∧ w2.sent = w1.sent ++ [(cmd_generator 0 0 K.HDD_NULL_FLAG count K.HDD_BLOCK_CREATE,
            .bytes d)]
        ∧ (cmd_reader (cmd_generator 0 0 K.HDD_NULL_FLAG count K.HDD_BLOCK_CREATE)).block_size
            = count
        ∧ ((cmd_reader resp).r ≠ 1 →
            rv = (count : Int)
            ∧ w2.hdd_files = w.hdd_files.set fh
                { f with id := (cmd_reader resp).block, size := count, position := count }) := by
  have hfiles : w1.hdd_files = w.hdd_files := by
    have h := hdd_lazy_init_files K client w
    rw [hinit] at h
    exact h
  have hf1 : w1.hdd_files[fh]? = some f := by rw [hfiles]; exact hf
  have hrange : ¬ ((fh : Int) < 0 ∨ (fh : Int) > (K.MAX_HDD_FILEDESCR : Int)) := by omega
  have hcnt : ¬ ((count : Int) < 0) := by omega
  have hu : toU32 (count : Int) = count := toU32_natCast count (by omega)
  have hcap : ¬ ((count + f.position) % 2 ^ 32 > K.HDD_MAX_BLOCK_SIZE) := by omega
  have hbs : (cmd_reader (cmd_generator 0 0 K.HDD_NULL_FLAG count K.HDD_BLOCK_CREATE)).block_size
      = count := by
    rw [cmd_reader_cmd_generator _ _ _ _ _ (by decide)]
    show count % 2 ^ 26 = count
    omega
  simp only [hdd_write, hinit, hrange, hcnt, if_false, Int.toNat_ofNat, hf1, hopen, client_call,
    hcall, hu, hcap, hid, if_true, Bool.true_eq_false]
  by_cases hr : (cmd_reader resp).r = 1
  · rw [if_pos hr]
    exact ⟨_, _, rfl, rfl, hbs, fun h => absurd hr h⟩
  · rw [if_neg hr]
    refine ⟨_, _, rfl, rfl, hbs, fun _ => ⟨rfl, ?_⟩⟩
    simp only [hfiles]

theorem hdd_write_unwritten_witness :
    ∃ rv w2,
      hdd_write sampleConsts scriptClient freshSample (1 : Nat) (some [1, 2, 3]) (3 : Nat)
          = some (rv, w2)
        ∧ w2.sent = freshSample.sent ++ [(cmd_generator 0 0 sampleConsts.HDD_NULL_FLAG 3
            sampleConsts.HDD_BLOCK_CREATE, .bytes [1, 2, 3])]
        ∧ (cmd_reader (cmd_generator 0 0 sampleConsts.HDD_NULL_FLAG 3
            sampleConsts.HDD_BLOCK_CREATE)).block_size = 3
        ∧ ((cmd_reader (cmd_generator 9 0 0 3 0)).r ≠ 1 →
            rv = ((3 : Nat) : Int)
            ∧ w2.hdd_files = freshSample.hdd_files.set 1
                { id := (cmd_reader (cmd_generator 9 0 0 3 0)).block, is_open := 1, size := 3,
                  position := 3, name := [97] }) :=
  hdd_write_unwritten sampleConsts scriptClient freshSample freshSample 1
    { id := 0, is_open := 1, position := 0, size := 0, name := [97] } [1, 2, 3] 3
    (cmd_generator 9 0 0 3 0) (.bytes [1, 2, 3])
    [(cmd_generator 9 0 0 3 1, some (.bytes [1, 2, 3]))]
    (by decide) rfl (by decide) rfl (by decide) rfl (by decide) rfl

/-- C7. In-place write: for an open record with `block_id != 0` and `position + count < size`
(within the capacity limit), when the read and the overwrite succeed, `hdd_write` sends the
read and then a `BLOCK_OVERWRITE` word for the same block id and `block_size = size`, whose
payload is the fetched block with bytes `[position, position + count)` replaced by the data and
every other byte unchanged; block id and size stay, `position` advances by `count`, and
`count` is returned. -/
theorem hdd_write_in_place {σ : Type} (K : HddConsts) (client : Client σ)
    (w w1 : HddState σ) (fh : Nat) (f : HDD_FILE) (d : Buf) (count : Nat) (resp1 resp2 : Nat)
    (fb1 fb2 : HddBuf) (s2 s3 : σ)
    (hinit : hdd_lazy_init K client w = (true, w1))
    (hfh : fh < K.MAX_HDD_FILEDESCR) (hf : w.hdd_files[fh]? = some f) (hopen : f.is_open ≠ 0)
    (hid : f.id ≠ 0) (hid32 : f.id < 2 ^ 32) (hsize : f.size < 2 ^ 32)
    (hlt : f.position + count < f.size)
    (hcap : f.position + count ≤ K.HDD_MAX_BLOCK_SIZE)
    (hread : client w1.server (cmd_generator f.id 0 0 f.size K.HDD_BLOCK_READ)
      (.bytes (malloc f.size)) = (resp1, fb1, s2))
    (hok1 : (cmd_reader resp1).r ≠ 1)
    (hwrite : client s2 (cmd_generator f.id 0 0 f.size K.HDD_BLOCK_OVERWRITE)
      (.bytes (memcpy (fb1.toBytes (malloc f.size)) f.position d 0 count)) = (resp2, fb2, s3))
    (hok2 : (cmd_reader resp2).r ≠ 1) :
    ∃ payload w2,
      hdd_write K client w fh (some d) count = some ((count : Int), w2)
        ∧ w2.sent = w1.sent ++
            [(cmd_generator f.id 0 0 f.size K.HDD_BLOCK_READ, .bytes (malloc f.size)),
             (cmd_generator f.id 0 0 f.size K.HDD_BLOCK_OVERWRITE, .bytes payload)]
        ∧ (cmd_reader (cmd_generator f.id 0 0 f.size K.HDD_BLOCK_OVERWRITE)).block = f.id
        ∧ (f.size < 2 ^ 26 →
            (cmd_reader (cmd_generator f.id 0 0 f.size K.HDD_BLOCK_OVERWRITE)).block_size
              = f.size)
        ∧ (∀ i, i < count → payload.getD (f.position + i) 0 = d.getD i 0)
        ∧ (∀ i, ¬ (f.position ≤ i ∧ i < f.position + count) →
            payload.getD i 0 = (fb1.toBytes (malloc f.size)).getD i 0)
        ∧ w2.hdd_files = w.hdd_files.set fh { f with position := f.position + count } := by
  have hfiles : w1.hdd_files = w.hdd_files := by
    have h := hdd_lazy_init_files K client w
    rw [hinit] at h
    exact h
  have hf1 : w1.hdd_files[fh]? = some f := by rw [hfiles]; exact hf
  have hrange : ¬ ((fh : Int) < 0 ∨ (fh : Int) > (K.MAX_HDD_FILEDESCR : Int)) := by omega
  have hcnt : ¬ ((count : Int) < 0) := by omega
  have hu : toU32 (count : Int) = count := toU32_natCast count (by omega)
  have hcap2 : ¬ ((count + f.position) % 2 ^ 32 > K.HDD_MAX_BLOCK_SIZE) := by omega
  have hsum : (f.position + count) % 2 ^ 32 = f.position + count := by omega
  simp only [hdd_write, hinit, hrange, hcnt, if_false, Int.toNat_ofNat, hf1, hopen, client_call,
    hread, hok1, hu, hcap2, hid, hsum, hlt, if_true, hwrite, hok2, Bool.true_eq_false]
  refine ⟨memcpy (fb1.toBytes (malloc f.size)) f.position d 0 count, _, rfl, ?_, ?_, ?_, ?_,
    ?_, ?_⟩
  · simp only [List.append_assoc, List.singleton_append]
  · rw [cmd_reader_cmd_generator _ _ _ _ _ hid32]
  · intro h26
    rw [cmd_reader_cmd_generator _ _ _ _ _ hid32]
    show f.size % 2 ^ 26 = f.size
    omega
  · intro i hi
    rw [memcpy_getD_inside _ _ _ _ _ _ (by omega) (by omega)]
    congr 1
    omega
  · intro i hi
    exact memcpy_getD_outside _ _ _ _ _ _ hi
  · simp only [hfiles]

theorem hdd_write_in_place_witness :
    ∃ payload w2,
      hdd_write sampleConsts scriptClient writeSample (1 : Nat) (some [7, 8]) (2 : Nat)
          = some (((2 : Nat) : Int), w2)
        ∧ w2.sent = writeSample.sent ++
            [(cmd_generator 5 0 0 5 sampleConsts.HDD_BLOCK_READ, .bytes (malloc 5)),
             (cmd_generator 5 0 0 5 sampleConsts.HDD_BLOCK_OVERWRITE, .bytes payload)]
        ∧ (cmd_reader (cmd_generator 5 0 0 5 sampleConsts.HDD_BLOCK_OVERWRITE)).block = 5
        ∧ (5 < 2 ^ 26 →
            (cmd_reader (cmd_generator 5 0 0 5 sampleConsts.HDD_BLOCK_OVERWRITE)).block_size = 5)
        ∧ (∀ i, i < 2 → payload.getD (1 + i) 0 = [7, 8].getD i 0)
        ∧ (∀ i, ¬ (1 ≤ i ∧ i < 1 + 2) →
            payload.getD i 0
              = ((HddBuf.bytes [10, 20, 30, 40, 50]).toBytes (malloc 5)).getD i 0)
        ∧ w2.hdd_files = writeSample.hdd_files.set 1
            { id := 5, is_open := 1, position := 1 + 2, size := 5, name := [97] } :=
  hdd_write_in_place sampleConsts scriptClient writeSample writeSample 1
    { id := 5, is_open := 1, position := 1, size := 5, name := [97] } [7, 8] 2
    (cmd_generator 5 0 0 5 1) (cmd_generator 6 0 0 5 0)
    (.bytes [10, 20, 30, 40, 50])
    (.bytes (memcpy [10, 20, 30, 40, 50] 1 [7, 8] 0 2))
    [(cmd_generator 6 0 0 5 0, none), (cmd_generator 5 0 0 0 3, none)]
    [(cmd_generator 5 0 0 0 3, none)]
    rfl (by decide) rfl (by decide) (by decide) (by decide) (by decide) (by decide) (by decide)
    rfl (by decide) rfl (by decide)

/-- C6. Growth write: for an open record with `block_id != 0`, `position <= size` and
`position + count >= size` within the capacity limit (itself below `2^26`), when read, create
and delete all succeed, `hdd_write` sends the read, then a `BLOCK_CREATE` word of size
`position + count` whose payload has exactly that length and holds the old block's bytes
`[0, position)` at their offsets followed by `data[0, count)`, then a `BLOCK_DELETE` word for
the old block id; the record gets the id returned by the create and
`size = position = old position + count`, and `count` is returned. -/
theorem hdd_write_growth {σ : Type} (K : HddConsts) (client : Client σ)
    (w w1 : HddState σ) (fh : Nat) (f : HDD_FILE) (d : Buf) (count : Nat)
    (resp1 resp2 resp3 : Nat) (fb1 fb2 fb3 : HddBuf) (s2 s3 s4 : σ)
    (hK : K.HDD_MAX_BLOCK_SIZE < 2 ^ 26)
    (hinit : hdd_lazy_init K client w = (true, w1))
    (hfh : fh < K.MAX_HDD_FILEDESCR) (hf : w.hdd_files[fh]? = some f) (hopen : f.is_open ≠ 0)
    (hid : f.id ≠ 0) (hid32 : f.id < 2 ^ 32)
    (hpos : f.position ≤ f.size) (hge : f.position + count ≥ f.size)
    (hcap : f.position + count ≤ K.HDD_MAX_BLOCK_SIZE)
    (hread : client w1.server (cmd_generator f.id 0 0 f.size K.HDD_BLOCK_READ)
      (.bytes (malloc f.size)) = (resp1, fb1, s2))
    (hok1 : (cmd_reader resp1).r ≠ 1)
    (hcreate : client s2 (cmd_generator 0 0 0 (f.position + count) K.HDD_BLOCK_CREATE)
      (.bytes (growth_payload (fb1.toBytes (malloc f.size)) f.size f.position d count))
        = (resp2, fb2, s3))
    (hok2 : (cmd_reader resp2).r ≠ 1)
    (hdelete : client s3 (cmd_generator f.id 0 0 0 K.HDD_BLOCK_DELETE) .null = (resp3, fb3, s4))
    (hok3 : (cmd_reader resp3).r ≠ 1) :
    ∃ payload w2,
      hdd_write K client w fh (some d) count = some ((count : Int), w2)
        ∧ w2.sent = w1.sent ++
            [(cmd_generator f.id 0 0 f.size K.HDD_BLOCK_READ, .bytes (malloc f.size)),
             (cmd_generator 0 0 0 (f.position + count) K.HDD_BLOCK_CREATE, .bytes payload),
             (cmd_generator f.id 0 0 0 K.HDD_BLOCK_DELETE, .null)]
        ∧ (cmd_reader (cmd_generator 0 0 0 (f.position + count) K.HDD_BLOCK_CREATE)).block_size
            = f.position + count
        ∧ (cmd_reader (cmd_generator f.id 0 0 0 K.HDD_BLOCK_DELETE)).block = f.id
        ∧ payload.length = f.position + count
        ∧ (∀ i, i < f.position → payload.getD i 0 = (fb1.toBytes (malloc f.size)).getD i 0)
        ∧ (∀ i, i < count → payload.getD (f.position + i) 0 = d.getD i 0)
        ∧ w2.hdd_files = w.hdd_files.set fh
            { f with id := (cmd_reader resp2).block, size := f.position + count,
                     position := f.position + count } := by
  have hfiles : w1.hdd_files = w.hdd_files := by
    have h := hdd_lazy_init_files K client w
    rw [hinit] at h
    exact h
  have hf1 : w1.hdd_files[fh]? = some f := by rw [hfiles]; exact hf
  have hrange : ¬ ((fh : Int) < 0 ∨ (fh : Int) > (K.MAX_HDD_FILEDESCR : Int)) := by omega
  have hcnt : ¬ ((count : Int) < 0) := by omega
  have hu : toU32 (count : Int) = count := toU32_natCast count (by omega)
  have hcap2 : ¬ ((count + f.position) % 2 ^ 32 > K.HDD_MAX_BLOCK_SIZE) := by omega
  have hsum : (f.position + count) % 2 ^ 32 = f.position + count := by omega
  have hnlt : ¬ (f.position + count < f.size) := by omega
  have hcreate2 := hcreate
  unfold growth_payload at hcreate2
  simp only [hdd_write, hinit, hrange, hcnt, if_false, Int.toNat_ofNat, hf1, hopen, client_call,
    hread, hok1, hu, hcap2, hid, hsum, hnlt, hcreate2, hok2, hdelete, hok3, Bool.true_eq_false]
  refine ⟨growth_payload (fb1.toBytes (malloc f.size)) f.size f.position d count, _, rfl,
    ?_, ?_, ?_, ?_, ?_, ?_, ?_⟩
  · simp only [growth_payload, List.append_assoc, List.singleton_append, List.cons_append,
      List.nil_append]
  · rw [cmd_reader_cmd_generator _ _ _ _ _ (by decide)]
    show (f.position + count) % 2 ^ 26 = f.position + count
    omega
  · rw [cmd_reader_cmd_generator _ _ _ _ _ hid32]
  · simp only [growth_payload, memcpy_length, malloc, List.length_replicate]
    omega
  · intro i hi
    unfold growth_payload
    rw [memcpy_getD_outside _ _ _ _ _ _ (by omega),
      memcpy_getD_inside _ _ _ _ _ _ (Nat.zero_le _) (by omega)]
    simp
  · intro i hi
    unfold growth_payload
    rw [memcpy_getD_inside _ _ _ _ _ _ (by omega) (by omega)]
    congr 1
    omega
  · simp only [hfiles]

theorem hdd_write_growth_witness :
    ∃ payload w2,
      hdd_write sampleConsts scriptClient writeSample (1 : Nat) (some [7, 8, 9, 6, 5]) (5 : Nat)
          = some (((5 : Nat) : Int), w2)
        ∧ w2.sent = writeSample.sent ++
            [(cmd_generator 5 0 0 5 sampleConsts.HDD_BLOCK_READ, .bytes (malloc 5)),
             (cmd_generator 0 0 0 (1 + 5) sampleConsts.HDD_BLOCK_CREATE, .bytes payload),
             (cmd_generator 5 0 0 0 sampleConsts.HDD_BLOCK_DELETE, .null)]
        ∧ (cmd_reader (cmd_generator 0 0 0 (1 + 5) sampleConsts.HDD_BLOCK_CREATE)).block_size
            = 1 + 5
        ∧ (cmd_reader (cmd_generator 5 0 0 0 sampleConsts.HDD_BLOCK_DELETE)).block = 5
        ∧ payload.length = 1 + 5
        ∧ (∀ i, i < 1 → payload.getD i 0
            = ((HddBuf.bytes [10, 20, 30, 40, 50]).toBytes (malloc 5)).getD i 0)
        ∧ (∀ i, i < 5 → payload.getD (1 + i) 0 = [7, 8, 9, 6, 5].getD i 0)
        ∧ w2.hdd_files = writeSample.hdd_files.set 1
            { id := (cmd_reader (cmd_generator 6 0 0 5 0)).block, is_open := 1, size := 1 + 5,
              position := 1 + 5, name := [97] } :=
  hdd_write_growth sampleConsts scriptClient writeSample writeSample 1
    { id := 5, is_open := 1, position := 1, size := 5, name := [97] } [7, 8, 9, 6, 5] 5
    (cmd_generator 5 0 0 5 1) (cmd_generator 6 0 0 5 0) (cmd_generator 5 0 0 0 3)
    (.bytes [10, 20, 30, 40, 50])
    (.bytes (growth_payload [10, 20, 30, 40, 50] 5 1 [7, 8, 9, 6, 5] 5))
    .null
    [(cmd_generator 6 0 0 5 0, none), (cmd_generator 5 0 0 0 3, none)]
    [(cmd_generator 5 0 0 0 3, none)] []
    (by decide) rfl (by decide) rfl (by decide) (by decide) (by decide) (by decide) (by decide)
    (by decide) rfl (by decide) rfl (by decide) rfl (by decide)

/-! ## Write, seek, read -/

/-- C5. Write-then-read round trip: for a freshly opened file (`block_id` 0, `position` 0) and
data of length `count <= HDD_MAX_BLOCK_SIZE`, against a server that answers the create with
success and a block id and answers the read of that block with success and the payload
unchanged, `hdd_write(fh, data, count)` returns `count`, `hdd_seek(fh, 0)` returns 0 and
`hdd_read(fh, buf, count)` returns `count` and leaves `buf` equal to `data`. -/
theorem write_seek_read_round_trip {σ : Type} (K : HddConsts) (client : Client σ)
    (w w1 : HddState σ) (fh : Nat) (f : HDD_FILE) (data buf : Buf) (count : Nat)
    (resp1 resp2 : Nat) (fb1 fb2 : HddBuf) (s2 s3 : σ)
    (hinit : hdd_lazy_init K client w = (true, w1))
    (hfh : fh < K.MAX_HDD_FILEDESCR) (hf : w.hdd_files[fh]? = some f) (hopen : f.is_open ≠ 0)
    (hid : f.id = 0) (hposz : f.position = 0)
    (hcount : count ≤ K.HDD_MAX_BLOCK_SIZE) (hint : count < 2 ^ 31)
    (hdata : data.length = count) (hbuf : buf.length = count)
    (hcreate : client w1.server (cmd_generator 0 0 K.HDD_NULL_FLAG count K.HDD_BLOCK_CREATE)
      (.bytes data) = (resp1, fb1, s2))
    (hok1 : (cmd_reader resp1).r ≠ 1)
    (hread : client s2 (cmd_generator (cmd_reader resp1).block 0 0 count K.HDD_BLOCK_READ)
      (.bytes (malloc count)) = (resp2, fb2, s3))
    (hok2 : (cmd_reader resp2).r ≠ 1)
    (hsame : ∀ i, i < count → (fb2.toBytes (malloc count)).getD i 0 = data.getD i 0) :
    ∃ w2 w3, ∃ w4,
      hdd_write K client w fh (some data) count = some ((count : Int), w2)
        ∧ hdd_seek K w2 fh 0 = some (0, w3)
        ∧ hdd_read K client w3 fh (some buf) count = some ((count : Int), some data, w4) := by
  have hfiles : w1.hdd_files = w.hdd_files := by
    have h := hdd_lazy_init_files K client w
    rw [hinit] at h
    exact h
  have hf1 : w1.hdd_files[fh]? = some f := by rw [hfiles]; exact hf
  have hlen : fh < w1.hdd_files.length := by
    rcases List.getElem?_eq_some.mp hf1 with ⟨h, _⟩
    exact h
  have hi1 : w1.hdd_init ≠ 0 := hdd_lazy_init_sets_init K client w w1 hinit
  have hrange : ¬ ((fh : Int) < 0 ∨ (fh : Int) > (K.MAX_HDD_FILEDESCR : Int)) := by omega
  have hcnt : ¬ ((count : Int) < 0) := by omega
  have hcnt2 : ¬ ((count : Int) < 0 ∨ (count : Int) > (K.HDD_MAX_BLOCK_SIZE : Int)) := by omega
  have hu : toU32 (count : Int) = count := toU32_natCast count (by omega)
  have hcap : ¬ ((count + f.position) % 2 ^ 32 > K.HDD_MAX_BLOCK_SIZE) := by omega
  have hsub : (count + 2 ^ 32 - 0) % 2 ^ 32 = count := by omega
  have hngt : ¬ (count > count) := by omega
  have hw : ∃ w2, hdd_write K client w fh (some data) count = some ((count : Int), w2)
      ∧ w2.hdd_init ≠ 0 ∧ w2.server = s2
      ∧ w2.hdd_files = w1.hdd_files.set fh
          { f with id := (cmd_reader resp1).block, position := count, size := count } := by
    simp only [hdd_write, hinit, hrange, hcnt, if_false, Int.toNat_ofNat, hf1, hopen,
      client_call, hcreate, hu, hcap, hid, if_true, hok1, Bool.true_eq_false]
    exact ⟨_, rfl, hi1, rfl, rfl⟩
  obtain ⟨w2, hw2, hi2, hs2, hfiles2⟩ := hw
  have hf2 : w2.hdd_files[fh]? = some
      { f with id := (cmd_reader resp1).block, position := count, size := count } := by
    rw [hfiles2, List.getElem?_set_self hlen]
  have hlen2 : fh < w2.hdd_files.length := by
    rw [hfiles2, List.length_set]; exact hlen
  have hsk : ∃ w3, hdd_seek K w2 fh 0 = some (0, w3)
      ∧ w3.hdd_init ≠ 0 ∧ w3.server = s2
      ∧ w3.hdd_files = w2.hdd_files.set fh
          { f with id := (cmd_reader resp1).block, position := 0, size := count } := by
    simp only [hdd_seek, hi2, hrange, if_false, Int.toNat_ofNat, hf2, hopen, Nat.not_lt_zero,
      gt_iff_lt]
    exact ⟨_, rfl, hi2, hs2, rfl⟩
  obtain ⟨w3, hw3, hi3, hs3, hfiles3⟩ := hsk
  have hf3 : w3.hdd_files[fh]? = some
      { f with id := (cmd_reader resp1).block, position := 0, size := count } := by
    rw [hfiles3, List.getElem?_set_self hlen2]
  have hread3 : client w3.server (cmd_generator (cmd_reader resp1).block 0 0 count
      K.HDD_BLOCK_READ) (.bytes (malloc count)) = (resp2, fb2, s3) := by
    rw [hs3]; exact hread
  have hbuf2 : memcpy buf 0 (fb2.toBytes (malloc count)) 0 count = data := by
    apply list_eq_of_getD
    · rw [memcpy_length]; omega
    · intro i hi
      rw [memcpy_length] at hi
      rw [memcpy_getD_inside _ _ _ _ _ _ (Nat.zero_le _) (by omega)]
      simpa using hsame i (by omega)
  have hrd : ∃ w4, hdd_read K client w3 fh (some buf) count
      = some ((count : Int), some data, w4) := by
    simp only [hdd_read, hdd_lazy_init, hi3, hrange, hcnt2, if_false, Int.toNat_ofNat, hf3,
      hopen, client_call, hread3, hok2, hu, hsub, hngt, Bool.true_eq_false,
      toI32_of_lt count hint, hbuf2]
    exact ⟨_, rfl⟩
  obtain ⟨w4, hw4⟩ := hrd
  exact ⟨w2, w3, w4, hw2, hw3, hw4⟩

theorem write_seek_read_round_trip_witness :
    ∃ w2 w3 w4,
      hdd_write sampleConsts scriptClient freshSample (1 : Nat) (some [1, 2, 3]) (3 : Nat)
          = some (((3 : Nat) : Int), w2)
        ∧ hdd_seek sampleConsts w2 (1 : Nat) 0 = some (0, w3)
        ∧ hdd_read sampleConsts scriptClient w3 (1 : Nat) (some [0, 0, 0]) (3 : Nat)
            = some (((3 : Nat) : Int), some [1, 2, 3], w4) :=
  write_seek_read_round_trip sampleConsts scriptClient freshSample freshSample 1
    { id := 0, is_open := 1, position := 0, size := 0, name := [97] } [1, 2, 3] [0, 0, 0] 3
    (cmd_generator 9 0 0 3 0) (cmd_generator 9 0 0 3 1) (.bytes [1, 2, 3]) (.bytes [1, 2, 3])
    [(cmd_generator 9 0 0 3 1, some (.bytes [1, 2, 3]))] []
    rfl (by decide) rfl (by decide) rfl rfl (by decide) (by decide) rfl rfl rfl (by decide)
    rfl (by decide) (fun _ _ => rfl)

/-! ## hdd_seek -/

/-- C9. `hdd_seek` on an initialized device with a valid handle to an open record: a location
`<= size` gives 0 and sets `position` to it (nothing else changes); a location `> size` gives
the failure value -1 and leaves the whole state, hence the record, unchanged. -/
theorem hdd_seek_spec {σ : Type} (K : HddConsts) (w : HddState σ) (fh : Nat) (f : HDD_FILE)
    (loc : Nat) (hinit : w.hdd_init ≠ 0) (hfh : fh < K.MAX_HDD_FILEDESCR)
    (hf : w.hdd_files[fh]? = some f) (hopen : f.is_open ≠ 0) :
    (loc ≤ f.size → ∃ w2, hdd_seek K w fh loc = some (0, w2)
        ∧ w2.hdd_files = w.hdd_files.set fh { f with position := loc }
        ∧ w2.hdd_init = w.hdd_init ∧ w2.server = w.server ∧ w2.sent = w.sent)
      ∧ (loc > f.size → hdd_seek K w fh loc = some (-1, w)) := by
  have hrange : ¬ ((fh : Int) < 0 ∨ (fh : Int) > (K.MAX_HDD_FILEDESCR : Int)) := by omega
  constructor
  · intro hloc
    have hl : ¬ loc > f.size := by omega
    simp only [hdd_seek, hinit, hrange, if_false, Int.toNat_ofNat, hf, hopen, hl]
    exact ⟨_, rfl, rfl, rfl, rfl, rfl⟩
  · intro hloc
    simp only [hdd_seek, hinit, hrange, if_false, Int.toNat_ofNat, hf, hopen, hloc, if_true]

theorem hdd_seek_spec_witness :
    (∃ w2, hdd_seek sampleConsts readSample (1 : Nat) 2 = some (0, w2)
        ∧ w2.hdd_files = readSample.hdd_files.set 1
            { id := 5, is_open := 1, position := 2, size := 5, name := [97] }
        ∧ w2.hdd_init = readSample.hdd_init ∧ w2.server = readSample.server
        ∧ w2.sent = readSample.sent)
      ∧ hdd_seek sampleConsts readSample (1 : Nat) 6 = some (-1, readSample) :=
  ⟨(hdd_seek_spec sampleConsts readSample 1
      { id := 5, is_open := 1, position := 3, size := 5, name := [97] } 2 (by decide)
      (by decide) rfl (by decide)).1 (by decide),
   (hdd_seek_spec sampleConsts readSample 1
      { id := 5, is_open := 1, position := 3, size := 5, name := [97] } 6 (by decide)
      (by decide) rfl (by decide)).2 (by decide)⟩

/-! ## hdd_open of a new name -/

theorem hdd_open_search_absent (files : List HDD_FILE) (p : List Nat) (MAX : Nat)
    (hlen : files.length = MAX) (hno : ∀ f ∈ files, f.name ≠ p) :
    ∀ k, k ≤ MAX → hdd_open_search files p MAX k = some MAX
  | 0, _ => rfl
  | k + 1, hk => by
    have hi : MAX - (k + 1) < files.length := by omega
    simp only [hdd_open_search, List.getElem?_eq_getElem hi]
    rw [if_neg (hno _ (List.getElem_mem hi))]
    exact hdd_open_search_absent files p MAX hlen hno k (by omega)

theorem hdd_open_search_second (m x : HDD_FILE) (rest : List HDD_FILE) (p : List Nat) (n : Nat)
    (hm : m.name ≠ p) (hx : x.name = p) :
    hdd_open_search (m :: x :: rest) p (n + 2) (n + 2) = some 1 := by
  have e0 : n + 2 - (n + 1 + 1) = 0 := by omega
  have e1 : n + 2 - (n + 1) = 1 := by omega
  simp only [hdd_open_search, e0, e1, List.getElem?_cons_zero, List.getElem?_cons_succ, hm, hx,
    if_false, if_true]

theorem hdd_open_free_second (m x : HDD_FILE) (rest : List HDD_FILE) (n : Nat)
    (hm : m.name ≠ []) (hx : x.name = []) :
    hdd_open_free (m :: x :: rest) (n + 2) (n + 2) = some 1 := by
  have e0 : n + 2 - (n + 1 + 1) = 0 := by omega
  have e1 : n + 2 - (n + 1) = 1 := by omega
  simp only [hdd_open_free, e0, e1, List.getElem?_cons_zero, List.getElem?_cons_succ, hm, hx,
    if_false, if_true]

/-- The run behind C10 for arbitrary constants and servers: after a successful format,
`hdd_open("")` and a one-byte `hdd_write` through the handle obtained, opening the new name "a"
returns slot 1 with the cursor and block id the write left there. -/
theorem hdd_open_stale_general {σ : Type} (K : HddConsts) (client : Client σ)
    (w0 w1 : HddState σ) (n resp1 resp2 resp3 : Nat) (fb1 fb3 : HddBuf) (s2 s3 s4 : σ)
    (hmax : K.MAX_HDD_FILEDESCR = n + 2) (hname : 2 ≤ K.MAX_FILENAME_LENGTH)
    (hblk : 1 ≤ K.HDD_MAX_BLOCK_SIZE)
    (hinit : hdd_lazy_init K client w0 = (true, w1))
    (hfmt : client w1.server (cmd_generator 0 0 K.HDD_FORMAT 0 K.HDD_DEVICE) .null
      = (resp1, fb1, s2))
    (hok1 : (cmd_reader resp1).r ≠ 1)
    (hmeta : client s2 (cmd_generator 0 0 K.HDD_META_BLOCK
        ((K.MAX_HDD_FILEDESCR * K.sizeof_HDD_FILE) % 2 ^ 32) K.HDD_BLOCK_CREATE)
      (.files (hdd_file_initialization K)) = (resp2, .files (hdd_file_initialization K), s3))
    (hok2 : (cmd_reader resp2).r ≠ 1)
    (hcreate : client s3 (cmd_generator 0 0 K.HDD_NULL_FLAG 1 K.HDD_BLOCK_CREATE)
      (.bytes [120]) = (resp3, fb3, s4))
    (hok3 : (cmd_reader resp3).r ≠ 1) :
    ∃ w w2 : HddState σ,
      Reachable K client w
        ∧ (∀ f ∈ w.hdd_files, f.name ≠ [97])
        ∧ (∃ m x rest, w.hdd_files = m :: x :: rest ∧ m.name ≠ [] ∧ x.name = [])
        ∧ hdd_open K w (some [97]) = some (1, w2)
        ∧ w2.hdd_files[1]? = some
            { id := (cmd_reader resp3).block, is_open := 1, position := 1, size := 1,
              name := [97] } := by
  have hi1 : w1.hdd_init ≠ 0 := hdd_lazy_init_sets_init K client w0 w1 hinit
  have hinitK : hdd_file_initialization K
      = HDD_FILE.empty :: HDD_FILE.empty :: List.replicate n HDD_FILE.empty := by
    simp only [hdd_file_initialization, hmax, List.replicate_succ]
  rw [hinitK] at hmeta
  -- format
  have hA : ∃ wA, hdd_format K client w0 = some (0, wA) ∧ wA.hdd_init ≠ 0 ∧ wA.server = s3
      ∧ wA.hdd_files = { id := (cmd_reader resp2).block, is_open := 1, position := 0,
                         size := (cmd_reader resp2).block_size, name := metaBlockName }
          :: HDD_FILE.empty :: List.replicate n HDD_FILE.empty := by
    simp only [hdd_format, hinit, client_call, hfmt, hok1, hinitK, hmeta, hok2,
      HddBuf.toFiles, if_false, Bool.true_eq_false]
    exact ⟨_, rfl, hi1, rfl, rfl⟩
  obtain ⟨wA, hfA, hiA, hsA, htA⟩ := hA
  have hmn : metaBlockName ≠ [] := by decide
  have hmn97 : metaBlockName ≠ [97] := by decide
  have hlen0 : ¬ (([] : List Nat).length > K.MAX_FILENAME_LENGTH) := by simp
  -- hdd_open("")
  have hB : ∃ wB, hdd_open K wA (some []) = some (1, wB) ∧ wB.hdd_init ≠ 0 ∧ wB.server = s3
      ∧ wB.hdd_files = { id := (cmd_reader resp2).block, is_open := 1, position := 0,
                         size := (cmd_reader resp2).block_size, name := metaBlockName }
          :: { id := 0, is_open := 1, position := 0, size := 0, name := [] }
          :: List.replicate n HDD_FILE.empty := by
    have hs := hdd_open_search_second
      { id := (cmd_reader resp2).block, is_open := 1, position := 0,
        size := (cmd_reader resp2).block_size, name := metaBlockName }
      HDD_FILE.empty (List.replicate n HDD_FILE.empty) [] n hmn rfl
    have hne : ¬ ((1 : Nat) = n + 2) := by omega
    simp only [HDD_FILE.empty] at hs
    simp only [hdd_open, hiA, if_false, hlen0, htA, hmax, hs, hne, List.getElem?_cons_succ,
      List.getElem?_cons_zero, HDD_FILE.empty, if_true, List.set_cons_succ, List.set_cons_zero]
    exact ⟨_, rfl, hiA, hsA, rfl⟩
  obtain ⟨wB, hfB, hiB, hsB, htB⟩ := hB
  -- hdd_write(1, "x", 1)
  have hC : ∃ wC, hdd_write K client wB 1 (some [120]) 1 = some (1, wC) ∧ wC.hdd_init ≠ 0
      ∧ wC.hdd_files = { id := (cmd_reader resp2).block, is_open := 1, position := 0,
                         size := (cmd_reader resp2).block_size, name := metaBlockName }
          :: { id := (cmd_reader resp3).block, is_open := 1, position := 1, size := 1,
               name := [] }
          :: List.replicate n HDD_FILE.empty := by
    have hrange : ¬ ((1 : Int) < 0 ∨ (1 : Int) > (K.MAX_HDD_FILEDESCR : Int)) := by omega
    have hcap : ¬ ((1 + 0) % 2 ^ 32 > K.HDD_MAX_BLOCK_SIZE) := by omega
    have hu : toU32 1 = 1 := by decide
    have ht : (1 : Int).toNat = 1 := by decide
    have hcreate2 : client wB.server (cmd_generator 0 0 K.HDD_NULL_FLAG 1 K.HDD_BLOCK_CREATE)
        (.bytes [120]) = (resp3, fb3, s4) := by rw [hsB]; exact hcreate
    simp only [hdd_write, hdd_lazy_init_of_init K client wB hiB, hrange, if_false, ht, htB,
      List.getElem?_cons_succ, List.getElem?_cons_zero, hu, hcap, client_call, hcreate2, hok3,
      if_true, List.set_cons_succ, List.set_cons_zero, Bool.true_eq_false]
    exact ⟨_, rfl, hiB, rfl⟩
  obtain ⟨wC, hfC, hiC, htC⟩ := hC
  -- hdd_open("a")
  have habsent : ∀ f ∈ wC.hdd_files, f.name ≠ [97] := by
    intro f hf
    rw [htC] at hf
    simp only [List.mem_cons, List.mem_replicate] at hf
    rcases hf with h | h | ⟨_, h⟩
    · rw [h]; exact hmn97
    · rw [h]; exact List.noConfusion
    · rw [h]; exact List.noConfusion
  have hlenC : wC.hdd_files.length = n + 2 := by
    rw [htC]; simp
  have hD : ∃ wD, hdd_open K wC (some [97]) = some (1, wD)
      ∧ wD.hdd_files[1]? = some
          { id := (cmd_reader resp3).block, is_open := 1, position := 1, size := 1,
            name := [97] } := by
    have hs := hdd_open_search_absent wC.hdd_files [97] (n + 2) hlenC habsent (n + 2)
      (Nat.le_refl _)
    have hf := hdd_open_free_second
      { id := (cmd_reader resp2).block, is_open := 1, position := 0,
        size := (cmd_reader resp2).block_size, name := metaBlockName }
      { id := (cmd_reader resp3).block, is_open := 1, position := 1, size := 1, name := [] }
      (List.replicate n HDD_FILE.empty) n hmn rfl
    rw [htC] at hs
    have hne : ¬ ((1 : Nat) = n + 2) := by omega
    have hl1 : ¬ (([97] : List Nat).length > K.MAX_FILENAME_LENGTH) := by
      simp only [List.length_singleton]; omega
    have hl2 : ¬ (([97] : List Nat).length + 1 > K.MAX_FILENAME_LENGTH) := by
      simp only [List.length_singleton]; omega
    simp only [hdd_open, hiC, if_false, hl1, hl2, htC, hmax, hs, hf, hne,
      List.getElem?_cons_succ, List.getElem?_cons_zero, if_true, List.set_cons_succ,
      List.set_cons_zero]
    exact ⟨_, rfl, by simp⟩
  obtain ⟨wD, hfD, htD⟩ := hD
  have hreach : Reachable K client wC :=
    Reachable.write wB wC 1 (some [120]) 1 1
      (Reachable.open_ wA wB (some []) 1 (Reachable.format w0 wA hfA) hfB) hfC
  exact ⟨wC, wD, hreach, habsent, ⟨_, _, _, htC, hmn, rfl⟩, hfD, htD⟩

/-- C10 (the code at the failing input). From the boot state with a server that answers every
request with result bit 0: after `hdd_format`, `hdd_open("")` matches the first free slot
(slot 1, whose name is the empty string) and `hdd_write` of one byte through that handle gives
the slot block id 2 and position 1 while its name stays empty. In the state so reached the
name "a" is in no slot and slot 1 is the first free slot; `hdd_open("a")` returns 1 and leaves
slot 1 with the name "a", open, but with position 1 and block id 2 instead of 0 and 0. -/
theorem hdd_open_new_name_stale_slot :
    ∃ w w2 : HddState (List (Nat × Option HddBuf)),
      Reachable sampleConsts scriptClient w
        ∧ (∀ f ∈ w.hdd_files, f.name ≠ [97])
        ∧ (∃ m x rest, w.hdd_files = m :: x :: rest ∧ m.name ≠ [] ∧ x.name = [])
        ∧ hdd_open sampleConsts w (some [97]) = some (1, w2)
        ∧ w2.hdd_files[1]? = some
            { id := 2, is_open := 1, position := 1, size := 1, name := [97] } := by
  have h := hdd_open_stale_general sampleConsts scriptClient bootSample
    { hdd_init := 1, hdd_files := bootSample.hdd_files,
      server := [(cmd_generator 0 0 2 0 3, none), (cmd_generator 1 0 4 147456 0, none),
                 (cmd_generator 2 0 0 1 0, none)],
      sent := [(cmd_generator 0 0 1 0 3, .null)] }
    1022 (cmd_generator 0 0 2 0 3) (cmd_generator 1 0 4 147456 0) (cmd_generator 2 0 0 1 0)
    .null (.bytes [120])
    [(cmd_generator 1 0 4 147456 0, none), (cmd_generator 2 0 0 1 0, none)]
    [(cmd_generator 2 0 0 1 0, none)] []
    rfl (by decide) (by decide) rfl rfl (by decide) rfl (by decide) rfl (by decide)
  have e : (cmd_reader (cmd_generator 2 0 0 1 0)).block = 2 := by decide
  rw [e] at h
  exact h

/-! ## Case analyses of the operations -/

theorem hdd_open_search_some {files : List HDD_FILE} {p : List Nat} {MAX : Nat} :
    ∀ (k i : Nat), k ≤ MAX → hdd_open_search files p MAX k = some i →
      (i = MAX ∧ ∀ j g, MAX - k ≤ j → j < MAX → files[j]? = some g → g.name ≠ p)
      ∨ (i < MAX ∧ MAX - k ≤ i ∧ (∃ f, files[i]? = some f ∧ f.name = p)
          ∧ ∀ j g, MAX - k ≤ j → j < i → files[j]? = some g → g.name ≠ p)
  | 0, i, _, h => by
    simp only [hdd_open_search, Option.some.injEq] at h
    left
    refine ⟨h.symm, ?_⟩
    intro j g h1 h2
    omega
  | k + 1, i, hk, h => by
    simp only [hdd_open_search] at h
    split at h
    · exact absurd h (by simp)
    · rename_i f hf
      split at h
      · rename_i hname
        simp only [Option.some.injEq] at h
        right
        refine ⟨by omega, by omega, ⟨f, by rw [← h]; exact hf, hname⟩, ?_⟩
        intro j g h1 h2
        omega
      · rename_i hname
        rcases hdd_open_search_some k i (by omega) h with ⟨h1, h2⟩ | ⟨h1, h2, h3, h4⟩
        · left
          refine ⟨h1, ?_⟩
          intro j g hj1 hj2 hg
          by_cases hj : j = MAX - (k + 1)
          · subst hj
            rw [hf] at hg
            simp only [Option.some.injEq] at hg
            rw [← hg]; exact hname
          · exact h2 j g (by omega) hj2 hg
        · right
          refine ⟨h1, by omega, h3, ?_⟩
          intro j g hj1 hj2 hg
          by_cases hj : j = MAX - (k + 1)
          · subst hj
            rw [hf] at hg
            simp only [Option.some.injEq] at hg
            rw [← hg]; exact hname
          · exact h4 j g (by omega) hj2 hg

theorem hdd_open_free_some {files : List HDD_FILE} {MAX : Nat} :
    ∀ (k i : Nat), k ≤ MAX → hdd_open_free files MAX k = some i →
      i < MAX ∧ MAX - k ≤ i ∧ (∃ f, files[i]? = some f ∧ f.name = [])
        ∧ ∀ j g, MAX - k ≤ j → j < i → files[j]? = some g → g.name ≠ []
  | 0, i, _, h => by
    simp only [hdd_open_free] at h
    exact absurd h (by simp)
  | k + 1, i, hk, h => by
    simp only [hdd_open_free] at h
    split at h
    · exact absurd h (by simp)
    · rename_i f hf
      split at h
      · rename_i hname
        simp only [Option.some.injEq] at h
        refine ⟨by omega, by omega, ⟨f, by rw [← h]; exact hf, hname⟩, ?_⟩
        intro j g h1 h2
        omega
      · rename_i hname
        obtain ⟨h1, h2, h3, h4⟩ := hdd_open_free_some k i (by omega) h
        refine ⟨h1, by omega, h3, ?_⟩
        intro j g hj1 hj2 hg
        by_cases hj : j = MAX - (k + 1)
        · subst hj
          rw [hf] at hg
          simp only [Option.some.injEq] at hg
          rw [← hg]; exact hname
        · exact h4 j g (by omega) hj2 hg

theorem hdd_seek_cases {σ : Type} {K : HddConsts} {w w2 : HddState σ} {fh : Int} {loc : Nat}
    {r : Int} (h : hdd_seek K w fh loc = some (r, w2)) :
    (r = -1 ∧ w2 = w)
      ∨ (r = 0 ∧ 0 ≤ fh ∧ ∃ f, w.hdd_files[fh.toNat]? = some f ∧ f.is_open ≠ 0 ∧ loc ≤ f.size
          ∧ w2.hdd_files = w.hdd_files.set fh.toNat { f with position := loc }
          ∧ w2.hdd_init = w.hdd_init ∧ w2.server = w.server ∧ w2.sent = w.sent) := by
  simp only [hdd_seek] at h
  split_ifs at h with h1 h2
  · simp only [Option.some.injEq, Prod.mk.injEq] at h
    exact Or.inl ⟨h.1.symm, h.2.symm⟩
  · simp only [Option.some.injEq, Prod.mk.injEq] at h
    exact Or.inl ⟨h.1.symm, h.2.symm⟩
  · split at h
    · exact absurd h (by simp)
    · rename_i f hf
      split_ifs at h with h3 h4
      · simp only [Option.some.injEq, Prod.mk.injEq] at h
        exact Or.inl ⟨h.1.symm, h.2.symm⟩
      · simp only [Option.some.injEq, Prod.mk.injEq] at h
        exact Or.inl ⟨h.1.symm, h.2.symm⟩
      · simp only [Option.some.injEq, Prod.mk.injEq] at h
        obtain ⟨hr, hw⟩ := h
        right
        refine ⟨hr.symm, by omega, f, hf, h3, by omega, ?_, ?_, ?_, ?_⟩ <;> rw [← hw]

theorem hdd_close_cases {σ : Type} {K : HddConsts} {w w2 : HddState σ} {fh : Int} {r : Int}
    (h : hdd_close K w fh = some (r, w2)) :
    (r = -1 ∧ w2 = w)
      ∨ (r = 0 ∧ 0 ≤ fh ∧ ∃ f, w.hdd_files[fh.toNat]? = some f ∧ f.is_open ≠ 0
          ∧ w2.hdd_files = w.hdd_files.set fh.toNat { f with is_open := 0, position := 0 }
          ∧ w2.hdd_init = w.hdd_init ∧ w2.server = w.server ∧ w2.sent = w.sent) := by
  simp only [hdd_close] at h
  split_ifs at h with h1 h2
  · simp only [Option.some.injEq, Prod.mk.injEq] at h
    exact Or.inl ⟨h.1.symm, h.2.symm⟩
  · simp only [Option.some.injEq, Prod.mk.injEq] at h
    exact Or.inl ⟨h.1.symm, h.2.symm⟩
  · split at h
    · exact absurd h (by simp)
    · rename_i f hf
      split_ifs at h with h3
      · simp only [Option.some.injEq, Prod.mk.injEq] at h
        exact Or.inl ⟨h.1.symm, h.2.symm⟩
      · simp only [Option.some.injEq, Prod.mk.injEq] at h
        obtain ⟨hr, hw⟩ := h
        right
        refine ⟨hr.symm, by omega, f, hf, h3, ?_, ?_, ?_, ?_⟩ <;> rw [← hw]

theorem hdd_open_cases {σ : Type} {K : HddConsts} {w w2 : HddState σ}
    {path : Option (List Nat)} {r : Int} (h : hdd_open K w path = some (r, w2)) :
    (r = -1 ∧ w2 = w)
      ∨ (∃ (p : List Nat) (i : Nat) (f : HDD_FILE), path = some p ∧ r = (i : Int)
          ∧ hdd_open_search w.hdd_files p K.MAX_HDD_FILEDESCR K.MAX_HDD_FILEDESCR
              = some K.MAX_HDD_FILEDESCR
          ∧ hdd_open_free w.hdd_files K.MAX_HDD_FILEDESCR K.MAX_HDD_FILEDESCR = some i
          ∧ w.hdd_files[i]? = some f ∧ p.length + 1 ≤ K.MAX_FILENAME_LENGTH
          ∧ w2.hdd_files = w.hdd_files.set i { f with name := p, is_open := 1 }
          ∧ w2.hdd_init = w.hdd_init ∧ w2.server = w.server ∧ w2.sent = w.sent)
      ∨ (∃ (p : List Nat) (i : Nat) (f : HDD_FILE), path = some p ∧ r = (i : Int)
          ∧ i ≠ K.MAX_HDD_FILEDESCR
          ∧ hdd_open_search w.hdd_files p K.MAX_HDD_FILEDESCR K.MAX_HDD_FILEDESCR = some i
          ∧ w.hdd_files[i]? = some f
          ∧ ((f.is_open = 0
                ∧ w2.hdd_files = w.hdd_files.set i { f with is_open := 1, position := 0 }
                ∧ w2.hdd_init = w.hdd_init ∧ w2.server = w.server ∧ w2.sent = w.sent)
              ∨ (f.is_open ≠ 0 ∧ w2 = w))) := by
  rcases path with _ | p
  · simp only [hdd_open] at h
    split at h <;> simp only [Option.some.injEq, Prod.mk.injEq] at h <;>
      exact Or.inl ⟨h.1.symm, h.2.symm⟩
  · simp only [hdd_open] at h
    by_cases h1 : w.hdd_init = 0
    · simp only [h1, if_true, Option.some.injEq, Prod.mk.injEq] at h
      exact Or.inl ⟨h.1.symm, h.2.symm⟩
    simp only [h1, if_false] at h
    by_cases h2 : p.length > K.MAX_FILENAME_LENGTH
    · simp only [h2, if_true, Option.some.injEq, Prod.mk.injEq] at h
      exact Or.inl ⟨h.1.symm, h.2.symm⟩
    simp only [h2, if_false] at h
    cases hs : hdd_open_search w.hdd_files p K.MAX_HDD_FILEDESCR K.MAX_HDD_FILEDESCR with
    | none => simp only [hs] at h; exact absurd h (by simp)
    | some file_handle =>
      simp only [hs] at h
      by_cases h3 : file_handle = K.MAX_HDD_FILEDESCR
      · simp only [h3, if_true] at h
        cases hfree : hdd_open_free w.hdd_files K.MAX_HDD_FILEDESCR K.MAX_HDD_FILEDESCR with
        | none => simp only [hfree] at h; exact absurd h (by simp)
        | some search =>
          simp only [hfree] at h
          by_cases h4 : search = K.MAX_HDD_FILEDESCR
          · simp only [h4, if_true, Option.some.injEq, Prod.mk.injEq] at h
            exact Or.inl ⟨h.1.symm, h.2.symm⟩
          simp only [h4, if_false] at h
          cases hf : w.hdd_files[search]? with
          | none => simp only [hf] at h; exact absurd h (by simp)
          | some f =>
            simp only [hf] at h
            by_cases h5 : p.length + 1 > K.MAX_FILENAME_LENGTH
            · simp only [h5, if_true] at h; exact absurd h (by simp)
            simp only [h5, if_false, Option.some.injEq, Prod.mk.injEq] at h
            obtain ⟨hr, hw⟩ := h
            right; left
            refine ⟨p, search, f, rfl, hr.symm, by rw [hs, h3], by first | exact hfree | rfl, hf, by omega, ?_, ?_, ?_, ?_⟩
              <;> rw [← hw]
      · simp only [h3, if_false] at h
        cases hf : w.hdd_files[file_handle]? with
        | none => simp only [hf] at h; exact absurd h (by simp)
        | some f =>
          simp only [hf] at h
          by_cases h4 : f.is_open = 0
          · simp only [h4, if_true, Option.some.injEq, Prod.mk.injEq] at h
            obtain ⟨hr, hw⟩ := h
            right; right
            refine ⟨p, file_handle, f, rfl, hr.symm, h3, hs, hf, Or.inl ⟨h4, ?_, ?_, ?_, ?_⟩⟩
              <;> rw [← hw]
          · simp only [h4, if_false, Option.some.injEq, Prod.mk.injEq] at h
            obtain ⟨hr, hw⟩ := h
            right; right
            exact ⟨p, file_handle, f, rfl, hr.symm, h3, hs, hf, Or.inr ⟨h4, hw.symm⟩⟩

theorem hdd_read_cases {σ : Type} {K : HddConsts} {client : Client σ} {w w2 : HddState σ}
    {fh : Int} {data data2 : Option Buf} {count r : Int}
    (h : hdd_read K client w fh data count = some (r, data2, w2)) :
    (r = -1 ∧ data2 = data ∧ w2.hdd_files = w.hdd_files)
      ∨ (∃ f, 0 ≤ fh ∧ 0 ≤ count ∧ count ≤ K.HDD_MAX_BLOCK_SIZE
          ∧ w.hdd_files[fh.toNat]? = some f ∧ f.is_open ≠ 0
          ∧ (((f.size + 2 ^ 32 - f.position) % 2 ^ 32 > toU32 count ∧ r = count
                ∧ w2.hdd_files = w.hdd_files.set fh.toNat
                    { f with position := (f.position + toU32 count) % 2 ^ 32 })
              ∨ (¬ ((f.size + 2 ^ 32 - f.position) % 2 ^ 32 > toU32 count)
                ∧ r = toI32 ((f.size + 2 ^ 32 - f.position) % 2 ^ 32)
                ∧ w2.hdd_files = w.hdd_files.set fh.toNat { f with position := f.size }))) := by
  have hfiles := hdd_lazy_init_files K client w
  cases hi : hdd_lazy_init K client w with
  | mk b w1 =>
  rw [hi] at hfiles
  simp only at hfiles
  simp only [hdd_read, hi] at h
  rcases b with _ | _
  · simp only [if_true, Option.some.injEq, Prod.mk.injEq] at h
    exact Or.inl ⟨h.1.symm, h.2.1.symm, by rw [← h.2.2]; exact hfiles⟩
  simp only [Bool.true_eq_false, if_false] at h
  by_cases h1 : fh < 0 ∨ fh > (K.MAX_HDD_FILEDESCR : Int)
  · simp only [h1, if_true, Option.some.injEq, Prod.mk.injEq] at h
    exact Or.inl ⟨h.1.symm, h.2.1.symm, by rw [← h.2.2]; exact hfiles⟩
  simp only [h1, if_false] at h
  rcases data with _ | d
  · simp only [Option.some.injEq, Prod.mk.injEq] at h
    exact Or.inl ⟨h.1.symm, h.2.1.symm, by rw [← h.2.2]; exact hfiles⟩
  simp only at h
  by_cases h2 : count < 0 ∨ count > (K.HDD_MAX_BLOCK_SIZE : Int)
  · simp only [h2, if_true, Option.some.injEq, Prod.mk.injEq] at h
    exact Or.inl ⟨h.1.symm, h.2.1.symm, by rw [← h.2.2]; exact hfiles⟩
  simp only [h2, if_false] at h
  cases hf : w1.hdd_files[fh.toNat]? with
  | none => simp only [hf] at h; exact absurd h (by simp)
  | some f =>
    simp only [hf] at h
    by_cases h3 : f.is_open = 0
    · simp only [h3, if_true, Option.some.injEq, Prod.mk.injEq] at h
      exact Or.inl ⟨h.1.symm, h.2.1.symm, by rw [← h.2.2]; exact hfiles⟩
    simp only [h3, if_false, client_call] at h
    by_cases h4 : (cmd_reader (client w1.server (cmd_generator f.id 0 0 f.size K.HDD_BLOCK_READ)
        (.bytes (malloc f.size))).1).r = 1
    · simp only [h4, if_true, Option.some.injEq, Prod.mk.injEq] at h
      exact Or.inl ⟨h.1.symm, h.2.1.symm, by rw [← h.2.2]; exact hfiles⟩
    simp only [h4, if_false] at h
    right
    refine ⟨f, by omega, by omega, by omega, by rw [← hfiles]; exact hf, h3, ?_⟩
    by_cases h5 : (f.size + 2 ^ 32 - f.position) % 2 ^ 32 > toU32 count
    · simp only [h5, if_true, Option.some.injEq, Prod.mk.injEq] at h
      exact Or.inl ⟨h5, h.1.symm, by rw [← h.2.2, ← hfiles]⟩
    · simp only [h5, if_false, Option.some.injEq, Prod.mk.injEq] at h
      exact Or.inr ⟨h5, h.1.symm, by rw [← h.2.2, ← hfiles]⟩

theorem hdd_write_cases {σ : Type} {K : HddConsts} {client : Client σ} {w w2 : HddState σ}
    {fh : Int} {data : Option Buf} {count r : Int}
    (h : hdd_write K client w fh data count = some (r, w2)) :
    (r = -1 ∧ w2.hdd_files = w.hdd_files)
      ∨ (∃ f, 0 ≤ fh ∧ 0 ≤ count ∧ w.hdd_files[fh.toNat]? = some f ∧ f.is_open ≠ 0
          ∧ r = count ∧ (toU32 count + f.position) % 2 ^ 32 ≤ K.HDD_MAX_BLOCK_SIZE
          ∧ ((f.id = 0 ∧ ∃ b, w2.hdd_files = w.hdd_files.set fh.toNat
                  { f with id := b, position := toU32 count, size := toU32 count })
              ∨ (f.id ≠ 0 ∧ (f.position + toU32 count) % 2 ^ 32 < f.size
                  ∧ w2.hdd_files = w.hdd_files.set fh.toNat
                      { f with position := (f.position + toU32 count) % 2 ^ 32 })
              ∨ (f.id ≠ 0 ∧ ¬ ((f.position + toU32 count) % 2 ^ 32 < f.size)
                  ∧ ∃ b, w2.hdd_files = w.hdd_files.set fh.toNat
                      { f with size := (f.position + toU32 count) % 2 ^ 32, id := b,
                               position := (f.position + toU32 count) % 2 ^ 32 }))) := by
  have hfiles := hdd_lazy_init_files K client w
  cases hi : hdd_lazy_init K client w with
  | mk b w1 =>
  rw [hi] at hfiles
  simp only at hfiles
  simp only [hdd_write, hi] at h
  rcases b with _ | _
  · simp only [if_true, Option.some.injEq, Prod.mk.injEq] at h
    exact Or.inl ⟨h.1.symm, by rw [← h.2]; exact hfiles⟩
  simp only [Bool.true_eq_false, if_false] at h
  by_cases h1 : fh < 0 ∨ fh > (K.MAX_HDD_FILEDESCR : Int)
  · simp only [h1, if_true, Option.some.injEq, Prod.mk.injEq] at h
    exact Or.inl ⟨h.1.symm, by rw [← h.2]; exact hfiles⟩
  simp only [h1, if_false] at h
  rcases data with _ | d
  · simp only [Option.some.injEq, Prod.mk.injEq] at h
    exact Or.inl ⟨h.1.symm, by rw [← h.2]; exact hfiles⟩
  simp only at h
  by_cases h2 : count < 0
  · simp only [h2, if_true, Option.some.injEq, Prod.mk.injEq] at h
    exact Or.inl ⟨h.1.symm, by rw [← h.2]; exact hfiles⟩
  simp only [h2, if_false] at h
  cases hf : w1.hdd_files[fh.toNat]? with
  | none => simp only [hf] at h; exact absurd h (by simp)
  | some f =>
    simp only [hf] at h
    by_cases h3 : (toU32 count + f.position) % 2 ^ 32 > K.HDD_MAX_BLOCK_SIZE
    · simp only [h3, if_true, Option.some.injEq, Prod.mk.injEq] at h
      exact Or.inl ⟨h.1.symm, by rw [← h.2]; exact hfiles⟩
    simp only [h3, if_false] at h
    by_cases h4 : f.is_open = 0
    · simp only [h4, if_true, Option.some.injEq, Prod.mk.injEq] at h
      exact Or.inl ⟨h.1.symm, by rw [← h.2]; exact hfiles⟩
    simp only [h4, if_false, client_call] at h
    by_cases h5 : f.id = 0
    · simp only [h5, if_true] at h
      split at h
      · simp only [Option.some.injEq, Prod.mk.injEq] at h
        exact Or.inl ⟨h.1.symm, by rw [← h.2]; exact hfiles⟩
      · simp only [Option.some.injEq, Prod.mk.injEq] at h
        right
        refine ⟨f, by omega, by omega, by rw [← hfiles]; exact hf, h4, h.1.symm, by omega,
          Or.inl ⟨h5, ?_⟩⟩
        rw [← h.2, ← hfiles]
        exact ⟨_, rfl⟩
    · simp only [h5, if_false] at h
      split at h
      · simp only [Option.some.injEq, Prod.mk.injEq] at h
        exact Or.inl ⟨h.1.symm, by rw [← h.2]; exact hfiles⟩
      · by_cases h6 : (f.position + toU32 count) % 2 ^ 32 < f.size
        · simp only [h6, if_true] at h
          split at h
          · simp only [Option.some.injEq, Prod.mk.injEq] at h
            exact Or.inl ⟨h.1.symm, by rw [← h.2]; exact hfiles⟩
          · simp only [Option.some.injEq, Prod.mk.injEq] at h
            right
            refine ⟨f, by omega, by omega, by rw [← hfiles]; exact hf, h4, h.1.symm, by omega,
              Or.inr (Or.inl ⟨h5, h6, ?_⟩)⟩
            rw [← h.2, ← hfiles]
        · simp only [h6, if_false] at h
          split at h
          · simp only [Option.some.injEq, Prod.mk.injEq] at h
            exact Or.inl ⟨h.1.symm, by rw [← h.2]; exact hfiles⟩
          · split at h
            · simp only [Option.some.injEq, Prod.mk.injEq] at h
              exact Or.inl ⟨h.1.symm, by rw [← h.2]; exact hfiles⟩
            · simp only [Option.some.injEq, Prod.mk.injEq] at h
              right
              refine ⟨f, by omega, by omega, by rw [← hfiles]; exact hf, h4, h.1.symm,
                by omega, Or.inr (Or.inr ⟨h5, h6, ?_⟩)⟩
              rw [← h.2, ← hfiles]
              exact ⟨_, rfl⟩

theorem hdd_format_cases {σ : Type} {K : HddConsts} {client : Client σ} {w w2 : HddState σ}
    {r : Int} (h : hdd_format K client w = some (r, w2)) :
    r = 65535
      ∨ (r = 0 ∧ w2.hdd_init ≠ 0
          ∧ ∃ (s : σ) (cmd : Nat) (f : HDD_FILE) (rest : List HDD_FILE),
              ((client s cmd (.files (hdd_file_initialization K))).2.1).toFiles
                  (hdd_file_initialization K) = f :: rest
              ∧ w2.hdd_files =
                  { f with
                    id := (cmd_reader (client s cmd (.files (hdd_file_initialization K))).1).block,
                    name := metaBlockName,
                    size := (cmd_reader
                      (client s cmd (.files (hdd_file_initialization K))).1).block_size,
                    is_open := 1 } :: rest) := by
  cases hi : hdd_lazy_init K client w with
  | mk b w1 =>
  simp only [hdd_format, hi] at h
  rcases b with _ | _
  · simp only [if_true, Option.some.injEq, Prod.mk.injEq] at h
    exact Or.inl h.1.symm
  have hi1 := hdd_lazy_init_sets_init K client w w1 hi
  simp only [Bool.true_eq_false, if_false, client_call] at h
  split at h
  · simp only [Option.some.injEq, Prod.mk.injEq] at h
    exact Or.inl h.1.symm
  · split at h
    · simp only [Option.some.injEq, Prod.mk.injEq] at h
      exact Or.inl h.1.symm
    · split at h
      · exact absurd h (by simp)
      · rename_i f rest ht
        simp only [Option.some.injEq, Prod.mk.injEq] at h
        right
        refine ⟨h.1.symm, by rw [← h.2]; exact hi1, _, _, f, rest, ht, ?_⟩
        rw [← h.2]

theorem hdd_mount_cases {σ : Type} {K : HddConsts} {client : Client σ} {w w2 : HddState σ}
    {r : Int} (h : hdd_mount K client w = some (r, w2)) :
    r = 65535
      ∨ (r = 0 ∧ w2.hdd_init ≠ 0
          ∧ ∃ (b : Nat) (size : Nat) (f : HDD_FILE) (rest : List HDD_FILE),
              w2.hdd_files =
                { f with id := b, name := metaBlockName, size := size, is_open := 1 } :: rest) := by
  cases hi : hdd_lazy_init K client w with
  | mk b w1 =>
  simp only [hdd_mount, hi] at h
  rcases b with _ | _
  · simp only [if_true, Option.some.injEq, Prod.mk.injEq] at h
    exact Or.inl h.1.symm
  have hi1 := hdd_lazy_init_sets_init K client w w1 hi
  simp only [Bool.true_eq_false, if_false, client_call] at h
  split at h
  · exact absurd h (by simp)
  · split at h
    · simp only [Option.some.injEq, Prod.mk.injEq] at h
      exact Or.inl h.1.symm
    · split at h
      · simp only [Option.some.injEq, Prod.mk.injEq] at h
        exact Or.inl h.1.symm
      · split at h
        · exact absurd h (by simp)
        · rename_i f rest ht
          simp only [Option.some.injEq, Prod.mk.injEq] at h
          right
          refine ⟨h.1.symm, by rw [← h.2]; exact hi1, ?_⟩
          rw [← h.2]
          exact ⟨_, _, f, rest, rfl⟩

/-! ## hdd_open of an existing name, of a name when the table is full -/

theorem hdd_open_search_first (files : List HDD_FILE) (p : List Nat) (MAX i : Nat)
    (f : HDD_FILE) (hi : i < MAX) (hf : files[i]? = some f) (hname : f.name = p)
    (hfirst : ∀ j g, j < i → files[j]? = some g → g.name ≠ p) :
    ∀ k, k ≤ MAX → MAX - k ≤ i → hdd_open_search files p MAX k = some i
  | 0, _, h0 => by omega
  | k + 1, hk, h0 => by
    have hilen : i < files.length := (List.getElem?_eq_some.mp hf).1
    by_cases hj : MAX - (k + 1) = i
    · simp only [hdd_open_search, hj, hf, hname, if_true]
    · have hlt : MAX - (k + 1) < i := by omega
      have hjlen : MAX - (k + 1) < files.length := by omega
      have hg := hfirst (MAX - (k + 1)) _ hlt (List.getElem?_eq_getElem hjlen)
      simp only [hdd_open_search, List.getElem?_eq_getElem hjlen, hg, if_false]
      exact hdd_open_search_first files p MAX i f hi hf hname hfirst k (by omega) (by omega)

/-- C11. `hdd_open` of a name already in the table (on an initialized device, the name within
the length limit): it returns the index of the first slot holding that name; when that record
is already open the whole state, hence the record with its position, is unchanged; when it is
closed, `open` becomes 1 and `position` 0 while block id, size and name stay. -/
theorem hdd_open_existing {σ : Type} (K : HddConsts) (w : HddState σ) (p : List Nat) (i : Nat)
    (f : HDD_FILE) (hinit : w.hdd_init ≠ 0) (hlen : p.length ≤ K.MAX_FILENAME_LENGTH)
    (hi : i < K.MAX_HDD_FILEDESCR) (hf : w.hdd_files[i]? = some f) (hname : f.name = p)
    (hfirst : ∀ j g, j < i → w.hdd_files[j]? = some g → g.name ≠ p) :
    (f.is_open ≠ 0 → hdd_open K w (some p) = some ((i : Int), w))
      ∧ (f.is_open = 0 → ∃ w2, hdd_open K w (some p) = some ((i : Int), w2)
          ∧ w2.hdd_files = w.hdd_files.set i { f with is_open := 1, position := 0 }
          ∧ w2.hdd_init = w.hdd_init ∧ w2.server = w.server ∧ w2.sent = w.sent) := by
  have hs := hdd_open_search_first w.hdd_files p K.MAX_HDD_FILEDESCR i f hi hf hname hfirst
    K.MAX_HDD_FILEDESCR (Nat.le_refl _) (by omega)
  have hne : ¬ i = K.MAX_HDD_FILEDESCR := by omega
  have hl : ¬ p.length > K.MAX_FILENAME_LENGTH := by omega
  constructor
  · intro hopen
    simp only [hdd_open, hinit, if_false, hl, hs, hne, hf, hopen]
  · intro hclosed
    simp only [hdd_open, hinit, if_false, hl, hs, hne, hf, hclosed, if_true]
    exact ⟨_, rfl, rfl, rfl, rfl, rfl⟩

theorem hdd_open_existing_witness :
    hdd_open sampleConsts readSample (some [97]) = some (((1 : Nat) : Int), readSample)
      ∧ ∃ w2, hdd_open sampleConsts closedSample (some [97]) = some (((1 : Nat) : Int), w2)
          ∧ w2.hdd_files = closedSample.hdd_files.set 1
              { id := 5, is_open := 1, position := 0, size := 5, name := [97] }
          ∧ w2.hdd_init = closedSample.hdd_init ∧ w2.server = closedSample.server
          ∧ w2.sent = closedSample.sent :=
  ⟨(hdd_open_existing sampleConsts readSample [97] 1
      { id := 5, is_open := 1, position := 3, size := 5, name := [97] } (by decide) (by decide)
      (by decide) rfl rfl
      (fun j g hj hg => by
        have h0 : j = 0 := by omega
        subst h0
        simp only [readSample, List.getElem?_cons_zero, Option.some.injEq] at hg
        subst hg
        decide)).1 (by decide),
   (hdd_open_existing sampleConsts closedSample [97] 1
      { id := 5, is_open := 0, position := 3, size := 5, name := [97] } (by decide) (by decide)
      (by decide) rfl rfl
      (fun j g hj hg => by
        have h0 : j = 0 := by omega
        subst h0
        simp only [closedSample, List.getElem?_cons_zero, Option.some.injEq] at hg
        subst hg
        decide)).2 rfl⟩

theorem hdd_open_free_full (files : List HDD_FILE) (MAX : Nat) (hlen : files.length = MAX)
    (hfull : ∀ f ∈ files, f.name ≠ []) :
    ∀ k, k ≤ MAX → hdd_open_free files MAX k = none
  | 0, _ => rfl
  | k + 1, hk => by
    have hi : MAX - (k + 1) < files.length := by omega
    simp only [hdd_open_free, List.getElem?_eq_getElem hi]
    rw [if_neg (hfull _ (List.getElem_mem hi))]
    exact hdd_open_free_full files MAX hlen hfull k (by omega)

/-- C12 (the code on a full table). On an initialized device whose `MAX_HDD_FILEDESCR` slots
all hold non-empty names different from the requested one, `hdd_open` does not return -1: the
loop `while (strcmp(hdd_files[search].name, "") != 0) search++` has no bound on `search` and
reads `hdd_files[MAX_HDD_FILEDESCR]`, past the end of the table. -/
theorem hdd_open_full_table {σ : Type} (K : HddConsts) (w : HddState σ) (p : List Nat)
    (hinit : w.hdd_init ≠ 0) (hlen : p.length ≤ K.MAX_FILENAME_LENGTH)
    (htab : w.hdd_files.length = K.MAX_HDD_FILEDESCR)
    (hfull : ∀ f ∈ w.hdd_files, f.name ≠ []) (hnew : ∀ f ∈ w.hdd_files, f.name ≠ p) :
    hdd_open K w (some p) = none
      ∧ hdd_open_free w.hdd_files K.MAX_HDD_FILEDESCR K.MAX_HDD_FILEDESCR = none
      ∧ w.hdd_files[K.MAX_HDD_FILEDESCR]? = none := by
  have hs := hdd_open_search_absent w.hdd_files p K.MAX_HDD_FILEDESCR htab hnew
    K.MAX_HDD_FILEDESCR (Nat.le_refl _)
  have hfree := hdd_open_free_full w.hdd_files K.MAX_HDD_FILEDESCR htab hfull
    K.MAX_HDD_FILEDESCR (Nat.le_refl _)
  have hl : ¬ p.length > K.MAX_FILENAME_LENGTH := by omega
  refine ⟨?_, hfree, ?_⟩
  · simp only [hdd_open, hinit, if_false, hl, hs, hfree, if_true]
  · exact List.getElem?_eq_none (by omega)

theorem hdd_open_full_table_witness :
    hdd_open sampleConsts fullSample (some [97]) = none
      ∧ hdd_open_free fullSample.hdd_files sampleConsts.MAX_HDD_FILEDESCR
          sampleConsts.MAX_HDD_FILEDESCR = none
      ∧ fullSample.hdd_files[sampleConsts.MAX_HDD_FILEDESCR]? = none :=
  hdd_open_full_table sampleConsts fullSample [97] (by decide) (by decide)
    (by simp [fullSample, sampleConsts])
    (by
      intro f hf
      simp only [fullSample, List.mem_cons, List.mem_map, List.mem_range] at hf
      rcases hf with h | ⟨i, _, h⟩
      · rw [h]; decide
      · rw [← h]; exact List.noConfusion)
    (by
      intro f hf
      simp only [fullSample, List.mem_cons, List.mem_map, List.mem_range] at hf
      rcases hf with h | ⟨i, _, h⟩
      · rw [h]; decide
      · rw [← h]; intro hc; simp at hc)

/-! ## Handle validation and failure atomicity -/

/-- C13 (the code at `fh = MAX_HDD_FILEDESCR`). The handle test of `hdd_close`, `hdd_seek`,
`hdd_read` and `hdd_write` is `fh < 0 || fh > MAX_HDD_FILEDESCR`: on an initialized device the
handle `MAX_HDD_FILEDESCR` passes it and each of the four functions goes on to read
`hdd_files[MAX_HDD_FILEDESCR]`, past the end of the table, instead of returning -1. For
`fh < 0` and `fh > MAX_HDD_FILEDESCR` they return -1 and leave the state as it is. -/
theorem handle_check_off_by_one {σ : Type} (K : HddConsts) (client : Client σ)
    (w : HddState σ) (d : Buf) (count : Int) (loc : Nat)
    (hinit : w.hdd_init ≠ 0) (htab : w.hdd_files.length = K.MAX_HDD_FILEDESCR)
    (hc0 : 0 ≤ count) (hc1 : count ≤ K.HDD_MAX_BLOCK_SIZE) :
    w.hdd_files[K.MAX_HDD_FILEDESCR]? = none
      ∧ hdd_close K w K.MAX_HDD_FILEDESCR = none
      ∧ hdd_seek K w K.MAX_HDD_FILEDESCR loc = none
      ∧ hdd_read K client w K.MAX_HDD_FILEDESCR (some d) count = none
      ∧ hdd_write K client w K.MAX_HDD_FILEDESCR (some d) count = none
      ∧ ∀ fh : Int, fh < 0 ∨ fh > K.MAX_HDD_FILEDESCR →
          hdd_close K w fh = some (-1, w) ∧ hdd_seek K w fh loc = some (-1, w)
          ∧ hdd_read K client w fh (some d) count = some (-1, some d, w)
          ∧ hdd_write K client w fh (some d) count = some (-1, w) := by
  have hnone : w.hdd_files[K.MAX_HDD_FILEDESCR]? = none := List.getElem?_eq_none (by omega)
  have hrange : ¬ ((K.MAX_HDD_FILEDESCR : Int) < 0
      ∨ (K.MAX_HDD_FILEDESCR : Int) > (K.MAX_HDD_FILEDESCR : Int)) := by omega
  have hcnt : ¬ (count < 0 ∨ count > (K.HDD_MAX_BLOCK_SIZE : Int)) := by omega
  have hcnt2 : ¬ (count < 0) := by omega
  have hli := hdd_lazy_init_of_init K client w hinit
  refine ⟨hnone, ?_, ?_, ?_, ?_, ?_⟩
  · simp only [hdd_close, hinit, hrange, if_false, Int.toNat_ofNat, hnone]
  · simp only [hdd_seek, hinit, hrange, if_false, Int.toNat_ofNat, hnone]
  · simp only [hdd_read, hli, hrange, hcnt, if_false, Int.toNat_ofNat, hnone,
      Bool.true_eq_false]
  · simp only [hdd_write, hli, hrange, hcnt2, if_false, Int.toNat_ofNat, hnone,
      Bool.true_eq_false]
  · intro fh hfh
    refine ⟨?_, ?_, ?_, ?_⟩
    · simp only [hdd_close, hinit, hfh, if_false, if_true]
    · simp only [hdd_seek, hinit, hfh, if_false, if_true]
    · simp only [hdd_read, hli, hfh, if_false, if_true, Bool.true_eq_false]
    · simp only [hdd_write, hli, hfh, if_false, if_true, Bool.true_eq_false]

theorem handle_check_off_by_one_witness :
    fullSample.hdd_files[sampleConsts.MAX_HDD_FILEDESCR]? = none
      ∧ hdd_close sampleConsts fullSample sampleConsts.MAX_HDD_FILEDESCR = none
      ∧ hdd_seek sampleConsts fullSample sampleConsts.MAX_HDD_FILEDESCR 0 = none
      ∧ hdd_read sampleConsts scriptClient fullSample sampleConsts.MAX_HDD_FILEDESCR
          (some [0]) 1 = none
      ∧ hdd_write sampleConsts scriptClient fullSample sampleConsts.MAX_HDD_FILEDESCR
          (some [0]) 1 = none
      ∧ ∀ fh : Int, fh < 0 ∨ fh > sampleConsts.MAX_HDD_FILEDESCR →
          hdd_close sampleConsts fullSample fh = some (-1, fullSample)
          ∧ hdd_seek sampleConsts fullSample fh 0 = some (-1, fullSample)
          ∧ hdd_read sampleConsts scriptClient fullSample fh (some [0]) 1
              = some (-1, some [0], fullSample)
          ∧ hdd_write sampleConsts scriptClient fullSample fh (some [0]) 1
              = some (-1, fullSample) :=
  handle_check_off_by_one sampleConsts scriptClient fullSample [0] 1 0 (by decide)
    (by simp [fullSample, sampleConsts]) (by decide) (by decide)

theorem toI32_ne_neg_one_of_le (n : Nat) (count : Int) (h0 : 0 ≤ count) (h1 : count < 2 ^ 31)
    (hn : ¬ (n % 2 ^ 32 > toU32 count)) : toI32 (n % 2 ^ 32) ≠ -1 := by
  have hu : toU32 count = count.toNat := by
    unfold toU32
    omega
  unfold toI32
  rw [hu] at hn
  split <;> omega

/-- C14. Failure atomicity: whenever `hdd_read` (with an `int32_t` count), `hdd_seek`,
`hdd_close` or `hdd_open` returns the failure value -1, or `hdd_write` returns it (on the
unwritten, the in-place and also the growth path), the whole file table, and with it the record
of the handle involved, is identical to its value before the call. -/
theorem failure_leaves_table {σ : Type} (K : HddConsts) (client : Client σ) (w : HddState σ) :
    (∀ (fh : Int) (data data2 : Option Buf) (count : Int) (w2 : HddState σ),
        count < 2 ^ 31 → hdd_read K client w fh data count = some (-1, data2, w2) →
        w2.hdd_files = w.hdd_files)
      ∧ (∀ (fh : Int) (loc : Nat) (w2 : HddState σ),
        hdd_seek K w fh loc = some (-1, w2) → w2.hdd_files = w.hdd_files)
      ∧ (∀ (fh : Int) (w2 : HddState σ),
        hdd_close K w fh = some (-1, w2) → w2.hdd_files = w.hdd_files)
      ∧ (∀ (path : Option (List Nat)) (w2 : HddState σ),
        hdd_open K w path = some (-1, w2) → w2.hdd_files = w.hdd_files)
      ∧ (∀ (fh : Int) (data : Option Buf) (count : Int) (w2 : HddState σ),
        hdd_write K client w fh data count = some (-1, w2) → w2.hdd_files = w.hdd_files) := by
  refine ⟨?_, ?_, ?_, ?_, ?_⟩
  · intro fh data data2 count w2 hc h
    rcases hdd_read_cases h with ⟨_, _, h1⟩ | ⟨f, _, h0, _, _, _, ⟨_, hr, _⟩ | ⟨hn, hr, _⟩⟩
    · exact h1
    · omega
    · exact absurd hr.symm (toI32_ne_neg_one_of_le _ count h0 hc hn)
  · intro fh loc w2 h
    rcases hdd_seek_cases h with ⟨_, h1⟩ | ⟨hr, _⟩
    · rw [h1]
    · omega
  · intro fh w2 h
    rcases hdd_close_cases h with ⟨_, h1⟩ | ⟨hr, _⟩
    · rw [h1]
    · omega
  · intro path w2 h
    rcases hdd_open_cases h with ⟨_, h1⟩ | ⟨p, i, f, _, hr, _⟩ | ⟨p, i, f, _, hr, _⟩
    · rw [h1]
    · omega
    · omega
  · intro fh data count w2 h
    rcases hdd_write_cases h with ⟨_, h1⟩ | ⟨f, _, h0, _, _, hr, _⟩
    · exact h1
    · omega

theorem failure_leaves_table_witness :
    hdd_read sampleConsts scriptClient closedSample 0 (some [0]) 1
        = some (-1, some [0],
            { hdd_init := 1, hdd_files := closedSample.hdd_files, server := [],
              sent := [(cmd_generator 1 0 0 0 1, .bytes [])] })
      ∧ closedSample.hdd_files = closedSample.hdd_files
      ∧ hdd_seek sampleConsts readSample 1 9 = some (-1, readSample)
      ∧ readSample.hdd_files = readSample.hdd_files :=
  ⟨rfl,
   (failure_leaves_table sampleConsts scriptClient closedSample).1 0 (some [0]) (some [0]) 1
      { hdd_init := 1, hdd_files := closedSample.hdd_files, server := [],
        sent := [(cmd_generator 1 0 0 0 1, .bytes [])] } (by decide) rfl,
   rfl,
   (failure_leaves_table sampleConsts scriptClient readSample).2.1 1 9 readSample rfl⟩

/-! ## Runs of hdd_format -/

theorem cmd_reader_fields_lt (cmd : Nat) :
    (cmd_reader cmd).r < 2 ∧ (cmd_reader cmd).block_size < 2 ^ 26
      ∧ (cmd_reader cmd).block < 2 ^ 32 ∧ (cmd_reader cmd).flags < 8 := by
  rw [cmd_reader_arith]
  refine ⟨?_, ?_, ?_, ?_⟩ <;> simp only <;> omega

/-- A successful run of `hdd_format`, step by step. -/
theorem hdd_format_run {σ : Type} (K : HddConsts) (client : Client σ) (w0 w1 : HddState σ)
    (resp1 resp2 : Nat) (fb1 : HddBuf) (s2 s3 : σ) (f : HDD_FILE) (rest : List HDD_FILE)
    (hinit : hdd_lazy_init K client w0 = (true, w1))
    (hfmt : client w1.server (cmd_generator 0 0 K.HDD_FORMAT 0 K.HDD_DEVICE) .null
      = (resp1, fb1, s2))
    (hok1 : (cmd_reader resp1).r ≠ 1)
    (hmeta : client s2 (cmd_generator 0 0 K.HDD_META_BLOCK
        ((K.MAX_HDD_FILEDESCR * K.sizeof_HDD_FILE) % 2 ^ 32) K.HDD_BLOCK_CREATE)
      (.files (hdd_file_initialization K)) = (resp2, .files (f :: rest), s3))
    (hok2 : (cmd_reader resp2).r ≠ 1) :
    ∃ w, hdd_format K client w0 = some (0, w) ∧ w.hdd_init ≠ 0 ∧ w.server = s3
      ∧ w.hdd_files = { f with id := (cmd_reader resp2).block, name := metaBlockName,
                               size := (cmd_reader resp2).block_size, is_open := 1 } :: rest
      ∧ w.sent = w1.sent ++ [(cmd_generator 0 0 K.HDD_FORMAT 0 K.HDD_DEVICE, .null),
          (cmd_generator 0 0 K.HDD_META_BLOCK
            ((K.MAX_HDD_FILEDESCR * K.sizeof_HDD_FILE) % 2 ^ 32) K.HDD_BLOCK_CREATE,
           .files (hdd_file_initialization K))] := by
  have hi1 : w1.hdd_init ≠ 0 := hdd_lazy_init_sets_init K client w0 w1 hinit
  simp only [hdd_format, hinit, client_call, hfmt, hok1, hmeta, hok2, HddBuf.toFiles, if_false,
    Bool.true_eq_false]
  refine ⟨_, rfl, hi1, rfl, rfl, ?_⟩
  simp only [List.append_assoc, List.singleton_append]

/-- The run of `hdd_format` from `clobberSample t` for a table `t = f :: rest`. -/
theorem hdd_format_clobber (f : HDD_FILE) (rest : List HDD_FILE) :
    ∃ w, hdd_format sampleConsts scriptClient (clobberSample (f :: rest)) = some (0, w)
      ∧ w.hdd_init ≠ 0
      ∧ w.hdd_files = { f with id := 1, name := metaBlockName, size := 147456, is_open := 1 }
          :: rest := by
  have e0 : (cmd_reader (cmd_generator 0 0 1 0 3)).r ≠ 1 := by decide
  have hinit : hdd_lazy_init sampleConsts scriptClient (clobberSample (f :: rest))
      = (true, { hdd_init := 1, hdd_files := hdd_file_initialization sampleConsts,
                 server := [(cmd_generator 0 0 2 0 3, none),
                            (cmd_generator 1 0 4 147456 1, some (.files (f :: rest)))],
                 sent := [(cmd_generator 0 0 1 0 3, .null)] }) := by
    simp only [hdd_lazy_init, clobberSample, client_call, scriptClient, if_true, e0, if_false,
      List.nil_append]
    rfl
  obtain ⟨w, h1, h2, _, h4, _⟩ := hdd_format_run sampleConsts scriptClient
    (clobberSample (f :: rest))
    { hdd_init := 1, hdd_files := hdd_file_initialization sampleConsts,
      server := [(cmd_generator 0 0 2 0 3, none),
                 (cmd_generator 1 0 4 147456 1, some (.files (f :: rest)))],
      sent := [(cmd_generator 0 0 1 0 3, .null)] }
    (cmd_generator 0 0 2 0 3) (cmd_generator 1 0 4 147456 1) .null
    [(cmd_generator 1 0 4 147456 1, some (.files (f :: rest)))] [] f rest
    hinit rfl (by decide) rfl (by decide)
  have e1 : (cmd_reader (cmd_generator 1 0 4 147456 1)).block = 1 := by decide
  have e2 : (cmd_reader (cmd_generator 1 0 4 147456 1)).block_size = 147456 := by decide
  rw [e1, e2] at h4
  exact ⟨w, h1, h2, h4⟩

/-! ## The cursor invariant -/

theorem forall_mem_set {P : HDD_FILE → Prop} (l : List HDD_FILE) (i : Nat) (g : HDD_FILE)
    (hl : ∀ f ∈ l, P f) (hg : P g) : ∀ f ∈ l.set i g, P f := by
  intro f hf
  rcases List.mem_or_eq_of_mem_set hf with h | h
  · exact hl f h
  · rw [h]; exact hg

theorem toU32_lt (x : Int) : toU32 x < 2 ^ 32 := by
  unfold toU32
  omega

/-- The cursor invariant together with the typing fact it needs: `position <= size` and
`size` a `uint32_t`. -/
theorem cursor_step {σ : Type} (K : HddConsts) (client : Client σ) (w : HddState σ)
    (hinv : ∀ f ∈ w.hdd_files, f.position ≤ f.size ∧ f.size < 2 ^ 32) :
    (∀ path r w2, hdd_open K w path = some (r, w2) →
        ∀ f ∈ w2.hdd_files, f.position ≤ f.size ∧ f.size < 2 ^ 32)
      ∧ (∀ fh r w2, hdd_close K w fh = some (r, w2) →
        ∀ f ∈ w2.hdd_files, f.position ≤ f.size ∧ f.size < 2 ^ 32)
      ∧ (∀ fh loc r w2, hdd_seek K w fh loc = some (r, w2) →
        ∀ f ∈ w2.hdd_files, f.position ≤ f.size ∧ f.size < 2 ^ 32)
      ∧ (∀ fh data count r data2 w2, hdd_read K client w fh data count = some (r, data2, w2) →
        ∀ f ∈ w2.hdd_files, f.position ≤ f.size ∧ f.size < 2 ^ 32)
      ∧ (∀ fh data count r w2, hdd_write K client w fh data count = some (r, w2) →
        ∀ f ∈ w2.hdd_files, f.position ≤ f.size ∧ f.size < 2 ^ 32) := by
  refine ⟨?_, ?_, ?_, ?_, ?_⟩
  · intro path r w2 h
    rcases hdd_open_cases h with ⟨_, h1⟩ | ⟨p, i, f, _, _, _, _, hf, _, hset, _⟩
      | ⟨p, i, f, _, _, _, _, hf, ⟨_, hset, _⟩ | ⟨_, h1⟩⟩
    · rw [h1]; exact hinv
    · rw [hset]
      exact forall_mem_set _ _ _ hinv (hinv f (List.getElem?_mem hf))
    · rw [hset]
      exact forall_mem_set _ _ _ hinv ⟨Nat.zero_le _, (hinv f (List.getElem?_mem hf)).2⟩
    · rw [h1]; exact hinv
  · intro fh r w2 h
    rcases hdd_close_cases h with ⟨_, h1⟩ | ⟨_, _, f, hf, _, hset, _⟩
    · rw [h1]; exact hinv
    · rw [hset]
      exact forall_mem_set _ _ _ hinv ⟨Nat.zero_le _, (hinv f (List.getElem?_mem hf)).2⟩
  · intro fh loc r w2 h
    rcases hdd_seek_cases h with ⟨_, h1⟩ | ⟨_, _, f, hf, _, hloc, hset, _⟩
    · rw [h1]; exact hinv
    · rw [hset]
      exact forall_mem_set _ _ _ hinv ⟨hloc, (hinv f (List.getElem?_mem hf)).2⟩
  · intro fh data count r data2 w2 h
    rcases hdd_read_cases h with ⟨_, _, h1⟩
      | ⟨f, _, _, _, hf, _, ⟨hgt, _, hset⟩ | ⟨_, _, hset⟩⟩
    · rw [h1]; exact hinv
    · rw [hset]
      have hf2 := hinv f (List.getElem?_mem hf)
      refine forall_mem_set _ _ _ hinv ⟨?_, hf2.2⟩
      show (f.position + toU32 count) % 2 ^ 32 ≤ f.size
      omega
    · rw [hset]
      exact forall_mem_set _ _ _ hinv ⟨Nat.le_refl _, (hinv f (List.getElem?_mem hf)).2⟩
  · intro fh data count r w2 h
    rcases hdd_write_cases h with ⟨_, h1⟩
      | ⟨f, _, _, hf, _, _, _, ⟨_, b, hset⟩ | ⟨_, hlt, hset⟩ | ⟨_, _, b, hset⟩⟩
    · rw [h1]; exact hinv
    · rw [hset]
      exact forall_mem_set _ _ _ hinv ⟨Nat.le_refl _, toU32_lt count⟩
    · rw [hset]
      exact forall_mem_set _ _ _ hinv ⟨Nat.le_of_lt hlt, (hinv f (List.getElem?_mem hf)).2⟩
    · rw [hset]
      exact forall_mem_set _ _ _ hinv ⟨Nat.le_refl _, Nat.mod_lt _ (by decide)⟩

theorem hdd_file_initialization_mem (K : HddConsts) (f : HDD_FILE)
    (hf : f ∈ hdd_file_initialization K) : f = HDD_FILE.empty := by
  unfold hdd_file_initialization at hf
  exact (List.mem_replicate.mp hf).2

/-- C15 (as amended). When `hdd_client_operation` leaves the file table untouched (the server
does not answer the meta-block create of `hdd_format` with an op-`BLOCK_READ` response), every
state reachable from a successful `hdd_format` by `hdd_open`, `hdd_close`, `hdd_read`,
`hdd_write` and `hdd_seek` calls, successful or failed, with any arguments and any other
server responses, has `position <= size` in every file record. -/
theorem cursor_invariant {σ : Type} (K : HddConsts) (client : Client σ)
    (hkeep : KeepsTable client) (w : HddState σ) (hreach : Reachable K client w) :
    ∀ f ∈ w.hdd_files, f.position ≤ f.size := by
  have hstrong : ∀ f ∈ w.hdd_files, f.position ≤ f.size ∧ f.size < 2 ^ 32 := by
    induction hreach with
    | format w0 w h =>
      rcases hdd_format_cases h with h65 | ⟨_, _, s, cmd, f, rest, ht, hfiles⟩
      · omega
      · rw [hkeep] at ht
        have hall : ∀ g ∈ f :: rest, g = HDD_FILE.empty := by
          intro g hg
          rw [← ht] at hg
          exact hdd_file_initialization_mem K g hg
        have hf0 : f = HDD_FILE.empty := hall f (List.mem_cons_self _ _)
        intro g hg
        rw [hfiles] at hg
        rcases List.mem_cons.mp hg with hg1 | hg1
        · rw [hg1, hf0]
          have hb := (cmd_reader_fields_lt (client s cmd
            (.files (hdd_file_initialization K))).1).2.1
          exact ⟨Nat.zero_le _, by
            show (cmd_reader (client s cmd (.files (hdd_file_initialization K))).1).block_size
              < 2 ^ 32
            omega⟩
        · rw [hall g (List.mem_cons_of_mem _ hg1)]
          exact ⟨Nat.le_refl _, by decide⟩
    | open_ w w2 path r _ h ih => exact (cursor_step K client w ih).1 path r w2 h
    | close w w2 fh r _ h ih => exact (cursor_step K client w ih).2.1 fh r w2 h
    | read w w2 fh data data2 count r _ h ih =>
      exact (cursor_step K client w ih).2.2.2.1 fh data count r data2 w2 h
    | write w w2 fh data count r _ h ih =>
      exact (cursor_step K client w ih).2.2.2.2 fh data count r w2 h
    | seek w w2 fh loc r _ h ih => exact (cursor_step K client w ih).2.2.1 fh loc r w2 h
  intro f hf
  exact (hstrong f hf).1

theorem okClient_keepsTable : KeepsTable okClient := by
  intro s cmd t
  rfl

theorem okBoot_lazy_init :
    hdd_lazy_init sampleConsts okClient okBoot
      = (true, { hdd_init := 1, hdd_files := hdd_file_initialization sampleConsts, server := 1,
                 sent := [(cmd_generator 0 0 1 0 3, .null)] }) := by
  have e0 : (cmd_reader (cmd_generator 1 0 0 0 0)).r ≠ 1 := by decide
  simp only [hdd_lazy_init, okBoot, client_call, okClient, if_true, e0, if_false,
    List.nil_append]
  rfl

theorem cursor_invariant_witness :
    ∃ w : HddState Nat, Reachable sampleConsts okClient w
      ∧ ∀ f ∈ w.hdd_files, f.position ≤ f.size :=
  let ⟨w, _, hreach, _⟩ :=
    hdd_open_stale_general sampleConsts okClient okBoot
      { hdd_init := 1, hdd_files := hdd_file_initialization sampleConsts, server := 1,
        sent := [(cmd_generator 0 0 1 0 3, .null)] }
      1022 (cmd_generator 2 0 0 0 0) (cmd_generator 3 0 0 0 0) (cmd_generator 4 0 0 0 0)
      .null (.bytes [120]) 2 3 4
      rfl (by decide) (by decide) okBoot_lazy_init rfl (by decide) rfl (by decide) rfl
      (by decide)
  ⟨w, hreach, cursor_invariant sampleConsts okClient okClient_keepsTable w hreach⟩

/-- C15 (counterexample to the claim as stated). The scripted server answers the meta-block
create of `hdd_format` with a success word of op `BLOCK_READ` and a payload;
`hdd_client_operation` writes the payload over `hdd_files`, `hdd_format` still returns 0, and
slot 1 of the resulting state has position 5 and size 0. -/
theorem cursor_invariant_counterexample :
    ∃ w : HddState (List (Nat × Option HddBuf)),
      Reachable sampleConsts scriptClient w
        ∧ w.hdd_files[1]?
            = some { id := 0, is_open := 0, position := 5, size := 0, name := [] }
        ∧ ¬ ∀ f ∈ w.hdd_files, f.position ≤ f.size := by
  obtain ⟨w, h1, _, h3⟩ := hdd_format_clobber HDD_FILE.empty
    ({ id := 0, is_open := 0, position := 5, size := 0, name := [] }
      :: List.replicate 1022 HDD_FILE.empty)
  refine ⟨w, Reachable.format _ w h1,
    by rw [h3]; simp only [List.getElem?_cons_succ, List.getElem?_cons_zero], ?_⟩
  intro hall
  have h5 := hall { id := 0, is_open := 0, position := 5, size := 0, name := [] }
    (by rw [h3]; exact List.mem_cons_of_mem _ (List.mem_cons_self _ _))
  exact absurd h5 (by decide)

/-! ## Slot 0 -/

theorem hdd_close_run {σ : Type} (K : HddConsts) (w : HddState σ) (fh : Nat) (f : HDD_FILE)
    (hinit : w.hdd_init ≠ 0) (hfh : fh < K.MAX_HDD_FILEDESCR) (hf : w.hdd_files[fh]? = some f)
    (hopen : f.is_open ≠ 0) :
    ∃ w2, hdd_close K w fh = some (0, w2)
      ∧ w2.hdd_files = w.hdd_files.set fh { f with is_open := 0, position := 0 }
      ∧ w2.hdd_init = w.hdd_init ∧ w2.server = w.server ∧ w2.sent = w.sent := by
  have hrange : ¬ ((fh : Int) < 0 ∨ (fh : Int) > (K.MAX_HDD_FILEDESCR : Int)) := by omega
  simp only [hdd_close, hinit, hrange, if_false, Int.toNat_ofNat, hf, hopen]
  exact ⟨_, rfl, rfl, rfl, rfl, rfl⟩

theorem bootSample_lazy_init :
    hdd_lazy_init sampleConsts scriptClient bootSample
      = (true, { hdd_init := 1, hdd_files := hdd_file_initialization sampleConsts,
                 server := [(cmd_generator 0 0 2 0 3, none),
                            (cmd_generator 1 0 4 147456 0, none),
                            (cmd_generator 2 0 0 1 0, none)],
                 sent := [(cmd_generator 0 0 1 0 3, .null)] }) := by
  have e0 : (cmd_reader (cmd_generator 0 0 1 0 3)).r ≠ 1 := by decide
  simp only [hdd_lazy_init, bootSample, client_call, scriptClient, if_true, e0, if_false,
    List.nil_append]
  rfl

/-- The run of `hdd_format` from `bootSample`. -/
theorem hdd_format_bootSample :
    ∃ w, hdd_format sampleConsts scriptClient bootSample = some (0, w) ∧ w.hdd_init ≠ 0
      ∧ w.hdd_files
          = { id := 1, is_open := 1, position := 0, size := 147456, name := metaBlockName }
            :: List.replicate 1023 HDD_FILE.empty := by
  obtain ⟨w, h1, h2, _, h4, _⟩ := hdd_format_run sampleConsts scriptClient bootSample
    { hdd_init := 1, hdd_files := hdd_file_initialization sampleConsts,
      server := [(cmd_generator 0 0 2 0 3, none), (cmd_generator 1 0 4 147456 0, none),
                 (cmd_generator 2 0 0 1 0, none)],
      sent := [(cmd_generator 0 0 1 0 3, .null)] }
    (cmd_generator 0 0 2 0 3) (cmd_generator 1 0 4 147456 0) .null
    [(cmd_generator 1 0 4 147456 0, none), (cmd_generator 2 0 0 1 0, none)]
    [(cmd_generator 2 0 0 1 0, none)] HDD_FILE.empty (List.replicate 1023 HDD_FILE.empty)
    bootSample_lazy_init rfl (by decide) rfl (by decide)
  have e1 : (cmd_reader (cmd_generator 1 0 4 147456 0)).block = 1 := by decide
  have e2 : (cmd_reader (cmd_generator 1 0 4 147456 0)).block_size = 147456 := by decide
  rw [e1, e2] at h4
  exact ⟨w, h1, h2, h4⟩

/-- C16 (counterexample to the claim as stated). After a successful `hdd_format`,
`hdd_close(0)` passes every check of `hdd_close`, returns 0 and marks slot 0 closed. -/
theorem slot0_closed_by_hdd_close :
    ∃ w w2 : HddState (List (Nat × Option HddBuf)),
      hdd_format sampleConsts scriptClient bootSample = some (0, w)
        ∧ hdd_close sampleConsts w 0 = some (0, w2)
        ∧ Reachable sampleConsts scriptClient w2
        ∧ w2.hdd_files[0]?
            = some { id := 1, is_open := 0, position := 0, size := 147456,
                     name := metaBlockName } := by
  obtain ⟨w, h1, h2, h3⟩ := hdd_format_bootSample
  obtain ⟨w2, hc, hfiles, _⟩ := hdd_close_run sampleConsts w 0
    { id := 1, is_open := 1, position := 0, size := 147456, name := metaBlockName } h2
    (by decide) (by rw [h3]; simp only [List.getElem?_cons_zero]) (by decide)
  refine ⟨w, w2, h1, hc, Reachable.close w w2 0 0 (Reachable.format _ w h1) hc, ?_⟩
  rw [hfiles, h3]
  simp only [List.set_cons_zero, List.getElem?_cons_zero]

theorem slot0_set (c : Bool) (l : List HDD_FILE) (i : Nat) (fi g : HDD_FILE)
    (hl : ∃ f rest, l = f :: rest ∧ f.name = metaBlockName ∧ (c = false → f.is_open = 1))
    (hfi : l[i]? = some fi)
    (hg : i = 0 → fi.name = metaBlockName → (c = false → fi.is_open = 1) →
      g.name = metaBlockName ∧ (c = false → g.is_open = 1)) :
    ∃ f rest, l.set i g = f :: rest ∧ f.name = metaBlockName ∧ (c = false → f.is_open = 1) := by
  obtain ⟨f, rest, hl1, hn, ho⟩ := hl
  subst hl1
  rcases i with _ | n
  · simp only [List.getElem?_cons_zero, Option.some.injEq] at hfi
    subst hfi
    exact ⟨g, rest, rfl, hg rfl hn ho⟩
  · exact ⟨f, rest.set n g, rfl, hn, ho⟩

/-- C16 (as amended). After a successful `hdd_format` or `hdd_mount`, for every sequence of
`hdd_open`, `hdd_close`, `hdd_read`, `hdd_write` and `hdd_seek` calls with any arguments, slot 0
keeps its name "Meta Block"; and it stays marked open for every such sequence in which
`hdd_close` is not called on handle 0 (`close0 = false`). -/
theorem slot0_invariant {σ : Type} (K : HddConsts) (client : Client σ) (close0 : Bool)
    (w : HddState σ) (hreach : ReachableM K client close0 w) :
    ∃ f rest, w.hdd_files = f :: rest ∧ f.name = metaBlockName
      ∧ (close0 = false → f.is_open = 1) := by
  induction hreach with
  | format w0 w h =>
    rcases hdd_format_cases h with h65 | ⟨_, _, s, cmd, f, rest, _, hfiles⟩
    · omega
    · exact ⟨_, rest, hfiles, rfl, fun _ => rfl⟩
  | mount w0 w h =>
    rcases hdd_mount_cases h with h65 | ⟨_, _, b, size, f, rest, hfiles⟩
    · omega
    · exact ⟨_, rest, hfiles, rfl, fun _ => rfl⟩
  | open_ w w2 path r _ h ih =>
    rcases hdd_open_cases h with ⟨_, h1⟩ | ⟨p, i, f, _, _, _, hfree, hf, _, hset, _⟩
      | ⟨p, i, f, _, _, _, _, hf, ⟨hclosed, hset, _⟩ | ⟨_, h1⟩⟩
    · rw [h1]; exact ih
    · rw [hset]
      obtain ⟨_, _, ⟨f2, hf2, hempty⟩, _⟩ :=
        hdd_open_free_some K.MAX_HDD_FILEDESCR i (Nat.le_refl _) hfree
      rw [hf] at hf2
      simp only [Option.some.injEq] at hf2
      subst hf2
      refine slot0_set close0 _ i f _ ih hf ?_
      intro _ hn _
      rw [hn] at hempty
      exact absurd hempty (by decide)
    · rw [hset]
      exact slot0_set close0 _ i f _ ih hf (fun _ hn _ => ⟨hn, fun _ => rfl⟩)
    · rw [h1]; exact ih
  | close w w2 fh r _ hfh h ih =>
    rcases hdd_close_cases h with ⟨_, h1⟩ | ⟨_, h0, f, hf, _, hset, _⟩
    · rw [h1]; exact ih
    · rw [hset]
      refine slot0_set close0 _ _ f _ ih hf ?_
      intro hz hn _
      refine ⟨hn, ?_⟩
      intro hc
      rcases hfh with hfh | hfh
      · omega
      · rw [hc] at hfh
        exact absurd hfh (by decide)
  | read w w2 fh data data2 count r _ h ih =>
    rcases hdd_read_cases h with ⟨_, _, h1⟩
      | ⟨f, _, _, _, hf, _, ⟨_, _, hset⟩ | ⟨_, _, hset⟩⟩
    · rw [h1]; exact ih
    · rw [hset]; exact slot0_set close0 _ _ f _ ih hf (fun _ hn ho => ⟨hn, ho⟩)
    · rw [hset]; exact slot0_set close0 _ _ f _ ih hf (fun _ hn ho => ⟨hn, ho⟩)
  | write w w2 fh data count r _ h ih =>
    rcases hdd_write_cases h with ⟨_, h1⟩
      | ⟨f, _, _, hf, _, _, _, ⟨_, b, hset⟩ | ⟨_, _, hset⟩ | ⟨_, _, b, hset⟩⟩
    · rw [h1]; exact ih
    · rw [hset]; exact slot0_set close0 _ _ f _ ih hf (fun _ hn ho => ⟨hn, ho⟩)
    · rw [hset]; exact slot0_set close0 _ _ f _ ih hf (fun _ hn ho => ⟨hn, ho⟩)
    · rw [hset]; exact slot0_set close0 _ _ f _ ih hf (fun _ hn ho => ⟨hn, ho⟩)
  | seek w w2 fh loc r _ h ih =>
    rcases hdd_seek_cases h with ⟨_, h1⟩ | ⟨_, _, f, hf, _, _, hset, _⟩
    · rw [h1]; exact ih
    · rw [hset]; exact slot0_set close0 _ _ f _ ih hf (fun _ hn ho => ⟨hn, ho⟩)

theorem slot0_invariant_witness :
    ∃ w : HddState (List (Nat × Option HddBuf)),
      hdd_format sampleConsts scriptClient bootSample = some (0, w)
        ∧ ∃ f rest, w.hdd_files = f :: rest ∧ f.name = metaBlockName
            ∧ (false = false → f.is_open = 1) :=
  let ⟨w, h, _⟩ := hdd_format_bootSample
  ⟨w, h, slot0_invariant sampleConsts scriptClient false w (ReachableM.format bootSample w h)⟩

/-! ## Name uniqueness -/

theorem names_set_same (l : List HDD_FILE) (i : Nat) (f : HDD_FILE) (a b c d : Nat)
    (hf : l[i]? = some f) :
    (l.set i { id := a, is_open := b, position := c, size := d, name := f.name }).map
      HDD_FILE.name = l.map HDD_FILE.name := by
  rw [List.map_set]
  apply List.ext_getElem?
  intro j
  rw [List.getElem?_set]
  by_cases hij : i = j
  · subst hij
    have hlen : i < l.length := (List.getElem?_eq_some.mp hf).1
    simp only [if_true, List.length_map, hlen, List.getElem?_map, hf, Option.map_some']
  · simp only [hij, if_false]

theorem uniqueNames_set (names : List (List Nat)) (i : Nat) (p : List Nat)
    (hu : UniqueNames names) (hnew : ∀ j : Nat, names[j]? ≠ some p) :
    UniqueNames (names.set i p) := by
  intro a b x ha hb hx
  rw [List.getElem?_set] at ha hb
  by_cases hia : i = a
  · by_cases hib : i = b
    · omega
    · simp only [hia, if_true] at ha
      simp only [hib, if_false] at hb
      split at ha
      · simp only [Option.some.injEq] at ha
        rw [← ha] at hb
        exact absurd hb (hnew b)
      · exact absurd ha (by simp)
  · by_cases hib : i = b
    · simp only [hib, if_true] at hb
      simp only [hia, if_false] at ha
      split at hb
      · simp only [Option.some.injEq] at hb
        rw [← hb] at ha
        exact absurd ha (hnew a)
      · exact absurd hb (by simp)
    · simp only [hia, if_false] at ha
      simp only [hib, if_false] at hb
      exact hu a b x ha hb hx

theorem names_step {σ : Type} (K : HddConsts) (client : Client σ) (w : HddState σ)
    (hlen : w.hdd_files.length = K.MAX_HDD_FILEDESCR)
    (hu : UniqueNames (w.hdd_files.map HDD_FILE.name)) :
    (∀ path r w2, hdd_open K w path = some (r, w2) →
        w2.hdd_files.length = K.MAX_HDD_FILEDESCR
          ∧ UniqueNames (w2.hdd_files.map HDD_FILE.name))
      ∧ (∀ fh r w2, hdd_close K w fh = some (r, w2) →
        w2.hdd_files.length = K.MAX_HDD_FILEDESCR
          ∧ UniqueNames (w2.hdd_files.map HDD_FILE.name))
      ∧ (∀ fh loc r w2, hdd_seek K w fh loc = some (r, w2) →
        w2.hdd_files.length = K.MAX_HDD_FILEDESCR
          ∧ UniqueNames (w2.hdd_files.map HDD_FILE.name))
      ∧ (∀ fh data count r data2 w2, hdd_read K client w fh data count = some (r, data2, w2) →
        w2.hdd_files.length = K.MAX_HDD_FILEDESCR
          ∧ UniqueNames (w2.hdd_files.map HDD_FILE.name))
      ∧ (∀ fh data count r w2, hdd_write K client w fh data count = some (r, w2) →
        w2.hdd_files.length = K.MAX_HDD_FILEDESCR
          ∧ UniqueNames (w2.hdd_files.map HDD_FILE.name)) := by
  refine ⟨?_, ?_, ?_, ?_, ?_⟩
  · intro path r w2 h
    rcases hdd_open_cases h with ⟨_, h1⟩ | ⟨p, i, f, _, _, hs, _, hf, _, hset, _⟩
      | ⟨p, i, f, _, _, _, _, hf, ⟨_, hset, _⟩ | ⟨_, h1⟩⟩
    · rw [h1]; exact ⟨hlen, hu⟩
    · rw [hset]
      refine ⟨by rw [List.length_set]; exact hlen, ?_⟩
      rw [List.map_set]
      apply uniqueNames_set _ _ _ hu
      intro j hj
      rw [List.getElem?_map] at hj
      obtain ⟨g, hg, hgn⟩ := Option.map_eq_some'.mp hj
      have hjlt : j < K.MAX_HDD_FILEDESCR := by
        rw [← hlen]; exact (List.getElem?_eq_some.mp hg).1
      rcases hdd_open_search_some K.MAX_HDD_FILEDESCR K.MAX_HDD_FILEDESCR (Nat.le_refl _) hs
        with ⟨_, hno⟩ | ⟨hlt, _⟩
      · exact hno j g (by omega) hjlt hg hgn
      · omega
    · rw [hset]
      exact ⟨by rw [List.length_set]; exact hlen, by rw [names_set_same _ _ f _ _ _ _ hf]; exact hu⟩
    · rw [h1]; exact ⟨hlen, hu⟩
  · intro fh r w2 h
    rcases hdd_close_cases h with ⟨_, h1⟩ | ⟨_, _, f, hf, _, hset, _⟩
    · rw [h1]; exact ⟨hlen, hu⟩
    · rw [hset]
      exact ⟨by rw [List.length_set]; exact hlen, by rw [names_set_same _ _ f _ _ _ _ hf]; exact hu⟩
  · intro fh loc r w2 h
    rcases hdd_seek_cases h with ⟨_, h1⟩ | ⟨_, _, f, hf, _, _, hset, _⟩
    · rw [h1]; exact ⟨hlen, hu⟩
    · rw [hset]
      exact ⟨by rw [List.length_set]; exact hlen, by rw [names_set_same _ _ f _ _ _ _ hf]; exact hu⟩
  · intro fh data count r data2 w2 h
    rcases hdd_read_cases h with ⟨_, _, h1⟩
      | ⟨f, _, _, _, hf, _, ⟨_, _, hset⟩ | ⟨_, _, hset⟩⟩
    · rw [h1]; exact ⟨hlen, hu⟩
    · rw [hset]
      exact ⟨by rw [List.length_set]; exact hlen, by rw [names_set_same _ _ f _ _ _ _ hf]; exact hu⟩
    · rw [hset]
      exact ⟨by rw [List.length_set]; exact hlen, by rw [names_set_same _ _ f _ _ _ _ hf]; exact hu⟩
  · intro fh data count r w2 h
    rcases hdd_write_cases h with ⟨_, h1⟩
      | ⟨f, _, _, hf, _, _, _, ⟨_, b, hset⟩ | ⟨_, _, hset⟩ | ⟨_, _, b, hset⟩⟩
    · rw [h1]; exact ⟨hlen, hu⟩
    · rw [hset]
      exact ⟨by rw [List.length_set]; exact hlen, by rw [names_set_same _ _ f _ _ _ _ hf]; exact hu⟩
    · rw [hset]
      exact ⟨by rw [List.length_set]; exact hlen, by rw [names_set_same _ _ f _ _ _ _ hf]; exact hu⟩
    · rw [hset]
      exact ⟨by rw [List.length_set]; exact hlen, by rw [names_set_same _ _ f _ _ _ _ hf]; exact hu⟩

theorem names_reachable {σ : Type} (K : HddConsts) (client : Client σ)
    (hkeep : KeepsTable client) (w : HddState σ) (hreach : Reachable K client w) :
    w.hdd_files.length = K.MAX_HDD_FILEDESCR
      ∧ UniqueNames (w.hdd_files.map HDD_FILE.name) := by
  induction hreach with
  | format w0 w h =>
    rcases hdd_format_cases h with h65 | ⟨_, _, s, cmd, f, rest, ht, hfiles⟩
    · omega
    · rw [hkeep] at ht
      have hrest : ∀ g ∈ rest, g.name = [] := by
        intro g hg
        have hg2 : g ∈ hdd_file_initialization K := by
          rw [ht]; exact List.mem_cons_of_mem _ hg
        rw [hdd_file_initialization_mem K g hg2]
        rfl
      have hl : (f :: rest).length = K.MAX_HDD_FILEDESCR := by
        rw [← ht]; simp [hdd_file_initialization]
      refine ⟨by rw [hfiles]; simpa using hl, ?_⟩
      rw [hfiles]
      have hzero : ∀ (a : Nat) (x : List Nat),
          (List.map HDD_FILE.name
            ({ f with
               id := (cmd_reader (client s cmd (.files (hdd_file_initialization K))).1).block,
               name := metaBlockName,
               size := (cmd_reader
                 (client s cmd (.files (hdd_file_initialization K))).1).block_size,
               is_open := 1 } :: rest))[a]? = some x → x ≠ [] → a = 0 := by
        intro a x ha hx
        rcases a with _ | n
        · rfl
        · simp only [List.map_cons, List.getElem?_cons_succ, List.getElem?_map] at ha
          obtain ⟨g, hg, hgn⟩ := Option.map_eq_some'.mp ha
          rw [hrest g (List.getElem?_mem hg)] at hgn
          exact absurd hgn.symm hx
      intro a b x ha hb hx
      rw [hzero a x ha hx, hzero b x hb hx]
  | open_ w w2 path r _ h ih => exact (names_step K client w ih.1 ih.2).1 path r w2 h
  | close w w2 fh r _ h ih => exact (names_step K client w ih.1 ih.2).2.1 fh r w2 h
  | read w w2 fh data data2 count r _ h ih =>
    exact (names_step K client w ih.1 ih.2).2.2.2.1 fh data count r data2 w2 h
  | write w w2 fh data count r _ h ih =>
    exact (names_step K client w ih.1 ih.2).2.2.2.2 fh data count r w2 h
  | seek w w2 fh loc r _ h ih => exact (names_step K client w ih.1 ih.2).2.2.1 fh loc r w2 h

/-- C17 (as amended). When `hdd_client_operation` leaves the file table untouched (the server
does not answer the meta-block create of `hdd_format` with an op-`BLOCK_READ` response), in
every state reachable from a successful `hdd_format` by `hdd_open`, `hdd_close`, `hdd_read`,
`hdd_write` and `hdd_seek` calls no two distinct slots hold the same non-empty name. -/
theorem name_uniqueness {σ : Type} (K : HddConsts) (client : Client σ)
    (hkeep : KeepsTable client) (w : HddState σ) (hreach : Reachable K client w) :
    ∀ (i j : Nat) (f g : HDD_FILE), w.hdd_files[i]? = some f → w.hdd_files[j]? = some g →
      f.name = g.name → f.name ≠ [] → i = j := by
  intro i j f g hf hg hfg hne
  have hu := (names_reachable K client hkeep w hreach).2
  refine hu i j f.name ?_ ?_ hne
  · rw [List.getElem?_map, hf]; rfl
  · rw [List.getElem?_map, hg, hfg]; rfl

theorem name_uniqueness_witness :
    ∃ w : HddState Nat, Reachable sampleConsts okClient w
      ∧ ∀ (i j : Nat) (f g : HDD_FILE), w.hdd_files[i]? = some f → w.hdd_files[j]? = some g →
          f.name = g.name → f.name ≠ [] → i = j :=
  let ⟨_, w2, hreach, _, _, hopen, _⟩ :=
    hdd_open_stale_general sampleConsts okClient okBoot
      { hdd_init := 1, hdd_files := hdd_file_initialization sampleConsts, server := 1,
        sent := [(cmd_generator 0 0 1 0 3, .null)] }
      1022 (cmd_generator 2 0 0 0 0) (cmd_generator 3 0 0 0 0) (cmd_generator 4 0 0 0 0)
      .null (.bytes [120]) 2 3 4
      rfl (by decide) (by decide) okBoot_lazy_init rfl (by decide) rfl (by decide) rfl
      (by decide)
  ⟨w2, Reachable.open_ _ w2 (some [97]) 1 hreach hopen,
    name_uniqueness sampleConsts okClient okClient_keepsTable w2
      (Reachable.open_ _ w2 (some [97]) 1 hreach hopen)⟩

/-- C17 (counterexample to the claim as stated). The scripted server answers the meta-block
create of `hdd_format` with a success word of op `BLOCK_READ` and a payload;
`hdd_client_operation` writes the payload over `hdd_files`, `hdd_format` still returns 0, and
slots 1 and 2 of the resulting state both hold the name "a". -/
theorem name_uniqueness_counterexample :
    ∃ w : HddState (List (Nat × Option HddBuf)),
      Reachable sampleConsts scriptClient w
        ∧ w.hdd_files[1]?
            = some { id := 0, is_open := 0, position := 0, size := 0, name := [97] }
        ∧ w.hdd_files[2]?
            = some { id := 0, is_open := 0, position := 0, size := 0, name := [97] } := by
  obtain ⟨w, h1, _, h3⟩ := hdd_format_clobber HDD_FILE.empty
    ({ id := 0, is_open := 0, position := 0, size := 0, name := [97] }
      :: { id := 0, is_open := 0, position := 0, size := 0, name := [97] }
      :: List.replicate 1021 HDD_FILE.empty)
  refine ⟨w, Reachable.format _ w h1, ?_, ?_⟩
  · rw [h3]; simp only [List.getElem?_cons_succ, List.getElem?_cons_zero]
  · rw [h3]; simp only [List.getElem?_cons_succ, List.getElem?_cons_zero]

/-! ## hdd_mount -/

/-- A successful run of `hdd_mount`, step by step: the table is reset first, so the read
command is generated from the block id 0 of the reset slot 0. -/
theorem hdd_mount_run {σ : Type} (K : HddConsts) (client : Client σ) (w0 w1 : HddState σ)
    (n resp : Nat) (s2 : σ) (f : HDD_FILE) (rest : List HDD_FILE)
    (hmax : K.MAX_HDD_FILEDESCR = n + 1)
    (hinit : hdd_lazy_init K client w0 = (true, w1))
    (hread : client w1.server (cmd_generator 0 0 K.HDD_META_BLOCK
        ((K.MAX_HDD_FILEDESCR * K.sizeof_HDD_FILE) % 2 ^ 32) K.HDD_BLOCK_READ)
      (.files (hdd_file_initialization K)) = (resp, .files (f :: rest), s2))
    (hok : (cmd_reader resp).r ≠ 1)
    (hsize : (cmd_reader resp).block_size = K.MAX_HDD_FILEDESCR * K.sizeof_HDD_FILE) :
    ∃ w, hdd_mount K client w0 = some (0, w) ∧ w.hdd_init ≠ 0
      ∧ w.hdd_files = { f with id := (cmd_reader resp).block, name := metaBlockName,
                               size := (cmd_reader resp).block_size, is_open := 1 } :: rest
      ∧ w.sent = w1.sent ++ [(cmd_generator 0 0 K.HDD_META_BLOCK
            ((K.MAX_HDD_FILEDESCR * K.sizeof_HDD_FILE) % 2 ^ 32) K.HDD_BLOCK_READ,
           .files (hdd_file_initialization K))] := by
  have hi1 : w1.hdd_init ≠ 0 := hdd_lazy_init_sets_init K client w0 w1 hinit
  have hinitK : hdd_file_initialization K
      = HDD_FILE.empty :: List.replicate n HDD_FILE.empty := by
    simp only [hdd_file_initialization, hmax, List.replicate_succ]
  have hsize2 : ¬ ((cmd_reader resp).block_size ≠ (n + 1) * K.sizeof_HDD_FILE) := by
    rw [← hmax]; exact fun h => h hsize
  rw [hinitK, hmax] at hread
  have hid : HDD_FILE.empty.id = 0 := rfl
  simp only [hdd_mount, hinit, client_call, hinitK, hmax, hid, hread, hok, hsize2,
    HddBuf.toFiles, if_false, Bool.true_eq_false]
  exact ⟨_, rfl, hi1, rfl, rfl⟩

/-- C18 (the code at the failing input). In a state whose slot 0 holds the meta block id 7
(as after an `hdd_format` that got the id 7), `hdd_mount` sends one request: a `BLOCK_READ`
word with flag `META_BLOCK` and size 147456 whose block id field is 0, not 7. -/
theorem hdd_mount_ignores_stored_id :
    ∃ w : HddState (List (Nat × Option HddBuf)),
      hdd_mount sampleConsts scriptClient mountSample = some (0, w)
        ∧ (mountSample.hdd_files[0]?).map HDD_FILE.id = some 7
        ∧ w.sent = [(cmd_generator 0 0 sampleConsts.HDD_META_BLOCK 147456
            sampleConsts.HDD_BLOCK_READ, .files (hdd_file_initialization sampleConsts))]
        ∧ cmd_reader (cmd_generator 0 0 sampleConsts.HDD_META_BLOCK 147456
            sampleConsts.HDD_BLOCK_READ)
            = { block := 0, r := 0, flags := 4, block_size := 147456, op := 1 } := by
  obtain ⟨w, h1, _, _, h4⟩ := hdd_mount_run sampleConsts scriptClient mountSample mountSample
    1023 (cmd_generator 7 0 4 147456 1) []
    { id := 7, is_open := 1, position := 0, size := 147456, name := metaBlockName }
    (List.replicate 1023 HDD_FILE.empty) rfl
    (hdd_lazy_init_of_init sampleConsts scriptClient mountSample (by decide)) rfl (by decide)
    (by decide)
  refine ⟨w, h1, ?_, h4, by decide⟩
  simp only [mountSample, List.getElem?_cons_zero, Option.map_some']

/-! ## The capacity check of hdd_write -/

theorem hdd_lazy_init_sent {σ : Type} (K : HddConsts) (client : Client σ) (w : HddState σ) :
    (hdd_lazy_init K client w).2.sent = w.sent
      ∨ (hdd_lazy_init K client w).2.sent
          = w.sent ++ [(cmd_generator 0 0 K.HDD_INIT 0 K.HDD_DEVICE, .null)] := by
  simp only [hdd_lazy_init, client_call]
  split
  · split
    · exact Or.inr rfl
    · exact Or.inr rfl
  · exact Or.inl rfl

theorem sent_append_one {α : Type} (P : α → Prop) (base l : List α) (e : α)
    (h : ∃ new, l = base ++ new ∧ ∀ x ∈ new, P x) (he : P e) :
    ∃ new, l ++ [e] = base ++ new ∧ ∀ x ∈ new, P x := by
  obtain ⟨new, h1, h2⟩ := h
  refine ⟨new ++ [e], by rw [h1, List.append_assoc], ?_⟩
  intro x hx
  rcases List.mem_append.mp hx with hx1 | hx1
  · exact h2 x hx1
  · rw [List.mem_singleton.mp hx1]; exact he

/-- Every request that `hdd_write` sends is the initialize request of the lazy initialization or
one of the requests of `WriteRequest` for the record of the handle, and the latter are sent
only after the capacity check has passed. -/
theorem hdd_write_sent {σ : Type} {K : HddConsts} {client : Client σ} {w w2 : HddState σ}
    {fh : Int} {data : Option Buf} {count r : Int}
    (h : hdd_write K client w fh data count = some (r, w2)) :
    ∃ new, w2.sent = w.sent ++ new
      ∧ ∀ e ∈ new, e = (cmd_generator 0 0 K.HDD_INIT 0 K.HDD_DEVICE, HddBuf.null)
          ∨ ∃ f, w.hdd_files[fh.toNat]? = some f ∧ 0 ≤ count
              ∧ (toU32 count + f.position) % 2 ^ 32 ≤ K.HDD_MAX_BLOCK_SIZE
              ∧ WriteRequest K f count e.1 := by
  have hfiles := hdd_lazy_init_files K client w
  have hsent := hdd_lazy_init_sent K client w
  cases hi : hdd_lazy_init K client w with
  | mk b w1 =>
  rw [hi] at hfiles hsent
  simp only at hfiles hsent
  have hbase : ∃ new, w1.sent = w.sent ++ new
      ∧ ∀ e ∈ new, e = (cmd_generator 0 0 K.HDD_INIT 0 K.HDD_DEVICE, HddBuf.null)
          ∨ ∃ f, w.hdd_files[fh.toNat]? = some f ∧ 0 ≤ count
              ∧ (toU32 count + f.position) % 2 ^ 32 ≤ K.HDD_MAX_BLOCK_SIZE
              ∧ WriteRequest K f count e.1 := by
    rcases hsent with hs | hs
    · exact ⟨[], by rw [hs, List.append_nil], fun e he => absurd he (List.not_mem_nil e)⟩
    · refine ⟨_, hs, ?_⟩
      intro e he
      exact Or.inl (List.mem_singleton.mp he)
  simp only [hdd_write, hi] at h
  rcases b with _ | _
  · simp only [if_true, Option.some.injEq, Prod.mk.injEq] at h
    rw [← h.2]; exact hbase
  simp only [Bool.true_eq_false, if_false] at h
  by_cases h1 : fh < 0 ∨ fh > (K.MAX_HDD_FILEDESCR : Int)
  · simp only [h1, if_true, Option.some.injEq, Prod.mk.injEq] at h
    rw [← h.2]; exact hbase
  simp only [h1, if_false] at h
  rcases data with _ | d
  · simp only [Option.some.injEq, Prod.mk.injEq] at h
    rw [← h.2]; exact hbase
  simp only at h
  by_cases h2 : count < 0
  · simp only [h2, if_true, Option.some.injEq, Prod.mk.injEq] at h
    rw [← h.2]; exact hbase
  simp only [h2, if_false] at h
  cases hf : w1.hdd_files[fh.toNat]? with
  | none => simp only [hf] at h; exact absurd h (by simp)
  | some f =>
    simp only [hf] at h
    by_cases h3 : (toU32 count + f.position) % 2 ^ 32 > K.HDD_MAX_BLOCK_SIZE
    · simp only [h3, if_true, Option.some.injEq, Prod.mk.injEq] at h
      rw [← h.2]; exact hbase
    simp only [h3, if_false] at h
    by_cases h4 : f.is_open = 0
    · simp only [h4, if_true, Option.some.injEq, Prod.mk.injEq] at h
      rw [← h.2]; exact hbase
    simp only [h4, if_false, client_call] at h
    have hreq : ∀ cmd buf, WriteRequest K f count cmd →
        (fun e : Nat × HddBuf => e = (cmd_generator 0 0 K.HDD_INIT 0 K.HDD_DEVICE, HddBuf.null)
          ∨ ∃ f, w.hdd_files[fh.toNat]? = some f ∧ 0 ≤ count
              ∧ (toU32 count + f.position) % 2 ^ 32 ≤ K.HDD_MAX_BLOCK_SIZE
              ∧ WriteRequest K f count e.1) (cmd, buf) := by
      intro cmd buf hc
      exact Or.inr ⟨f, by rw [← hfiles]; exact hf, by omega, by omega, hc⟩
    by_cases h5 : f.id = 0
    · simp only [h5, if_true] at h
      have hq := sent_append_one _ w.sent w1.sent _ hbase
        (hreq (cmd_generator 0 0 K.HDD_NULL_FLAG (toU32 count) K.HDD_BLOCK_CREATE) (.bytes d)
          (Or.inr (Or.inl rfl)))
      split at h <;> simp only [Option.some.injEq, Prod.mk.injEq] at h <;>
        (rw [← h.2]; exact hq)
    · simp only [h5, if_false] at h
      have hq1 := sent_append_one _ w.sent w1.sent _ hbase
        (hreq (cmd_generator f.id 0 0 f.size K.HDD_BLOCK_READ) (.bytes (malloc f.size))
          (Or.inl rfl))
      split at h
      · simp only [Option.some.injEq, Prod.mk.injEq] at h
        rw [← h.2]; exact hq1
      · by_cases h6 : (f.position + toU32 count) % 2 ^ 32 < f.size
        · simp only [h6, if_true] at h
          have hq2 := sent_append_one _ w.sent _ _ hq1
            (hreq (cmd_generator f.id 0 0 f.size K.HDD_BLOCK_OVERWRITE)
              (.bytes (memcpy ((client w1.server
                (cmd_generator f.id 0 0 f.size K.HDD_BLOCK_READ)
                (.bytes (malloc f.size))).2.1.toBytes (malloc f.size)) f.position d 0
                (toU32 count)))
              (Or.inr (Or.inr (Or.inl rfl))))
          split at h <;> simp only [Option.some.injEq, Prod.mk.injEq] at h <;>
            (rw [← h.2]; exact hq2)
        · simp only [h6, if_false] at h
          have hq2 := sent_append_one _ w.sent _ _ hq1
            (hreq (cmd_generator 0 0 0 ((f.position + toU32 count) % 2 ^ 32)
                K.HDD_BLOCK_CREATE)
              (.bytes (memcpy (memcpy (malloc ((f.position + toU32 count) % 2 ^ 32)) 0
                ((client w1.server (cmd_generator f.id 0 0 f.size K.HDD_BLOCK_READ)
                  (.bytes (malloc f.size))).2.1.toBytes (malloc f.size)) 0 f.size)
                f.position d 0 (toU32 count)))
              (Or.inr (Or.inr (Or.inr (Or.inl rfl)))))
          split at h
          · simp only [Option.some.injEq, Prod.mk.injEq] at h
            rw [← h.2]; exact hq2
          · have hq3 := sent_append_one _ w.sent _ _ hq2
              (hreq (cmd_generator f.id 0 0 0 K.HDD_BLOCK_DELETE) .null
                (Or.inr (Or.inr (Or.inr (Or.inr rfl)))))
            split at h <;> simp only [Option.some.injEq, Prod.mk.injEq] at h <;>
              (rw [← h.2]; exact hq3)

/-- C19 (counterexample to the claim as stated). For an open, unwritten record with position
`2^32 - 1` and count 1, `position + count` exceeds `HDD_MAX_BLOCK_SIZE`, but the 32-bit sum
`count + position` is 0: the capacity check passes, `hdd_write` sends a `BLOCK_CREATE` and
returns 1. And for an open record of `HDD_MAX_BLOCK_SIZE + 1` bytes with the cursor at 0 and
count 1, the check passes and the in-place write sends a `BLOCK_OVERWRITE` command whose block
size is the record's size, above `HDD_MAX_BLOCK_SIZE`. -/
theorem hdd_write_capacity_counterexample :
    (4294967295 + 1 > sampleConsts.HDD_MAX_BLOCK_SIZE
      ∧ hdd_write sampleConsts scriptClient wrapSample 1 (some [120]) 1
          = some (1,
              { hdd_init := 1,
                hdd_files :=
                  [{ id := 1, is_open := 1, position := 0, size := 0, name := metaBlockName },
                   { id := 9, is_open := 1, position := 1, size := 1, name := [97] }],
                server := [],
                sent := [(cmd_generator 0 0 0 1 0, .bytes [120])] }))
      ∧ ∃ w2 : HddState (List (Nat × Option HddBuf)),
          hdd_write sampleConsts scriptClient oversizeSample 1 (some [120]) 1 = some (1, w2)
            ∧ w2.sent.map Prod.fst
                = [cmd_generator 9 0 0 1048576 sampleConsts.HDD_BLOCK_READ,
                   cmd_generator 9 0 0 1048576 sampleConsts.HDD_BLOCK_OVERWRITE]
            ∧ (cmd_reader (cmd_generator 9 0 0 1048576
                sampleConsts.HDD_BLOCK_OVERWRITE)).block_size = 1048576
            ∧ 1048576 > sampleConsts.HDD_MAX_BLOCK_SIZE :=
  ⟨⟨by decide, rfl⟩, _, rfl, rfl, by decide, by decide⟩

/-- C19 (as amended). For a valid handle and a count `>= 0` whose sum with the position does
not wrap in 32 bits (`position + count < 2^32`, as whenever `position <= size <=
HDD_MAX_BLOCK_SIZE < 2^31`): if `position + count > HDD_MAX_BLOCK_SIZE`, `hdd_write` returns
-1 in the state the lazy initialization left, so the only request it can have sent is the
initialize request and the table is unchanged; and if the record's size is at most
`HDD_MAX_BLOCK_SIZE`, the size `hdd_write` leaves in the record is at most
`HDD_MAX_BLOCK_SIZE`, and every command word it sends is the initialize word or, sent only
when `position + count <= HDD_MAX_BLOCK_SIZE`, the read or the overwrite of the record's block
with block size `size`, a create with block size `count` or `position + count`, or the delete
of the record's block with block size 0; the block size field of every word sent is at most
`HDD_MAX_BLOCK_SIZE`. -/
theorem hdd_write_capacity {σ : Type} (K : HddConsts) (client : Client σ) (w : HddState σ)
    (fh : Nat) (f : HDD_FILE) (data : Option Buf) (count : Nat)
    (hfh : fh < K.MAX_HDD_FILEDESCR) (hf : w.hdd_files[fh]? = some f)
    (hnowrap : f.position + count < 2 ^ 32) :
    (f.position + count > K.HDD_MAX_BLOCK_SIZE →
        hdd_write K client w fh data count = some (-1, (hdd_lazy_init K client w).2)
          ∧ (hdd_lazy_init K client w).2.hdd_files = w.hdd_files
          ∧ ((hdd_lazy_init K client w).2.sent = w.sent
              ∨ (hdd_lazy_init K client w).2.sent
                  = w.sent ++ [(cmd_generator 0 0 K.HDD_INIT 0 K.HDD_DEVICE, .null)]))
      ∧ (f.size ≤ K.HDD_MAX_BLOCK_SIZE →
          ∀ (rv : Int) (w2 : HddState σ), hdd_write K client w fh data count = some (rv, w2) →
            (∀ g, w2.hdd_files[fh]? = some g → g.size ≤ K.HDD_MAX_BLOCK_SIZE)
              ∧ ∃ new, w2.sent = w.sent ++ new
                  ∧ ∀ e ∈ new,
                      (e.1 = cmd_generator 0 0 K.HDD_INIT 0 K.HDD_DEVICE
                        ∨ (f.position + count ≤ K.HDD_MAX_BLOCK_SIZE
                          ∧ (e.1 = cmd_generator f.id 0 0 f.size K.HDD_BLOCK_READ
                            ∨ e.1 = cmd_generator 0 0 K.HDD_NULL_FLAG count K.HDD_BLOCK_CREATE
                            ∨ e.1 = cmd_generator f.id 0 0 f.size K.HDD_BLOCK_OVERWRITE
                            ∨ e.1 = cmd_generator 0 0 0 (f.position + count)
                                K.HDD_BLOCK_CREATE
                            ∨ e.1 = cmd_generator f.id 0 0 0 K.HDD_BLOCK_DELETE)))
                      ∧ (cmd_reader e.1).block_size ≤ K.HDD_MAX_BLOCK_SIZE) := by
  have hu : toU32 (count : Int) = count := toU32_natCast count (by omega)
  have hlen : fh < w.hdd_files.length := (List.getElem?_eq_some.mp hf).1
  constructor
  · intro hbig
    refine ⟨?_, hdd_lazy_init_files K client w, hdd_lazy_init_sent K client w⟩
    have hfiles := hdd_lazy_init_files K client w
    cases hi : hdd_lazy_init K client w with
    | mk b w1 =>
    rw [hi] at hfiles
    simp only at hfiles
    have hrange : ¬ ((fh : Int) < 0 ∨ (fh : Int) > (K.MAX_HDD_FILEDESCR : Int)) := by omega
    have hcnt : ¬ ((count : Int) < 0) := by omega
    have hcap : (count + f.position) % 2 ^ 32 > K.HDD_MAX_BLOCK_SIZE := by omega
    have hf1 : w1.hdd_files[fh]? = some f := by rw [hfiles]; exact hf
    rcases b with _ | _
    · simp only [hdd_write, hi, if_true]
    · rcases data with _ | d
      · simp only [hdd_write, hi, hrange, if_false, Bool.true_eq_false]
      · simp only [hdd_write, hi, hrange, hcnt, if_false, Bool.true_eq_false, Int.toNat_ofNat,
          hf1, hu, hcap, if_true]
  · intro hsz rv w2 h
    constructor
    · intro g hg
      rcases hdd_write_cases h with ⟨_, h1⟩
        | ⟨f2, _, _, hf2, _, _, hcap, ⟨_, b, hset⟩ | ⟨_, _, hset⟩ | ⟨_, _, b, hset⟩⟩
      · rw [h1, hf] at hg
        simp only [Option.some.injEq] at hg
        rw [← hg]; exact hsz
      all_goals
        simp only [Int.toNat_ofNat] at hf2 hset
        rw [hf] at hf2
        simp only [Option.some.injEq] at hf2
        subst hf2
        rw [hset, List.getElem?_set_self hlen] at hg
        simp only [Option.some.injEq] at hg
        rw [← hg]
        simp only [hu] at hcap ⊢
        omega
    · obtain ⟨new, hnew, hall⟩ := hdd_write_sent h
      refine ⟨new, hnew, ?_⟩
      intro e he
      rcases hall e he with hinit | ⟨f2, hf2, _, hcap, hreq⟩
      · rw [hinit]
        exact ⟨Or.inl rfl, le_trans (cmd_reader_block_size_le _ _ _ _ _) (Nat.zero_le _)⟩
      · simp only [Int.toNat_ofNat] at hf2
        rw [hf] at hf2
        simp only [Option.some.injEq] at hf2
        subst hf2
        have hmod : (f.position + count) % 2 ^ 32 = f.position + count :=
          Nat.mod_eq_of_lt hnowrap
        simp only [hu] at hcap
        have hsum : f.position + count ≤ K.HDD_MAX_BLOCK_SIZE := by omega
        simp only [WriteRequest, hu, hmod] at hreq
        refine ⟨Or.inr ⟨hsum, hreq⟩, ?_⟩
        rcases hreq with hr | hr | hr | hr | hr
        · rw [hr]; exact le_trans (cmd_reader_block_size_le _ _ _ _ _) hsz
        · rw [hr]; exact le_trans (cmd_reader_block_size_le _ _ _ _ _) (by omega)
        · rw [hr]; exact le_trans (cmd_reader_block_size_le _ _ _ _ _) hsz
        · rw [hr]; exact le_trans (cmd_reader_block_size_le _ _ _ _ _) hsum
        · rw [hr]; exact le_trans (cmd_reader_block_size_le _ _ _ _ _) (Nat.zero_le _)

theorem hdd_write_capacity_witness :
    (3 + 1048573 > sampleConsts.HDD_MAX_BLOCK_SIZE →
        hdd_write sampleConsts scriptClient readSample (1 : Nat) (some [0]) (1048573 : Nat)
            = some (-1, (hdd_lazy_init sampleConsts scriptClient readSample).2)
          ∧ (hdd_lazy_init sampleConsts scriptClient readSample).2.hdd_files
              = readSample.hdd_files
          ∧ ((hdd_lazy_init sampleConsts scriptClient readSample).2.sent = readSample.sent
              ∨ (hdd_lazy_init sampleConsts scriptClient readSample).2.sent
                  = readSample.sent
                    ++ [(cmd_generator 0 0 sampleConsts.HDD_INIT 0 sampleConsts.HDD_DEVICE,
                         .null)]))
      ∧ ∃ w2 : HddState (List (Nat × Option HddBuf)),
          hdd_write sampleConsts scriptClient readSample (1 : Nat) (some [120]) (1 : Nat)
              = some (-1, w2)
            ∧ w2.sent = [(cmd_generator 5 0 0 5 1, .bytes [0, 0, 0, 0, 0]),
                (cmd_generator 5 0 0 5 2, .bytes [10, 20, 30, 120, 50])]
            ∧ (∀ g, w2.hdd_files[1]? = some g → g.size ≤ sampleConsts.HDD_MAX_BLOCK_SIZE)
            ∧ ∃ new, w2.sent = readSample.sent ++ new
                ∧ ∀ e ∈ new, (cmd_reader e.1).block_size ≤ sampleConsts.HDD_MAX_BLOCK_SIZE :=
  have hrun : hdd_write sampleConsts scriptClient readSample (1 : Nat) (some [120]) (1 : Nat)
      = some (-1,
          { hdd_init := 1, hdd_files := readSample.hdd_files, server := [],
            sent := [(cmd_generator 5 0 0 5 1, .bytes [0, 0, 0, 0, 0]),
              (cmd_generator 5 0 0 5 2, .bytes [10, 20, 30, 120, 50])] }) := rfl
  ⟨(hdd_write_capacity sampleConsts scriptClient readSample 1
      { id := 5, is_open := 1, position := 3, size := 5, name := [97] } (some [0]) 1048573
      (by decide) rfl (by decide)).1,
    let ⟨hsize, new, hnew, hall⟩ :=
      (hdd_write_capacity sampleConsts scriptClient readSample 1
        { id := 5, is_open := 1, position := 3, size := 5, name := [97] } (some [120]) 1
        (by decide) rfl (by decide)).2 (by decide) _ _ hrun
    ⟨_, hrun, rfl, hsize, new, hnew, fun e he => (hall e he).2⟩⟩

/-! ## hdd_format -/

theorem cmd_reader_r_ne_one (cmd : Nat) : (cmd_reader cmd).r ≠ 1 ↔ (cmd_reader cmd).r = 0 := by
  have h := (cmd_reader_fields_lt cmd).1
  omega

theorem hdd_lazy_init_flag {σ : Type} (K : HddConsts) (client : Client σ) (w : HddState σ) :
    (hdd_lazy_init K client w).1 = true
      ↔ (w.hdd_init ≠ 0
          ∨ (cmd_reader (client w.server (cmd_generator 0 0 K.HDD_INIT 0 K.HDD_DEVICE)
              .null).1).r = 0) := by
  simp only [hdd_lazy_init, client_call]
  by_cases h0 : w.hdd_init = 0
  · simp only [h0, if_true, ne_eq, not_true_eq_false, false_or]
    by_cases h1 : (cmd_reader (client w.server (cmd_generator 0 0 K.HDD_INIT 0 K.HDD_DEVICE)
        .null).1).r = 1
    · simp only [h1, if_true, Bool.false_eq_true, false_iff]
      omega
    · simp only [h1, if_false, true_iff]
      exact (cmd_reader_r_ne_one _).mp h1
  · simp only [h0, if_false, ne_eq, not_false_eq_true, true_or]

theorem clobberSample_lazy_init (t : List HDD_FILE) :
    hdd_lazy_init sampleConsts scriptClient (clobberSample t)
      = (true, { hdd_init := 1, hdd_files := hdd_file_initialization sampleConsts,
                 server := [(cmd_generator 0 0 2 0 3, none),
                            (cmd_generator 1 0 4 147456 1, some (.files t))],
                 sent := [(cmd_generator 0 0 1 0 3, .null)] }) := by
  have e0 : (cmd_reader (cmd_generator 0 0 1 0 3)).r ≠ 1 := by decide
  simp only [hdd_lazy_init, clobberSample, client_call, scriptClient, if_true, e0, if_false,
    List.nil_append]
  rfl

/-- C20 (counterexample to the claim as stated). The scripted server answers the meta-block
create of `hdd_format` with a success word of op `BLOCK_READ` and a payload;
`hdd_client_operation` writes the payload over `hdd_files`, `hdd_format` returns 0, and slot 1
is not free: it holds the name "b", block id 7, size 3 and is open. -/
theorem hdd_format_slot_not_free :
    ∃ w : HddState (List (Nat × Option HddBuf)),
      hdd_format sampleConsts scriptClient
          (clobberSample (HDD_FILE.empty
            :: { id := 7, is_open := 1, position := 0, size := 3, name := [98] }
            :: List.replicate 1022 HDD_FILE.empty)) = some (0, w)
        ∧ w.hdd_files[1]?
            = some { id := 7, is_open := 1, position := 0, size := 3, name := [98] }
        ∧ w.hdd_files[1]? ≠ some HDD_FILE.empty := by
  obtain ⟨w, h1, _, h3⟩ := hdd_format_clobber HDD_FILE.empty
    ({ id := 7, is_open := 1, position := 0, size := 3, name := [98] }
      :: List.replicate 1022 HDD_FILE.empty)
  have hslot : w.hdd_files[1]?
      = some { id := 7, is_open := 1, position := 0, size := 3, name := [98] } := by
    rw [h3]; simp only [List.getElem?_cons_succ, List.getElem?_cons_zero]
  refine ⟨w, h1, hslot, ?_⟩
  rw [hslot]
  decide

/-- C20 (as amended). `hdd_format` returns 0 exactly when every server call it makes
(initialize if `hdd_init` is 0, device format, meta-block create) answers with result bit 0,
and 65535 (`-1` as `uint16_t`) otherwise. After a return of 0 slot 0 has the name
"Meta Block", `open = 1` and the block id of the create response, every slot `i >= 1` is as
the meta-block create call left it, and the create command was generated with flag
`META_BLOCK` and block size `MAX_HDD_FILEDESCR * sizeof(HDD_FILE)`. When that call has left
the table passed as buffer untouched (it was not answered with an op-`BLOCK_READ` payload),
every slot `i >= 1` is free. The table is an array of `MAX_HDD_FILEDESCR >= 1` records,
whatever bytes the call wrote into it. -/
theorem hdd_format_spec {σ : Type} (K : HddConsts) (client : Client σ) (w0 w1 : HddState σ)
    (b0 : Bool) (n resp1 resp2 : Nat) (fb1 fb2 : HddBuf) (s2 s3 : σ)
    (hmax : K.MAX_HDD_FILEDESCR = n + 1)
    (hinit : hdd_lazy_init K client w0 = (b0, w1))
    (hfmt : client w1.server (cmd_generator 0 0 K.HDD_FORMAT 0 K.HDD_DEVICE) .null
      = (resp1, fb1, s2))
    (hmeta : client s2 (cmd_generator 0 0 K.HDD_META_BLOCK
        ((K.MAX_HDD_FILEDESCR * K.sizeof_HDD_FILE) % 2 ^ 32) K.HDD_BLOCK_CREATE)
      (.files (hdd_file_initialization K)) = (resp2, fb2, s3))
    (htab : (fb2.toFiles (hdd_file_initialization K)).length = K.MAX_HDD_FILEDESCR) :
    (b0 = true ↔ (w0.hdd_init ≠ 0
        ∨ (cmd_reader (client w0.server (cmd_generator 0 0 K.HDD_INIT 0 K.HDD_DEVICE)
            .null).1).r = 0))
      ∧ ∃ rv w, hdd_format K client w0 = some (rv, w)
        ∧ (rv = 0 ↔ (b0 = true ∧ (cmd_reader resp1).r = 0 ∧ (cmd_reader resp2).r = 0))
        ∧ (rv ≠ 0 → rv = 65535)
        ∧ (rv = 0 →
            (∃ g, w.hdd_files[0]? = some g ∧ g.name = metaBlockName ∧ g.is_open = 1
                ∧ g.id = (cmd_reader resp2).block)
              ∧ (∀ i : Nat, 1 ≤ i →
                  w.hdd_files[i]? = (fb2.toFiles (hdd_file_initialization K))[i]?)
              ∧ w.sent = w1.sent ++ [(cmd_generator 0 0 K.HDD_FORMAT 0 K.HDD_DEVICE, .null),
                  (cmd_generator 0 0 K.HDD_META_BLOCK
                    ((K.MAX_HDD_FILEDESCR * K.sizeof_HDD_FILE) % 2 ^ 32) K.HDD_BLOCK_CREATE,
                   .files (hdd_file_initialization K))]
              ∧ (K.HDD_META_BLOCK < 8 → K.MAX_HDD_FILEDESCR * K.sizeof_HDD_FILE < 2 ^ 26 →
                  (cmd_reader (cmd_generator 0 0 K.HDD_META_BLOCK
                    ((K.MAX_HDD_FILEDESCR * K.sizeof_HDD_FILE) % 2 ^ 32)
                    K.HDD_BLOCK_CREATE)).flags = K.HDD_META_BLOCK
                  ∧ (cmd_reader (cmd_generator 0 0 K.HDD_META_BLOCK
                    ((K.MAX_HDD_FILEDESCR * K.sizeof_HDD_FILE) % 2 ^ 32)
                    K.HDD_BLOCK_CREATE)).block_size
                      = K.MAX_HDD_FILEDESCR * K.sizeof_HDD_FILE)
              ∧ (fb2.toFiles (hdd_file_initialization K) = hdd_file_initialization K →
                  ∀ i : Nat, 1 ≤ i → i < K.MAX_HDD_FILEDESCR →
                    w.hdd_files[i]? = some HDD_FILE.empty)) := by
  have hflag := hdd_lazy_init_flag K client w0
  rw [hinit] at hflag
  refine ⟨hflag, ?_⟩
  have hinitK : hdd_file_initialization K
      = HDD_FILE.empty :: List.replicate n HDD_FILE.empty := by
    simp only [hdd_file_initialization, hmax, List.replicate_succ]
  have hr1 := cmd_reader_r_ne_one resp1
  have hr2 := cmd_reader_r_ne_one resp2
  rcases b0 with _ | _
  · refine ⟨65535, w1, ?_, ?_, fun _ => rfl, fun h => absurd h (by decide)⟩
    · simp only [hdd_format, hinit, if_true]
    · constructor
      · intro h; exact absurd h (by decide)
      · intro h; exact absurd h.1 (by decide)
  by_cases h1 : (cmd_reader resp1).r = 1
  · obtain ⟨w, hw⟩ : ∃ w, hdd_format K client w0 = some (65535, w) := by
      simp only [hdd_format, hinit, client_call, hfmt, h1, if_true, if_false,
        Bool.true_eq_false]
      exact ⟨_, rfl⟩
    refine ⟨65535, w, hw, ?_, fun _ => rfl, fun h => absurd h (by decide)⟩
    constructor
    · intro h; exact absurd h (by decide)
    · intro h; omega
  by_cases h2 : (cmd_reader resp2).r = 1
  · obtain ⟨w, hw⟩ : ∃ w, hdd_format K client w0 = some (65535, w) := by
      simp only [hdd_format, hinit, client_call, hfmt, h1, hmeta, h2, if_true, if_false,
        Bool.true_eq_false]
      exact ⟨_, rfl⟩
    refine ⟨65535, w, hw, ?_, fun _ => rfl, fun h => absurd h (by decide)⟩
    constructor
    · intro h; exact absurd h (by decide)
    · intro h; omega
  cases hret : fb2.toFiles (hdd_file_initialization K) with
  | nil =>
    rw [hret, hmax] at htab
    exact absurd htab (by simp)
  | cons g0 rest0 =>
  obtain ⟨w, hw, hwf, hws⟩ : ∃ w, hdd_format K client w0 = some (0, w)
      ∧ w.hdd_files
          = { id := (cmd_reader resp2).block, is_open := 1, position := g0.position,
              size := (cmd_reader resp2).block_size, name := metaBlockName }
            :: rest0
      ∧ w.sent = w1.sent ++ [(cmd_generator 0 0 K.HDD_FORMAT 0 K.HDD_DEVICE, .null),
          (cmd_generator 0 0 K.HDD_META_BLOCK
            ((K.MAX_HDD_FILEDESCR * K.sizeof_HDD_FILE) % 2 ^ 32) K.HDD_BLOCK_CREATE,
           .files (hdd_file_initialization K))] := by
    simp only [hdd_format, hinit, client_call, hfmt, h1, hmeta, h2, if_false,
      Bool.true_eq_false, hret]
    refine ⟨_, rfl, rfl, ?_⟩
    simp only [List.append_assoc, List.singleton_append, List.cons_append, List.nil_append]
  refine ⟨0, w, hw, ?_, fun h => absurd rfl h, fun _ => ⟨?_, ?_, hws, ?_, ?_⟩⟩
  · constructor
    · intro _; exact ⟨rfl, hr1.mp h1, hr2.mp h2⟩
    · intro _; rfl
  · rw [hwf]
    exact ⟨_, List.getElem?_cons_zero, rfl, rfl, rfl⟩
  · intro i hi
    obtain ⟨j, rfl⟩ : ∃ j, i = j + 1 := ⟨i - 1, by omega⟩
    rw [hwf]
    simp only [List.getElem?_cons_succ]
  · intro hf8 hsz
    rw [cmd_reader_cmd_generator _ _ _ _ _ (by decide)]
    constructor
    · show K.HDD_META_BLOCK % 8 = K.HDD_META_BLOCK
      omega
    · show (K.MAX_HDD_FILEDESCR * K.sizeof_HDD_FILE) % 2 ^ 32 % 2 ^ 26
        = K.MAX_HDD_FILEDESCR * K.sizeof_HDD_FILE
      omega
  · intro hkeep i hi hlt
    obtain ⟨j, rfl⟩ : ∃ j, i = j + 1 := ⟨i - 1, by omega⟩
    rw [hinitK] at hkeep
    simp only [List.cons.injEq] at hkeep
    rw [hwf, hkeep.2]
    simp only [List.getElem?_cons_succ]
    rw [List.getElem?_replicate]
    have hj : j < n := by omega
    simp only [hj, if_true]

theorem hdd_format_spec_witness :
    (∃ w : HddState Nat, hdd_format sampleConsts okClient okBoot = some (0, w)
      ∧ (∀ i : Nat, 1 ≤ i → i < 1024 → w.hdd_files[i]? = some HDD_FILE.empty)
      ∧ w.sent = [(cmd_generator 0 0 1 0 3, .null), (cmd_generator 0 0 2 0 3, .null),
          (cmd_generator 0 0 4 147456 0, .files (hdd_file_initialization sampleConsts))])
      ∧ ∃ w : HddState (List (Nat × Option HddBuf)),
          hdd_format sampleConsts scriptClient
              (clobberSample (HDD_FILE.empty
                :: { id := 7, is_open := 1, position := 0, size := 3, name := [98] }
                :: List.replicate 1022 HDD_FILE.empty)) = some (0, w)
            ∧ ∃ g, w.hdd_files[0]? = some g ∧ g.name = metaBlockName ∧ g.is_open = 1
                ∧ g.id = 1 :=
  ⟨let ⟨_, rv, w, hrun, hiff, _, hsucc⟩ :=
      hdd_format_spec sampleConsts okClient okBoot
        { hdd_init := 1, hdd_files := hdd_file_initialization sampleConsts, server := 1,
          sent := [(cmd_generator 0 0 1 0 3, .null)] }
        true 1023 (cmd_generator 2 0 0 0 0) (cmd_generator 3 0 0 0 0) .null
        (.files (hdd_file_initialization sampleConsts)) 2 3
        rfl okBoot_lazy_init rfl rfl (List.length_replicate _ _)
    have hrv : rv = 0 := hiff.mpr ⟨rfl, by decide, by decide⟩
    ⟨w, hrv ▸ hrun, (hsucc hrv).2.2.2.2 rfl, (hsucc hrv).2.2.1⟩,
   let ⟨_, rv, w, hrun, hiff, _, hsucc⟩ :=
      hdd_format_spec sampleConsts scriptClient
        (clobberSample (HDD_FILE.empty
          :: { id := 7, is_open := 1, position := 0, size := 3, name := [98] }
          :: List.replicate 1022 HDD_FILE.empty))
        { hdd_init := 1, hdd_files := hdd_file_initialization sampleConsts,
          server := [(cmd_generator 0 0 2 0 3, none),
                     (cmd_generator 1 0 4 147456 1, some (.files (HDD_FILE.empty
                       :: { id := 7, is_open := 1, position := 0, size := 3, name := [98] }
                       :: List.replicate 1022 HDD_FILE.empty)))],
          sent := [(cmd_generator 0 0 1 0 3, .null)] }
        true 1023 (cmd_generator 0 0 2 0 3) (cmd_generator 1 0 4 147456 1) .null
        (.files (HDD_FILE.empty
          :: { id := 7, is_open := 1, position := 0, size := 3, name := [98] }
          :: List.replicate 1022 HDD_FILE.empty)) _ []
        rfl (clobberSample_lazy_init _) rfl rfl
        (by simp only [HddBuf.toFiles, List.length_cons, List.length_replicate]; rfl)
    have hrv : rv = 0 := hiff.mpr ⟨rfl, by decide, by decide⟩
    ⟨w, hrv ▸ hrun, (hsucc hrv).1⟩⟩

/-! ## hdd_unmount -/

/-- C21. `hdd_unmount` on a device that is not initialized returns the failure value and sends
nothing (the state, request log included, is unchanged). On an initialized device it sends a
`BLOCK_OVERWRITE` with flag `META_BLOCK`, the block id of slot 0 and the size
`MAX_HDD_FILEDESCR * sizeof(HDD_FILE)`, with the table as payload; when the response has the
result bit set nothing else is sent and `hdd_init` is kept; otherwise the `SAVE_AND_CLOSE`
device request is sent next, and `hdd_init` is cleared (and 0 returned) exactly when its
response has result bit 0. -/
theorem hdd_unmount_spec {σ : Type} (K : HddConsts) (client : Client σ) (w : HddState σ)
    (f0 : HDD_FILE) (rest : List HDD_FILE) (resp1 resp2 : Nat) (fb1 fb2 : HddBuf) (s1 s2 : σ)
    (htab : w.hdd_files = f0 :: rest)
    (hsave : client w.server (cmd_generator f0.id 0 K.HDD_META_BLOCK
        ((K.MAX_HDD_FILEDESCR * K.sizeof_HDD_FILE) % 2 ^ 32) K.HDD_BLOCK_OVERWRITE)
      (.files w.hdd_files) = (resp1, fb1, s1))
    (hclose : client s1 (cmd_generator 0 0 K.HDD_SAVE_AND_CLOSE 0 K.HDD_DEVICE) .null
      = (resp2, fb2, s2)) :
    (w.hdd_init = 0 → hdd_unmount K client w = some (65535, w))
      ∧ (w.hdd_init ≠ 0 →
          ∃ rv w2, hdd_unmount K client w = some (rv, w2)
            ∧ (rv = 0 ∨ rv = 65535)
            ∧ (rv = 0 ↔ ((cmd_reader resp1).r = 0 ∧ (cmd_reader resp2).r = 0))
            ∧ (w2.hdd_init = 0 ↔ ((cmd_reader resp1).r = 0 ∧ (cmd_reader resp2).r = 0))
            ∧ ((cmd_reader resp1).r = 1 →
                w2.sent = w.sent ++ [(cmd_generator f0.id 0 K.HDD_META_BLOCK
                  ((K.MAX_HDD_FILEDESCR * K.sizeof_HDD_FILE) % 2 ^ 32) K.HDD_BLOCK_OVERWRITE,
                  .files w.hdd_files)])
            ∧ ((cmd_reader resp1).r = 0 →
                w2.sent = w.sent ++ [(cmd_generator f0.id 0 K.HDD_META_BLOCK
                  ((K.MAX_HDD_FILEDESCR * K.sizeof_HDD_FILE) % 2 ^ 32) K.HDD_BLOCK_OVERWRITE,
                  .files w.hdd_files),
                  (cmd_generator 0 0 K.HDD_SAVE_AND_CLOSE 0 K.HDD_DEVICE, .null)]))
      ∧ (f0.id < 2 ^ 32 → K.HDD_META_BLOCK < 8 → K.HDD_BLOCK_OVERWRITE < 4 →
          K.MAX_HDD_FILEDESCR * K.sizeof_HDD_FILE < 2 ^ 26 →
          cmd_reader (cmd_generator f0.id 0 K.HDD_META_BLOCK
              ((K.MAX_HDD_FILEDESCR * K.sizeof_HDD_FILE) % 2 ^ 32) K.HDD_BLOCK_OVERWRITE)
            = { block := f0.id, r := 0, flags := K.HDD_META_BLOCK,
                block_size := K.MAX_HDD_FILEDESCR * K.sizeof_HDD_FILE,
                op := K.HDD_BLOCK_OVERWRITE }) := by
  have hr1 := cmd_reader_r_ne_one resp1
  have hr2 := cmd_reader_r_ne_one resp2
  refine ⟨?_, ?_, ?_⟩
  · intro h0
    simp only [hdd_unmount, h0, if_true]
  · intro h0
    by_cases h1 : (cmd_reader resp1).r = 1
    · obtain ⟨w2, hw, hi, hs⟩ : ∃ w2, hdd_unmount K client w = some (65535, w2)
          ∧ w2.hdd_init = w.hdd_init
          ∧ w2.sent = w.sent ++ [(cmd_generator f0.id 0 K.HDD_META_BLOCK
              ((K.MAX_HDD_FILEDESCR * K.sizeof_HDD_FILE) % 2 ^ 32) K.HDD_BLOCK_OVERWRITE,
              .files w.hdd_files)] := by
        simp only [hdd_unmount, h0, if_false, htab, client_call]
        rw [htab] at hsave
        simp only [hsave, h1, if_true]
        exact ⟨_, rfl, rfl, rfl⟩
      refine ⟨65535, w2, hw, Or.inr rfl, ?_, ?_, fun _ => hs, fun h => ?_⟩
      · constructor
        · intro h; exact absurd h (by decide)
        · intro h; omega
      · rw [hi]
        constructor
        · intro h; exact absurd h h0
        · intro h; omega
      · omega
    · by_cases h2 : (cmd_reader resp2).r = 1
      · obtain ⟨w2, hw, hi, hs⟩ : ∃ w2, hdd_unmount K client w = some (65535, w2)
            ∧ w2.hdd_init = w.hdd_init
            ∧ w2.sent = w.sent ++ [(cmd_generator f0.id 0 K.HDD_META_BLOCK
                ((K.MAX_HDD_FILEDESCR * K.sizeof_HDD_FILE) % 2 ^ 32) K.HDD_BLOCK_OVERWRITE,
                .files w.hdd_files),
                (cmd_generator 0 0 K.HDD_SAVE_AND_CLOSE 0 K.HDD_DEVICE, .null)] := by
          simp only [hdd_unmount, h0, if_false, htab, client_call]
          rw [htab] at hsave
          simp only [hsave, h1, if_false, hclose, h2, if_true]
          refine ⟨_, rfl, rfl, ?_⟩
          simp only [List.append_assoc, List.singleton_append]
        refine ⟨65535, w2, hw, Or.inr rfl, ?_, ?_, fun h => absurd h h1, fun _ => hs⟩
        · constructor
          · intro h; exact absurd h (by decide)
          · intro h; omega
        · rw [hi]
          constructor
          · intro h; exact absurd h h0
          · intro h; omega
      · obtain ⟨w2, hw, hi, hs⟩ : ∃ w2, hdd_unmount K client w = some (0, w2)
            ∧ w2.hdd_init = 0
            ∧ w2.sent = w.sent ++ [(cmd_generator f0.id 0 K.HDD_META_BLOCK
                ((K.MAX_HDD_FILEDESCR * K.sizeof_HDD_FILE) % 2 ^ 32) K.HDD_BLOCK_OVERWRITE,
                .files w.hdd_files),
                (cmd_generator 0 0 K.HDD_SAVE_AND_CLOSE 0 K.HDD_DEVICE, .null)] := by
          simp only [hdd_unmount, h0, if_false, htab, client_call]
          rw [htab] at hsave
          simp only [hsave, h1, if_false, hclose, h2]
          refine ⟨_, rfl, rfl, ?_⟩
          simp only [List.append_assoc, List.singleton_append]
        refine ⟨0, w2, hw, Or.inl rfl, ?_, ?_, fun h => absurd h h1, fun _ => hs⟩
        · constructor
          · intro _; exact ⟨hr1.mp h1, hr2.mp h2⟩
          · intro _; rfl
        · constructor
          · intro _; exact ⟨hr1.mp h1, hr2.mp h2⟩
          · intro _; exact hi
  · intro hid hf8 hop hsz
    rw [cmd_reader_cmd_generator _ _ _ _ _ hid]
    have e1 : K.HDD_META_BLOCK % 8 = K.HDD_META_BLOCK := by omega
    have e2 : (K.MAX_HDD_FILEDESCR * K.sizeof_HDD_FILE) % 2 ^ 32 % 2 ^ 26
        = K.MAX_HDD_FILEDESCR * K.sizeof_HDD_FILE := by omega
    have e3 : K.HDD_BLOCK_OVERWRITE % 4 = K.HDD_BLOCK_OVERWRITE := by omega
    rw [e1, e2, e3]

theorem hdd_unmount_spec_witness :
    ∃ w2 : HddState (List (Nat × Option HddBuf)),
      hdd_unmount sampleConsts scriptClient unmountSample = some (0, w2)
        ∧ w2.hdd_init = 0
        ∧ w2.sent = [(cmd_generator 7 0 4 147456 2, .files unmountSample.hdd_files),
            (cmd_generator 0 0 3 0 3, .null)] :=
  let ⟨_, h, _⟩ := hdd_unmount_spec sampleConsts scriptClient unmountSample
    { id := 7, is_open := 1, position := 0, size := 147456, name := metaBlockName }
    [{ id := 5, is_open := 0, position := 0, size := 5, name := [97] }]
    (cmd_generator 7 0 4 147456 2) (cmd_generator 0 0 3 0 3)
    (.files unmountSample.hdd_files) .null [(cmd_generator 0 0 3 0 3, none)] []
    rfl rfl rfl
  let ⟨rv, w2, hrun, _, hrv, hinit, _, hsent⟩ := h (by decide)
  have hok : (cmd_reader (cmd_generator 7 0 4 147456 2)).r = 0
      ∧ (cmd_reader (cmd_generator 0 0 3 0 3)).r = 0 := ⟨by decide, by decide⟩
  ⟨w2, (hrv.mpr hok) ▸ hrun, hinit.mpr hok, hsent hok.1⟩

/-! ## hdd_close -/

/-- C22. On an initialized device, for a valid handle (`0 <= fh < MAX_HDD_FILEDESCR`) whose
record is open, `hdd_close` returns 0 and the only change is that the record gets `open = 0`
and `position = 0` (name, block id and size are kept). When the device is not initialized, or
the record of a valid handle is already closed, it returns -1 and the state is unchanged. -/
theorem hdd_close_spec {σ : Type} (K : HddConsts) (w : HddState σ) (fh : Nat) (f : HDD_FILE)
    (hfh : fh < K.MAX_HDD_FILEDESCR) (hf : w.hdd_files[fh]? = some f) :
    (w.hdd_init = 0 → ∀ h : Int, hdd_close K w h = some (-1, w))
      ∧ (w.hdd_init ≠ 0 → f.is_open = 0 → hdd_close K w fh = some (-1, w))
      ∧ (w.hdd_init ≠ 0 → f.is_open ≠ 0 →
          hdd_close K w fh
            = some (0, { w with
                hdd_files := w.hdd_files.set fh
                  { id := f.id, is_open := 0, position := 0, size := f.size,
                    name := f.name } })) := by
  have hcheck : ¬ ((fh : Int) < 0 ∨ (fh : Int) > K.MAX_HDD_FILEDESCR) := by omega
  refine ⟨?_, ?_, ?_⟩
  · intro h0 h
    simp only [hdd_close, h0, if_true]
  · intro h0 hc
    simp only [hdd_close, h0, if_false, hcheck, Int.toNat_ofNat, hf, hc, if_true]
  · intro h0 ho
    simp only [hdd_close, h0, if_false, hcheck, Int.toNat_ofNat, hf, ho]

theorem hdd_close_spec_witness :
    hdd_close sampleConsts readSample (1 : Nat)
      = some (0, { readSample with
          hdd_files := readSample.hdd_files.set 1
            { id := 5, is_open := 0, position := 0, size := 5, name := [97] } }) :=
  ((hdd_close_spec sampleConsts readSample 1
    { id := 5, is_open := 1, position := 3, size := 5, name := [97] }
    (by decide) rfl).2.2 (by decide) (by decide))

/-! ## The fields tile the word -/

/-- C25. The five fields tile the whole 64-bit word: re-encoding the record decoded from a
64-bit word `w` gives `w` back, hence two 64-bit words that decode to the same record are
equal. -/
theorem codec_tiles_word (w : Nat) (hw : w < 2 ^ 64) :
    cmd_generator (cmd_reader w).block (cmd_reader w).r (cmd_reader w).flags
        (cmd_reader w).block_size (cmd_reader w).op = w
      ∧ ∀ v : Nat, v < 2 ^ 64 → cmd_reader w = cmd_reader v → w = v := by
  have key : ∀ u : Nat, u < 2 ^ 64 →
      cmd_generator (cmd_reader u).block (cmd_reader u).r (cmd_reader u).flags
        (cmd_reader u).block_size (cmd_reader u).op = u := by
    intro u hu
    rw [cmd_reader_arith u]
    simp only
    rw [cmd_generator_arith _ _ _ _ _ (Nat.mod_lt _ (by norm_num))]
    omega
  refine ⟨key w hw, ?_⟩
  intro v hv h
  have h1 := key w hw
  rw [h, key v hv] at h1
  exact h1.symm

theorem codec_tiles_word_witness :
    cmd_generator (cmd_reader 13835058124002557959).block (cmd_reader 13835058124002557959).r
        (cmd_reader 13835058124002557959).flags (cmd_reader 13835058124002557959).block_size
        (cmd_reader 13835058124002557959).op = 13835058124002557959 :=
  (codec_tiles_word 13835058124002557959 (by decide)).1

/-! ## Frame -/

theorem getElem?_set_other {α : Type} (l : List α) (i j : Nat) (a : α) (h : j ≠ i) :
    (l.set i a)[j]? = l[j]? := by
  rw [List.getElem?_set]
  have h2 : ¬ i = j := fun e => h e.symm
  simp only [h2, if_false]

theorem hdd_seek_returns {σ : Type} (K : HddConsts) (w : HddState σ) (fh : Nat) (f : HDD_FILE)
    (hf : w.hdd_files[fh]? = some f) (loc : Nat) :
    (hdd_seek K w fh loc).isSome = true := by
  simp only [hdd_seek, Int.toNat_ofNat, hf]
  repeat' split
  all_goals rfl

theorem hdd_close_returns {σ : Type} (K : HddConsts) (w : HddState σ) (fh : Nat) (f : HDD_FILE)
    (hf : w.hdd_files[fh]? = some f) :
    (hdd_close K w fh).isSome = true := by
  simp only [hdd_close, Int.toNat_ofNat, hf]
  repeat' split
  all_goals rfl

theorem hdd_read_returns {σ : Type} (K : HddConsts) (client : Client σ) (w : HddState σ)
    (fh : Nat) (f : HDD_FILE) (hf : w.hdd_files[fh]? = some f) (data : Option Buf)
    (count : Int) :
    (hdd_read K client w fh data count).isSome = true := by
  have hfiles := hdd_lazy_init_files K client w
  rw [← hfiles] at hf
  cases h : hdd_read K client w fh data count with
  | some x => rfl
  | none =>
    exfalso
    rcases data with _ | d
    all_goals simp only [hdd_read, Int.toNat_ofNat, hf] at h
    all_goals repeat' split at h
    all_goals cases h

theorem hdd_write_returns {σ : Type} (K : HddConsts) (client : Client σ) (w : HddState σ)
    (fh : Nat) (f : HDD_FILE) (hf : w.hdd_files[fh]? = some f) (data : Option Buf)
    (count : Int) :
    (hdd_write K client w fh data count).isSome = true := by
  have hfiles := hdd_lazy_init_files K client w
  cases hi : hdd_lazy_init K client w with
  | mk b w1 =>
  rw [hi] at hfiles
  simp only at hfiles
  rw [← hfiles] at hf
  simp only [hdd_write, hi]
  rcases b with _ | _
  · rfl
  simp only [Bool.true_eq_false, if_false]
  by_cases h1 : (fh : Int) < 0 ∨ (fh : Int) > (K.MAX_HDD_FILEDESCR : Int)
  · simp only [h1, if_true, Option.isSome_some]
  simp only [h1, if_false]
  rcases data with _ | d
  · rfl
  simp only
  by_cases h2 : count < 0
  · simp only [h2, if_true, Option.isSome_some]
  simp only [h2, if_false, Int.toNat_ofNat, hf]
  by_cases h3 : (toU32 count + f.position) % 2 ^ 32 > K.HDD_MAX_BLOCK_SIZE
  · simp only [h3, if_true, Option.isSome_some]
  simp only [h3, if_false]
  by_cases h4 : f.is_open = 0
  · simp only [h4, if_true, Option.isSome_some]
  simp only [h4, if_false]
  by_cases h5 : f.id = 0
  · simp only [h5, if_true]
    split <;> rfl
  simp only [h5, if_false]
  split
  · rfl
  by_cases h6 : (f.position + toU32 count) % 2 ^ 32 < f.size
  · simp only [h6, if_true]
    split <;> rfl
  simp only [h6, if_false]
  split
  · rfl
  split <;> rfl

/-- C26. Frame: for a handle `fh` of a table slot and any behaviour of
`hdd_client_operation`, `hdd_read`, `hdd_write`, `hdd_seek` and `hdd_close` return and leave
every table slot other than `fh` unchanged, and after `hdd_read` and `hdd_seek` slot `fh` is
the record it was with at most the position changed. -/
theorem frame_effect {σ : Type} (K : HddConsts) (client : Client σ) (w : HddState σ)
    (fh : Nat) (f : HDD_FILE) (hf : w.hdd_files[fh]? = some f) :
    (∀ (data : Option Buf) (count : Int),
        ∃ r d2 w2, hdd_read K client w fh data count = some (r, d2, w2)
          ∧ (∀ j : Nat, j ≠ fh → w2.hdd_files[j]? = w.hdd_files[j]?)
          ∧ ∃ p, w2.hdd_files[fh]? = some { f with position := p })
      ∧ (∀ (data : Option Buf) (count : Int),
        ∃ r w2, hdd_write K client w fh data count = some (r, w2)
          ∧ ∀ j : Nat, j ≠ fh → w2.hdd_files[j]? = w.hdd_files[j]?)
      ∧ (∀ loc : Nat,
        ∃ r w2, hdd_seek K w fh loc = some (r, w2)
          ∧ (∀ j : Nat, j ≠ fh → w2.hdd_files[j]? = w.hdd_files[j]?)
          ∧ ∃ p, w2.hdd_files[fh]? = some { f with position := p })
      ∧ ∃ r w2, hdd_close K w fh = some (r, w2)
          ∧ ∀ j : Nat, j ≠ fh → w2.hdd_files[j]? = w.hdd_files[j]? := by
  have hlen : fh < w.hdd_files.length := (List.getElem?_eq_some.mp hf).1
  have hsame : w.hdd_files[fh]? = some { f with position := f.position } := hf
  refine ⟨?_, ?_, ?_, ?_⟩
  · intro data count
    obtain ⟨⟨r, d2, w2⟩, h⟩ := Option.isSome_iff_exists.mp
      (hdd_read_returns K client w fh f hf data count)
    refine ⟨r, d2, w2, h, ?_⟩
    rcases hdd_read_cases h with ⟨_, _, h1⟩ | ⟨g, _, _, _, hg, _, ⟨_, _, h1⟩ | ⟨_, _, h1⟩⟩
    · rw [h1]
      exact ⟨fun _ _ => rfl, _, hsame⟩
    · simp only [Int.toNat_ofNat] at hg h1
      have e : g = f := Option.some.inj (hg.symm.trans hf)
      rw [h1, e]
      exact ⟨fun j hj => getElem?_set_other _ _ _ _ hj, _, List.getElem?_set_self hlen⟩
    · simp only [Int.toNat_ofNat] at hg h1
      have e : g = f := Option.some.inj (hg.symm.trans hf)
      rw [h1, e]
      exact ⟨fun j hj => getElem?_set_other _ _ _ _ hj, _, List.getElem?_set_self hlen⟩
  · intro data count
    obtain ⟨⟨r, w2⟩, h⟩ := Option.isSome_iff_exists.mp
      (hdd_write_returns K client w fh f hf data count)
    refine ⟨r, w2, h, ?_⟩
    rcases hdd_write_cases h with ⟨_, h1⟩
      | ⟨g, _, _, _, _, _, _, ⟨_, _, h1⟩ | ⟨_, _, h1⟩ | ⟨_, _, _, h1⟩⟩
    · rw [h1]
      exact fun _ _ => rfl
    all_goals
      simp only [Int.toNat_ofNat] at h1
      rw [h1]
      exact fun j hj => getElem?_set_other _ _ _ _ hj
  · intro loc
    obtain ⟨⟨r, w2⟩, h⟩ := Option.isSome_iff_exists.mp (hdd_seek_returns K w fh f hf loc)
    refine ⟨r, w2, h, ?_⟩
    rcases hdd_seek_cases h with ⟨_, h1⟩ | ⟨_, _, g, hg, _, _, h1, _⟩
    · rw [h1]
      exact ⟨fun _ _ => rfl, _, hsame⟩
    · simp only [Int.toNat_ofNat] at hg h1
      have e : g = f := Option.some.inj (hg.symm.trans hf)
      rw [h1, e]
      exact ⟨fun j hj => getElem?_set_other _ _ _ _ hj, _, List.getElem?_set_self hlen⟩
  · obtain ⟨⟨r, w2⟩, h⟩ := Option.isSome_iff_exists.mp (hdd_close_returns K w fh f hf)
    refine ⟨r, w2, h, ?_⟩
    rcases hdd_close_cases h with ⟨_, h1⟩ | ⟨_, _, g, _, _, h1, _⟩
    · rw [h1]
      exact fun _ _ => rfl
    · simp only [Int.toNat_ofNat] at h1
      rw [h1]
      exact fun j hj => getElem?_set_other _ _ _ _ hj

theorem frame_effect_witness :
    ∃ (r : Int) (d2 : Option Buf) (w2 : HddState (List (Nat × Option HddBuf))),
      hdd_read sampleConsts scriptClient readSample (1 : Nat) (some [0, 0]) 2
          = some (r, d2, w2)
        ∧ (∀ j : Nat, j ≠ 1 → w2.hdd_files[j]? = readSample.hdd_files[j]?)
        ∧ ∃ p, w2.hdd_files[1]?
            = some { id := 5, is_open := 1, position := p, size := 5, name := [97] } :=
  (frame_effect sampleConsts scriptClient readSample 1
    { id := 5, is_open := 1, position := 3, size := 5, name := [97] } rfl).1 (some [0, 0]) 2

/-! ## The transfer loops of hdd_client_operation -/

theorem transfer_loop_done (wd len : Nat) (results : List Int) (n : Int)
    (h : ¬ (n % 2 ^ wd).toNat < len) : transfer_loop wd len results n = some (n, results) := by
  cases results with
  | nil => simp only [transfer_loop, h, if_false]
  | cons r rest => simp only [transfer_loop, h, if_false]

theorem transfer_loop_zeros (k : Nat) :
    transfer_loop 64 8 (List.replicate k 0) 0 = none := by
  have e0 : ((0 : Int) % 2 ^ 64).toNat < 8 := by decide
  have e1 : toInt (0 + 0) = 0 := by decide
  induction k with
  | zero => simp only [List.replicate_zero, transfer_loop, e0, if_true]
  | succ k ih => simp only [List.replicate_succ, transfer_loop, e0, if_true, e1, ih]

/-- C24 (the code at the failing inputs). The loops of `hdd_client_operation` test only the
running total: a call that returns 0 does not stop the loop (a further call is made), with
every call returning 0 the loop is still running after any number of calls, and a call that
returns -1 after 3 bytes were transferred is followed by further calls, after which the
operation returns the response word and not the sentinel. The sentinel is returned when the
first call of a loop returns -1. -/
theorem transfer_loop_bad_call :
    transfer_loop 64 8 [0, 8] 0 = some (8, [])
      ∧ (∀ k : Nat, transfer_loop 64 8 (List.replicate k 0) 0 = none)
      ∧ (∀ k : Nat, hdd_client_operation sampleConsts (cmd_generator 5 0 0 0 3) true
          (cmd_generator 5 0 0 0 3) (8 :: List.replicate k 0) = none)
      ∧ hdd_client_operation sampleConsts (cmd_generator 5 0 0 0 3) true
          (cmd_generator 5 0 0 0 3) [3, -1, 6, 8] = some (cmd_generator 5 0 0 0 3, [])
      ∧ hdd_client_operation sampleConsts (cmd_generator 5 0 0 0 3) true
          (cmd_generator 5 0 0 0 3) [3, -1, -1, -1, -1, 8] = some (HDD_SENTINEL, [8])
      ∧ hdd_client_operation sampleConsts (cmd_generator 5 0 0 0 3) true
          (cmd_generator 5 0 0 0 3) [-1, 8] = some (HDD_SENTINEL, [8]) := by
  refine ⟨by decide, transfer_loop_zeros, ?_, by decide, by decide, by decide⟩
  intro k
  have e0 : ((0 : Int) % 2 ^ 64).toNat < 8 := by decide
  have e1 : toInt (0 + 8) = 8 := by decide
  have e2 : ¬ ((8 : Int) % 2 ^ 64).toNat < 8 := by decide
  have e3 : ¬ ((((cmd_generator 5 0 0 0 3) >>> 33) % 2 ^ 8) &&& 7 = sampleConsts.HDD_INIT
      ∧ true = false) := by decide
  have e4 : ¬ (((cmd_generator 5 0 0 0 3) >>> 62) % 2 ^ 8 = sampleConsts.HDD_BLOCK_CREATE
      ∨ ((cmd_generator 5 0 0 0 3) >>> 62) % 2 ^ 8 = sampleConsts.HDD_BLOCK_OVERWRITE) := by
    decide
  have e5 : (8 : Int) ≠ -1 := by decide
  have hsend : transfer_loop 64 8 (8 :: List.replicate k 0) 0
      = some (8, List.replicate k 0) := by
    simp only [transfer_loop, e0, if_true, e1]
    exact transfer_loop_done 64 8 _ 8 e2
  simp only [hdd_client_operation, e3, if_false, hsend, e5, e4, client_receive,
    transfer_loop_zeros]

/-! ## The failure sentinel -/

theorem logClient_call {σ : Type} (client : Client σ) (w : HddState (σ × List Nat))
    (cmd : Nat) (buf : HddBuf) :
    (client_call (logClient client) w cmd buf).2.2.server.2
      = w.server.2 ++ [(client_call (logClient client) w cmd buf).1] := rfl

theorem allOk_append_one (l : List Nat) (x : Nat) (h : AllOk l) (hx : (cmd_reader x).r ≠ 1) :
    AllOk (l ++ [x]) := by
  intro y hy
  rcases List.mem_append.mp hy with h1 | h1
  · exact h y h1
  · rw [List.mem_singleton.mp h1]; exact hx

theorem allOk_call {σ : Type} (client : Client σ) (w : HddState (σ × List Nat))
    (cmd : Nat) (buf : HddBuf) (h : AllOk w.server.2)
    (hx : (cmd_reader (client_call (logClient client) w cmd buf).1).r ≠ 1) :
    AllOk (client_call (logClient client) w cmd buf).2.2.server.2 := by
  rw [logClient_call]
  exact allOk_append_one _ _ h hx

theorem hdd_lazy_init_allOk {σ : Type} (K : HddConsts) (client : Client σ)
    (w w1 : HddState (σ × List Nat)) (h : AllOk w.server.2)
    (hi : hdd_lazy_init K (logClient client) w = (true, w1)) : AllOk w1.server.2 := by
  simp only [hdd_lazy_init] at hi
  by_cases h0 : w.hdd_init = 0
  · simp only [h0, if_true] at hi
    by_cases h1 : (cmd_reader (client_call (logClient client) w
        (cmd_generator 0 0 K.HDD_INIT 0 K.HDD_DEVICE) .null).1).r = 1
    · simp only [h1, if_true, Prod.mk.injEq, Bool.false_eq_true, false_and] at hi
    · simp only [h1, if_false, Prod.mk.injEq, true_and] at hi
      rw [← hi]
      exact allOk_call client w _ _ h h1
  · simp only [h0, if_false, Prod.mk.injEq, true_and] at hi
    rw [← hi]; exact h

theorem hdd_unmount_allOk {σ : Type} (K : HddConsts) (client : Client σ)
    (w w2 : HddState (σ × List Nat)) (rv : Int) (h : AllOk w.server.2)
    (hrun : hdd_unmount K (logClient client) w = some (rv, w2)) (hrv : rv ≠ 65535) :
    AllOk w2.server.2 := by
  simp only [hdd_unmount] at hrun
  by_cases h0 : w.hdd_init = 0
  · simp only [h0, if_true, Option.some.injEq, Prod.mk.injEq] at hrun
    exact absurd hrun.1.symm hrv
  simp only [h0, if_false] at hrun
  cases htab : w.hdd_files with
  | nil => simp only [htab] at hrun; exact absurd hrun (by simp)
  | cons f0 rest =>
    simp only [htab] at hrun
    generalize hc1 : client_call (logClient client) w (cmd_generator f0.id 0 K.HDD_META_BLOCK
      ((K.MAX_HDD_FILEDESCR * K.sizeof_HDD_FILE) % 2 ^ 32) K.HDD_BLOCK_OVERWRITE)
      (.files (f0 :: rest)) = c1 at hrun
    have a1 := allOk_call client w (cmd_generator f0.id 0 K.HDD_META_BLOCK
      ((K.MAX_HDD_FILEDESCR * K.sizeof_HDD_FILE) % 2 ^ 32) K.HDD_BLOCK_OVERWRITE)
      (.files (f0 :: rest)) h
    rw [hc1] at a1
    by_cases h1 : (cmd_reader c1.1).r = 1
    · simp only [h1, if_true, Option.some.injEq, Prod.mk.injEq] at hrun
      exact absurd hrun.1.symm hrv
    simp only [h1, if_false] at hrun
    generalize hc2 : client_call (logClient client)
      { c1.2.2 with hdd_files := c1.2.1.toFiles (f0 :: rest) }
      (cmd_generator 0 0 K.HDD_SAVE_AND_CLOSE 0 K.HDD_DEVICE) .null = c2 at hrun
    have a2 := allOk_call client { c1.2.2 with hdd_files := c1.2.1.toFiles (f0 :: rest) }
      (cmd_generator 0 0 K.HDD_SAVE_AND_CLOSE 0 K.HDD_DEVICE) .null (a1 h1)
    rw [hc2] at a2
    by_cases h2 : (cmd_reader c2.1).r = 1
    · simp only [h2, if_true, Option.some.injEq, Prod.mk.injEq] at hrun
      exact absurd hrun.1.symm hrv
    simp only [h2, if_false, Option.some.injEq, Prod.mk.injEq] at hrun
    rw [← hrun.2]
    exact a2 h2

theorem hdd_format_allOk {σ : Type} (K : HddConsts) (client : Client σ)
    (w w2 : HddState (σ × List Nat)) (rv : Int) (h : AllOk w.server.2)
    (hrun : hdd_format K (logClient client) w = some (rv, w2)) (hrv : rv ≠ 65535) :
    AllOk w2.server.2 := by
  cases hi : hdd_lazy_init K (logClient client) w with
  | mk b w1 =>
  simp only [hdd_format, hi] at hrun
  rcases b with _ | _
  · simp only [if_true, Option.some.injEq, Prod.mk.injEq] at hrun
    exact absurd hrun.1.symm hrv
  have a0 := hdd_lazy_init_allOk K client w w1 h hi
  simp only [Bool.true_eq_false, if_false] at hrun
  generalize hc1 : client_call (logClient client) w1
    (cmd_generator 0 0 K.HDD_FORMAT 0 K.HDD_DEVICE) .null = c1 at hrun
  have a1 := allOk_call client w1 (cmd_generator 0 0 K.HDD_FORMAT 0 K.HDD_DEVICE) .null a0
  rw [hc1] at a1
  by_cases h1 : (cmd_reader c1.1).r = 1
  · simp only [h1, if_true, Option.some.injEq, Prod.mk.injEq] at hrun
    exact absurd hrun.1.symm hrv
  simp only [h1, if_false] at hrun
  generalize hc2 : client_call (logClient client)
    { c1.2.2 with hdd_files := hdd_file_initialization K }
    (cmd_generator 0 0 K.HDD_META_BLOCK
      ((K.MAX_HDD_FILEDESCR * K.sizeof_HDD_FILE) % 2 ^ 32) K.HDD_BLOCK_CREATE)
    (.files (hdd_file_initialization K)) = c2 at hrun
  have a2 := allOk_call client { c1.2.2 with hdd_files := hdd_file_initialization K }
    (cmd_generator 0 0 K.HDD_META_BLOCK
      ((K.MAX_HDD_FILEDESCR * K.sizeof_HDD_FILE) % 2 ^ 32) K.HDD_BLOCK_CREATE)
    (.files (hdd_file_initialization K)) (a1 h1)
  rw [hc2] at a2
  by_cases h2 : (cmd_reader c2.1).r = 1
  · simp only [h2, if_true, Option.some.injEq, Prod.mk.injEq] at hrun
    exact absurd hrun.1.symm hrv
  simp only [h2, if_false] at hrun
  cases htab : c2.2.1.toFiles (hdd_file_initialization K) with
  | nil => simp only [htab] at hrun; exact absurd hrun (by simp)
  | cons f rest =>
    simp only [htab, Option.some.injEq, Prod.mk.injEq] at hrun
    rw [← hrun.2]
    exact a2 h2

theorem hdd_mount_allOk {σ : Type} (K : HddConsts) (client : Client σ)
    (w w2 : HddState (σ × List Nat)) (rv : Int) (h : AllOk w.server.2)
    (hrun : hdd_mount K (logClient client) w = some (rv, w2)) (hrv : rv ≠ 65535) :
    AllOk w2.server.2 := by
  cases hi : hdd_lazy_init K (logClient client) w with
  | mk b w1 =>
  simp only [hdd_mount, hi] at hrun
  rcases b with _ | _
  · simp only [if_true, Option.some.injEq, Prod.mk.injEq] at hrun
    exact absurd hrun.1.symm hrv
  have a0 := hdd_lazy_init_allOk K client w w1 h hi
  simp only [Bool.true_eq_false, if_false] at hrun
  cases hinitK : hdd_file_initialization K with
  | nil => simp only [hinitK] at hrun; exact absurd hrun (by simp)
  | cons f0 rest0 =>
    simp only [hinitK] at hrun
    generalize hc1 : client_call (logClient client)
      { w1 with hdd_files := f0 :: rest0 }
      (cmd_generator f0.id 0 K.HDD_META_BLOCK
        ((K.MAX_HDD_FILEDESCR * K.sizeof_HDD_FILE) % 2 ^ 32) K.HDD_BLOCK_READ)
      (.files (f0 :: rest0)) = c1 at hrun
    have a1 := allOk_call client { w1 with hdd_files := f0 :: rest0 }
      (cmd_generator f0.id 0 K.HDD_META_BLOCK
        ((K.MAX_HDD_FILEDESCR * K.sizeof_HDD_FILE) % 2 ^ 32) K.HDD_BLOCK_READ)
      (.files (f0 :: rest0)) a0
    rw [hc1] at a1
    by_cases h1 : (cmd_reader c1.1).r = 1
    · simp only [h1, if_true, Option.some.injEq, Prod.mk.injEq] at hrun
      exact absurd hrun.1.symm hrv
    simp only [h1, if_false] at hrun
    by_cases h2 : (cmd_reader c1.1).block_size = K.MAX_HDD_FILEDESCR * K.sizeof_HDD_FILE
    swap
    · simp only [ne_eq, h2, not_false_eq_true, if_true, Option.some.injEq,
        Prod.mk.injEq] at hrun
      exact absurd hrun.1.symm hrv
    simp only [ne_eq, h2, not_true_eq_false, if_false] at hrun
    cases htab : c1.2.1.toFiles (f0 :: rest0) with
    | nil => simp only [htab] at hrun; exact absurd hrun (by simp)
    | cons f rest =>
      simp only [htab, Option.some.injEq, Prod.mk.injEq] at hrun
      rw [← hrun.2]
      exact a1 h1

theorem hdd_read_allOk {σ : Type} (K : HddConsts) (client : Client σ)
    (w w2 : HddState (σ × List Nat)) (fh : Int) (data d2 : Option Buf) (count rv : Int)
    (h : AllOk w.server.2)
    (hrun : hdd_read K (logClient client) w fh data count = some (rv, d2, w2))
    (hrv : rv ≠ -1) : AllOk w2.server.2 := by
  cases hi : hdd_lazy_init K (logClient client) w with
  | mk b w1 =>
  simp only [hdd_read, hi] at hrun
  rcases b with _ | _
  · simp only [if_true, Option.some.injEq, Prod.mk.injEq] at hrun
    exact absurd hrun.1.symm hrv
  have a0 := hdd_lazy_init_allOk K client w w1 h hi
  simp only [Bool.true_eq_false, if_false] at hrun
  by_cases h1 : fh < 0 ∨ fh > (K.MAX_HDD_FILEDESCR : Int)
  · simp only [h1, if_true, Option.some.injEq, Prod.mk.injEq] at hrun
    exact absurd hrun.1.symm hrv
  simp only [h1, if_false] at hrun
  rcases data with _ | d
  · simp only [Option.some.injEq, Prod.mk.injEq] at hrun
    exact absurd hrun.1.symm hrv
  simp only at hrun
  by_cases h2 : count < 0 ∨ count > (K.HDD_MAX_BLOCK_SIZE : Int)
  · simp only [h2, if_true, Option.some.injEq, Prod.mk.injEq] at hrun
    exact absurd hrun.1.symm hrv
  simp only [h2, if_false] at hrun
  cases hf : w1.hdd_files[fh.toNat]? with
  | none => simp only [hf] at hrun; exact absurd hrun (by simp)
  | some f =>
    simp only [hf] at hrun
    by_cases h4 : f.is_open = 0
    · simp only [h4, if_true, Option.some.injEq, Prod.mk.injEq] at hrun
      exact absurd hrun.1.symm hrv
    simp only [h4, if_false] at hrun
    generalize hc1 : client_call (logClient client) w1
      (cmd_generator f.id 0 0 f.size K.HDD_BLOCK_READ) (.bytes (malloc f.size)) = c1 at hrun
    have a1 := allOk_call client w1 (cmd_generator f.id 0 0 f.size K.HDD_BLOCK_READ)
      (.bytes (malloc f.size)) a0
    rw [hc1] at a1
    by_cases h5 : (cmd_reader c1.1).r = 1
    · simp only [h5, if_true, Option.some.injEq, Prod.mk.injEq] at hrun
      exact absurd hrun.1.symm hrv
    simp only [h5, if_false] at hrun
    split at hrun
    · simp only [Option.some.injEq, Prod.mk.injEq] at hrun
      rw [← hrun.2.2]
      exact a1 h5
    · simp only [Option.some.injEq, Prod.mk.injEq] at hrun
      rw [← hrun.2.2]
      exact a1 h5

theorem hdd_write_allOk {σ : Type} (K : HddConsts) (client : Client σ)
    (w w2 : HddState (σ × List Nat)) (fh : Int) (data : Option Buf) (count rv : Int)
    (h : AllOk w.server.2)
    (hrun : hdd_write K (logClient client) w fh data count = some (rv, w2))
    (hrv : rv ≠ -1) : AllOk w2.server.2 := by
  cases hi : hdd_lazy_init K (logClient client) w with
  | mk b w1 =>
  simp only [hdd_write, hi] at hrun
  rcases b with _ | _
  · simp only [if_true, Option.some.injEq, Prod.mk.injEq] at hrun
    exact absurd hrun.1.symm hrv
  have a0 := hdd_lazy_init_allOk K client w w1 h hi
  simp only [Bool.true_eq_false, if_false] at hrun
  by_cases h1 : fh < 0 ∨ fh > (K.MAX_HDD_FILEDESCR : Int)
  · simp only [h1, if_true, Option.some.injEq, Prod.mk.injEq] at hrun
    exact absurd hrun.1.symm hrv
  simp only [h1, if_false] at hrun
  rcases data with _ | d
  · simp only [Option.some.injEq, Prod.mk.injEq] at hrun
    exact absurd hrun.1.symm hrv
  simp only at hrun
  by_cases h2 : count < 0
  · simp only [h2, if_true, Option.some.injEq, Prod.mk.injEq] at hrun
    exact absurd hrun.1.symm hrv
  simp only [h2, if_false] at hrun
  cases hf : w1.hdd_files[fh.toNat]? with
  | none => simp only [hf] at hrun; exact absurd hrun (by simp)
  | some f =>
    simp only [hf] at hrun
    by_cases h3 : (toU32 count + f.position) % 2 ^ 32 > K.HDD_MAX_BLOCK_SIZE
    · simp only [h3, if_true, Option.some.injEq, Prod.mk.injEq] at hrun
      exact absurd hrun.1.symm hrv
    simp only [h3, if_false] at hrun
    by_cases h4 : f.is_open = 0
    · simp only [h4, if_true, Option.some.injEq, Prod.mk.injEq] at hrun
      exact absurd hrun.1.symm hrv
    simp only [h4, if_false] at hrun
    by_cases h5 : f.id = 0
    · simp only [h5, if_true] at hrun
      generalize hc1 : client_call (logClient client) w1
        (cmd_generator 0 0 K.HDD_NULL_FLAG (toU32 count) K.HDD_BLOCK_CREATE) (.bytes d)
        = c1 at hrun
      have a1 := allOk_call client w1
        (cmd_generator 0 0 K.HDD_NULL_FLAG (toU32 count) K.HDD_BLOCK_CREATE) (.bytes d) a0
      rw [hc1] at a1
      by_cases h6 : (cmd_reader c1.1).r = 1
      · simp only [h6, if_true, Option.some.injEq, Prod.mk.injEq] at hrun
        exact absurd hrun.1.symm hrv
      simp only [h6, if_false, Option.some.injEq, Prod.mk.injEq] at hrun
      rw [← hrun.2]
      exact a1 h6
    simp only [h5, if_false] at hrun
    generalize hc1 : client_call (logClient client) w1
      (cmd_generator f.id 0 0 f.size K.HDD_BLOCK_READ) (.bytes (malloc f.size)) = c1 at hrun
    have a1 := allOk_call client w1 (cmd_generator f.id 0 0 f.size K.HDD_BLOCK_READ)
      (.bytes (malloc f.size)) a0
    rw [hc1] at a1
    by_cases h6 : (cmd_reader c1.1).r = 1
    · simp only [h6, if_true, Option.some.injEq, Prod.mk.injEq] at hrun
      exact absurd hrun.1.symm hrv
    simp only [h6, if_false] at hrun
    by_cases h7 : (f.position + toU32 count) % 2 ^ 32 < f.size
    · simp only [h7, if_true] at hrun
      generalize hc2 : client_call (logClient client) c1.2.2
        (cmd_generator f.id 0 0 f.size K.HDD_BLOCK_OVERWRITE)
        (.bytes (memcpy (c1.2.1.toBytes (malloc f.size)) f.position d 0 (toU32 count)))
        = c2 at hrun
      have a2 := allOk_call client c1.2.2
        (cmd_generator f.id 0 0 f.size K.HDD_BLOCK_OVERWRITE)
        (.bytes (memcpy (c1.2.1.toBytes (malloc f.size)) f.position d 0 (toU32 count)))
        (a1 h6)
      rw [hc2] at a2
      by_cases h8 : (cmd_reader c2.1).r = 1
      · simp only [h8, if_true, Option.some.injEq, Prod.mk.injEq] at hrun
        exact absurd hrun.1.symm hrv
      simp only [h8, if_false, Option.some.injEq, Prod.mk.injEq] at hrun
      rw [← hrun.2]
      exact a2 h8
    simp only [h7, if_false] at hrun
    generalize hc2 : client_call (logClient client) c1.2.2
      (cmd_generator 0 0 0 ((f.position + toU32 count) % 2 ^ 32) K.HDD_BLOCK_CREATE)
      (.bytes (memcpy (memcpy (malloc ((f.position + toU32 count) % 2 ^ 32)) 0
        (c1.2.1.toBytes (malloc f.size)) 0 f.size) f.position d 0 (toU32 count)))
      = c2 at hrun
    have a2 := allOk_call client c1.2.2
      (cmd_generator 0 0 0 ((f.position + toU32 count) % 2 ^ 32) K.HDD_BLOCK_CREATE)
      (.bytes (memcpy (memcpy (malloc ((f.position + toU32 count) % 2 ^ 32)) 0
        (c1.2.1.toBytes (malloc f.size)) 0 f.size) f.position d 0 (toU32 count)))
      (a1 h6)
    rw [hc2] at a2
    by_cases h8 : (cmd_reader c2.1).r = 1
    · simp only [h8, if_true, Option.some.injEq, Prod.mk.injEq] at hrun
      exact absurd hrun.1.symm hrv
    simp only [h8, if_false] at hrun
    generalize hc3 : client_call (logClient client) c2.2.2
      (cmd_generator f.id 0 0 0 K.HDD_BLOCK_DELETE) .null = c3 at hrun
    have a3 := allOk_call client c2.2.2 (cmd_generator f.id 0 0 0 K.HDD_BLOCK_DELETE) .null
      (a2 h8)
    rw [hc3] at a3
    by_cases h9 : (cmd_reader c3.1).r = 1
    · simp only [h9, if_true, Option.some.injEq, Prod.mk.injEq] at hrun
      exact absurd hrun.1.symm hrv
    simp only [h9, if_false, Option.some.injEq, Prod.mk.injEq] at hrun
    rw [← hrun.2]
    exact a3 h9

/-- C23. The failure sentinel of `hdd_client_operation`, `-1` as a 64-bit word, decodes to a
record with result bit 1, and whenever one of the client operations made by `hdd_format`,
`hdd_mount`, `hdd_unmount`, `hdd_read` or `hdd_write` returned the sentinel (the responses
are recorded by `logClient`, starting from an empty record), the function returned its
failure value: 65535 (`-1` as `uint16_t`) for the first three, -1 for the last two. -/
theorem sentinel_fails {σ : Type} (K : HddConsts) (client : Client σ)
    (w : HddState (σ × List Nat)) (hlog : w.server.2 = []) :
    HDD_SENTINEL = 2 ^ 64 - 1 ∧ (cmd_reader HDD_SENTINEL).r = 1
      ∧ (∀ (rv : Int) (w2 : HddState (σ × List Nat)),
          hdd_format K (logClient client) w = some (rv, w2) →
          HDD_SENTINEL ∈ w2.server.2 → rv = 65535)
      ∧ (∀ (rv : Int) (w2 : HddState (σ × List Nat)),
          hdd_mount K (logClient client) w = some (rv, w2) →
          HDD_SENTINEL ∈ w2.server.2 → rv = 65535)
      ∧ (∀ (rv : Int) (w2 : HddState (σ × List Nat)),
          hdd_unmount K (logClient client) w = some (rv, w2) →
          HDD_SENTINEL ∈ w2.server.2 → rv = 65535)
      ∧ (∀ (fh : Int) (data d2 : Option Buf) (count rv : Int) (w2 : HddState (σ × List Nat)),
          hdd_read K (logClient client) w fh data count = some (rv, d2, w2) →
          HDD_SENTINEL ∈ w2.server.2 → rv = -1)
      ∧ (∀ (fh : Int) (data : Option Buf) (count rv : Int) (w2 : HddState (σ × List Nat)),
          hdd_write K (logClient client) w fh data count = some (rv, w2) →
          HDD_SENTINEL ∈ w2.server.2 → rv = -1) := by
  have hs : (cmd_reader HDD_SENTINEL).r = 1 := by decide
  have h0 : AllOk w.server.2 := by
    rw [hlog]; intro x hx; exact absurd hx (List.not_mem_nil x)
  refine ⟨rfl, hs, ?_, ?_, ?_, ?_, ?_⟩
  · intro rv w2 hrun hmem
    by_contra hrv
    exact hdd_format_allOk K client w w2 rv h0 hrun hrv _ hmem hs
  · intro rv w2 hrun hmem
    by_contra hrv
    exact hdd_mount_allOk K client w w2 rv h0 hrun hrv _ hmem hs
  · intro rv w2 hrun hmem
    by_contra hrv
    exact hdd_unmount_allOk K client w w2 rv h0 hrun hrv _ hmem hs
  · intro fh data d2 count rv w2 hrun hmem
    by_contra hrv
    exact hdd_read_allOk K client w w2 fh data d2 count rv h0 hrun hrv _ hmem hs
  · intro fh data count rv w2 hrun hmem
    by_contra hrv
    exact hdd_write_allOk K client w w2 fh data count rv h0 hrun hrv _ hmem hs

theorem sentinel_fails_witness :
    ∃ (rv : Int) (d2 : Option Buf) (w2 : HddState (List (Nat × Option HddBuf) × List Nat)),
      hdd_read sampleConsts (logClient scriptClient) downSample 1 (some [0]) 1
          = some (rv, d2, w2)
        ∧ HDD_SENTINEL ∈ w2.server.2 ∧ rv = -1 :=
  have hrun : hdd_read sampleConsts (logClient scriptClient) downSample 1 (some [0]) 1
      = some (-1, some [0],
          { hdd_init := 1, hdd_files := downSample.hdd_files, server := ([], [HDD_SENTINEL]),
            sent := [(cmd_generator 5 0 0 5 1, .bytes [0, 0, 0, 0, 0])] }) := rfl
  have hmem : HDD_SENTINEL ∈ [HDD_SENTINEL] := List.mem_singleton.mpr rfl
  ⟨_, _, _, hrun, hmem,
    (sentinel_fails sampleConsts scriptClient downSample rfl).2.2.2.2.2.1 _ _ _ _ _ _
      hrun hmem⟩

end HDD
